import Mathlib

/-
Verification of the family-relationship chatbot (src/main.py) against its
natural-language specification.

The Python program keeps all primitive facts in a Prolog database (via pyswip)
loaded from an external rule file that is not part of the repository sources.
Following the specification, the Prolog side is modelled here as an explicit
fact store (lists of asserted atoms, in assertion order) together with the
derivation rules of spec section 4.2.  Everything in main.py itself
(name extraction, validation checks, statement and question processing,
output sentences) is translated directly from the source.

Strings are modelled as Lean strings; the Python string operations used by
the source (strip, rstrip, lower, capitalize, split, replace, containment,
startswith, endswith) are defined here over the character list of the string,
restricted to ASCII case mapping, which covers every sentence the program
recognises.
-/

/-- Thin model of Python lower-casing of a single ASCII character. -/
def lowerChar (c : Char) : Char :=
  match c with
  | 'A' => 'a' | 'B' => 'b' | 'C' => 'c' | 'D' => 'd' | 'E' => 'e' | 'F' => 'f'
  | 'G' => 'g' | 'H' => 'h' | 'I' => 'i' | 'J' => 'j' | 'K' => 'k' | 'L' => 'l'
  | 'M' => 'm' | 'N' => 'n' | 'O' => 'o' | 'P' => 'p' | 'Q' => 'q' | 'R' => 'r'
  | 'S' => 's' | 'T' => 't' | 'U' => 'u' | 'V' => 'v' | 'W' => 'w' | 'X' => 'x'
  | 'Y' => 'y' | 'Z' => 'z' | other => other

/-- Thin model of Python upper-casing of a single ASCII character. -/
def upperChar (c : Char) : Char :=
  match c with
  | 'a' => 'A' | 'b' => 'B' | 'c' => 'C' | 'd' => 'D' | 'e' => 'E' | 'f' => 'F'
  | 'g' => 'G' | 'h' => 'H' | 'i' => 'I' | 'j' => 'J' | 'k' => 'K' | 'l' => 'L'
  | 'm' => 'M' | 'n' => 'N' | 'o' => 'O' | 'p' => 'P' | 'q' => 'Q' | 'r' => 'R'
  | 's' => 'S' | 't' => 'T' | 'u' => 'U' | 'v' => 'V' | 'w' => 'W' | 'x' => 'X'
  | 'y' => 'Y' | 'z' => 'Z' | other => other

/-- Whitespace test used by the model of Python str.strip. -/
def isSpaceChar (c : Char) : Bool :=
  c = ' ' || c = '\t' || c = '\n' || c = '\r'

/-- Model of Python str.lower (ASCII range). -/
def pyLower (s : String) : String := ⟨s.data.map lowerChar⟩

/-- Model of Python str.strip (leading and trailing whitespace removed). -/
def pyStrip (s : String) : String :=
  ⟨((s.data.dropWhile isSpaceChar).reverse.dropWhile isSpaceChar).reverse⟩

/-- Model of Python rstrip with a period argument: trailing dots removed. -/
def rstripDots (s : String) : String :=
  ⟨(s.data.reverse.dropWhile (fun c => c = '.')).reverse⟩

/-- Model of Python str.capitalize: first character upper-cased, rest lower-cased. -/
def pyCapitalize (s : String) : String :=
  match s.data with
  | [] => ""
  | c :: t => ⟨upperChar c :: t.map lowerChar⟩

/-- Fueled worker for leftmost non-overlapping split, mirroring Python str.split
with a non-empty separator. -/
def splitGo (sep : List Char) : Nat → List Char → List Char → List (List Char)
  | _, [], acc => [acc.reverse]
  | 0, rest, acc => [acc.reverse ++ rest]
  | Nat.succ f, c :: t, acc =>
    if sep.isPrefixOf (c :: t) && !sep.isEmpty then
      acc.reverse :: splitGo sep f (List.drop sep.length (c :: t)) []
    else
      splitGo sep f t (c :: acc)

/-- Model of Python str.split with a separator string. -/
def pySplit (sep s : String) : List String :=
  (splitGo sep.data (s.data.length + 1) s.data []).map (fun l => ⟨l⟩)

/-- Fueled worker for leftmost non-overlapping replacement, mirroring Python
str.replace. -/
def replGo (old new : List Char) : Nat → List Char → List Char
  | _, [] => []
  | 0, rest => rest
  | Nat.succ f, c :: t =>
    if old.isPrefixOf (c :: t) && !old.isEmpty then
      new ++ replGo old new f (List.drop old.length (c :: t))
    else
      c :: replGo old new f t

/-- Model of Python str.replace. -/
def pyReplace (s old new : String) : String :=
  ⟨replGo old.data new.data (s.data.length + 1) s.data⟩

/-- Substring occurrence test over character lists. -/
def hasSubList : List Char → List Char → Bool
  | hay, needle =>
    needle.isPrefixOf hay ||
      match hay with
      | [] => false
      | _ :: t => hasSubList t needle

/-- Model of the Python containment test for strings. -/
def strIn (needle hay : String) : Bool := hasSubList hay.data needle.data

/-- Model of Python str.startswith. -/
def startsB (pre s : String) : Bool := pre.data.isPrefixOf s.data

/-- Model of Python str.endswith. -/
def endsB (suf s : String) : Bool := suf.data.reverse.isPrefixOf s.data.reverse

/-- Comma-and-space join used by the enumeration answers, mirroring the join
call in the source. -/
def joinComma : List String → String
  | [] => ""
  | [x] => x
  | x :: y :: t => x ++ ", " ++ joinComma (y :: t)

/-- Insertion step of the sorting model for Python list.sort over strings. -/
def insertSorted (x : String) : List String → List String
  | [] => [x]
  | y :: t => if x ≤ y then x :: y :: t else y :: insertSorted x t

/-- Model of Python list.sort on strings (ascending lexicographic order). -/
def sortNames (l : List String) : List String := l.foldr insertSorted []

/-- Gender values used by the gender facts. -/
inductive Gender
  | male
  | female
deriving DecidableEq, Repr

/-- Modelled from the spec: the Prolog fact database of the chatbot.  The
external rule file holding it is not among the repository sources; spec
section 4.1 describes it as an append-only store of primitive facts (gender,
parent, sibling, pibling, plus directly asserted grandparent facts), and the
pyswip assertz calls of main.py append clauses in order.  Each field lists the
asserted atoms in assertion order. -/
structure KB where
  males : List String
  females : List String
  parents : List (String × String)
  siblings : List (String × String)
  grandparents : List (String × String)
  piblings : List (String × String)
deriving DecidableEq, Repr

/-- Empty knowledge base: the session-visible store before any statement. -/
def kbE : KB := ⟨[], [], [], [], [], []⟩

/-- Modelled from the spec: provability of a male gender fact (a stored atom). -/
def provMale (kb : KB) (x : String) : Bool := decide (x ∈ kb.males)

/-- Modelled from the spec: provability of a female gender fact. -/
def provFemale (kb : KB) (x : String) : Bool := decide (x ∈ kb.females)

/-- Modelled from the spec: provability of a parent fact. -/
def provParent (kb : KB) (p c : String) : Bool := decide ((p, c) ∈ kb.parents)

/-- Modelled from the spec: provability of a sibling fact (stored symmetrically
by the assertion code, so plain membership suffices). -/
def provSibling (kb : KB) (a b : String) : Bool := decide ((a, b) ∈ kb.siblings)

/-- Modelled from the spec: a grandparent query holds for a directly asserted
grandparent fact or through two parent facts (spec section 4.2). -/
def provGrandparent (kb : KB) (g c : String) : Bool :=
  decide ((g, c) ∈ kb.grandparents) ||
    kb.parents.any (fun e => decide (e.1 = g) && decide ((e.2, c) ∈ kb.parents))

/-- Modelled from the spec: provability of a pibling (aunt/uncle) fact. -/
def provPibling (kb : KB) (p n : String) : Bool := decide ((p, n) ∈ kb.piblings)

/-- Modelled from the spec: mother is parent plus female gender. -/
def provMother (kb : KB) (m c : String) : Bool := provParent kb m c && provFemale kb m

/-- Modelled from the spec: father is parent plus male gender. -/
def provFather (kb : KB) (f c : String) : Bool := provParent kb f c && provMale kb f

/-- Modelled from the spec: son of a parent, arguments child then parent. -/
def provSon (kb : KB) (s p : String) : Bool := provParent kb p s && provMale kb s

/-- Modelled from the spec: daughter of a parent, arguments child then parent. -/
def provDaughter (kb : KB) (d p : String) : Bool := provParent kb p d && provFemale kb d

/-- Modelled from the spec: brother is sibling plus male gender. -/
def provBrother (kb : KB) (b s : String) : Bool := provSibling kb b s && provMale kb b

/-- Modelled from the spec: sister is sibling plus female gender. -/
def provSister (kb : KB) (a s : String) : Bool := provSibling kb a s && provFemale kb a

/-- Modelled from the spec: grandmother is grandparent plus female gender. -/
def provGrandmother (kb : KB) (g c : String) : Bool := provGrandparent kb g c && provFemale kb g

/-- Modelled from the spec: grandfather is grandparent plus male gender. -/
def provGrandfather (kb : KB) (g c : String) : Bool := provGrandparent kb g c && provMale kb g

/-- Modelled from the spec: aunt is pibling plus female gender. -/
def provAunt (kb : KB) (a n : String) : Bool := provPibling kb a n && provFemale kb a

/-- Modelled from the spec: uncle is pibling plus male gender. -/
def provUncle (kb : KB) (u n : String) : Bool := provPibling kb u n && provMale kb u

/-- Edge set over which relatedness is computed: parent, sibling and pibling
facts (spec section 4.2, the related predicate). -/
def edgesOf (kb : KB) : List (String × String) :=
  kb.parents ++ kb.siblings ++ kb.piblings

/-- Undirected neighbor enumeration over an edge list. -/
def neighborsOf (es : List (String × String)) (x : String) : List String :=
  es.filterMap (fun e =>
    if e.1 = x then some e.2 else if e.2 = x then some e.1 else none)

/-- Fueled undirected reachability search over an edge list. -/
def reachB (es : List (String × String)) : Nat → String → String → Bool
  | 0, x, y => decide (x = y)
  | Nat.succ f, x, y =>
    decide (x = y) || (neighborsOf es x).any (fun z => reachB es f z y)

/-- Modelled from the spec: the related query is true of two distinct people
connected by any finite undirected path of parent, sibling or pibling edges.
The fuel bound exceeds twice the number of edges, hence the number of vertices
of any simple path, so the bounded search decides exactly that connectivity. -/
def provRelated (kb : KB) (x y : String) : Bool :=
  !decide (x = y) && reachB (edgesOf kb) (2 * (edgesOf kb).length + 1) x y

/-- Assertion of a male gender fact (assertz appends at the end). -/
def assertMale (kb : KB) (x : String) : KB := { kb with males := kb.males ++ [x] }

/-- Assertion of a female gender fact. -/
def assertFemale (kb : KB) (x : String) : KB := { kb with females := kb.females ++ [x] }

/-- Assertion of a parent fact. -/
def assertParent (kb : KB) (p c : String) : KB := { kb with parents := kb.parents ++ [(p, c)] }

/-- Assertion of a sibling fact (one direction; the source asserts both). -/
def assertSibling (kb : KB) (a b : String) : KB := { kb with siblings := kb.siblings ++ [(a, b)] }

/-- Assertion of a grandparent fact. -/
def assertGrandparent (kb : KB) (g c : String) : KB := { kb with grandparents := kb.grandparents ++ [(g, c)] }

/-- Assertion of a pibling fact. -/
def assertPibling (kb : KB) (p n : String) : KB := { kb with piblings := kb.piblings ++ [(p, n)] }

/-- Canonical name form produced by the extraction code of main.py:
strip, rstrip of periods, lower, capitalize. -/
def canonName (s : String) : String :=
  pyCapitalize (pyLower (rstripDots (pyStrip s)))

/-- Question-side canonical form (strip, lower, capitalize; no rstrip). -/
def canonNameQ (s : String) : String :=
  pyCapitalize (pyLower (pyStrip s))

/-- Lower-cased stripped form used by several question handlers. -/
def lowTrim (s : String) : String := pyLower (pyStrip s)

/-- Translation of extract names from statement: split on the relationship
phrase and canonicalize the first two parts. -/
def extractNamesFromStatement (statement relationshipPhrase : String) : String × String :=
  let parts := pySplit relationshipPhrase statement
  (canonName (parts.getD 0 ""), canonName (parts.getD 1 ""))

/-- Translation of the gender-conflict check: the opposite gender is provable
for the lower-cased person. -/
def hasGenderConflict (kb : KB) (personName : String) (expectedGender : Gender) : Bool :=
  match expectedGender with
  | Gender.male => provFemale kb (pyLower personName)
  | Gender.female => provMale kb (pyLower personName)

/-- Translation of the relatedness check between two persons. -/
def arePersonsRelated (kb : KB) (person1 person2 : String) : Bool :=
  provRelated kb (pyLower person1) (pyLower person2)

/-- Translation of the circular-relationship check: the proposed parent is
already related to the proposed child. -/
def wouldCreateCircularRelationship (kb : KB) (child parent : String) : Bool :=
  arePersonsRelated kb parent child

/-- Translation of the invalid parent-child check: the child is a recorded
parent or grandparent of the parent, and the reverse parent fact is absent. -/
def wouldCreateInvalidParentChildRelationship (kb : KB) (child parent : String) : Bool :=
  (provParent kb (pyLower child) (pyLower parent) ||
     provGrandparent kb (pyLower child) (pyLower parent)) &&
    !(provParent kb (pyLower parent) (pyLower child))

/-- Translation of the invalid sibling check: direct parent-child or
grandparent-grandchild relation in either direction. -/
def wouldCreateInvalidSiblingRelationship (kb : KB) (person1 person2 : String) : Bool :=
  (provParent kb (pyLower person1) (pyLower person2) ||
     provParent kb (pyLower person2) (pyLower person1)) ||
    (provGrandparent kb (pyLower person1) (pyLower person2) ||
       provGrandparent kb (pyLower person2) (pyLower person1))

/-- Translation of the multiple-children validation loop. -/
def validateMultipleChildrenStatement (kb : KB) (childrenList : List String) (parentName : String) : Bool :=
  childrenList.all (fun child =>
    !(decide (pyLower child = pyLower parentName)) &&
      !(wouldCreateCircularRelationship kb child parentName))

/-- Output line for an accepted statement. -/
def okMsg : String := "OK! I learned something."

/-- Output line for a rejected statement or question content. -/
def impossibleMsg : String := "That\x27s impossible!"

/-- Output line for an unmatched statement. -/
def invalidStmtMsg : String := "Invalid statement. Please follow the sentence patterns."

/-- Output line for an unmatched question. -/
def invalidQMsg : String := "Invalid question. Please follow the sentence patterns."

/-- Positive yes/no answer. -/
def yesMsg : String := "Yes!"

/-- Negative yes/no answer. -/
def noMsg : String := "No!"

/-- Farewell line of the conversation loop. -/
def byeMsg : String := "Byebye:<"

/-- Enumeration answer sentence. -/
def enumMsg (role person listed : String) : String :=
  "The " ++ role ++ " of " ++ person ++ " are: " ++ listed ++ "."

/-- Singular answer sentence used by the who-mother and who-father handlers. -/
def singularMsg (role person value : String) : String :=
  "The " ++ role ++ " of " ++ person ++ " is " ++ value ++ "."

/-- Unknown answer sentence of the plural who handlers. -/
def unknownMsg (role person : String) : String :=
  "I don\x27t know the " ++ role ++ " of " ++ person ++ "."

/-- Unknown answer sentence of the singular who handlers. -/
def unknownWhoMsg (role person : String) : String :=
  "I don\x27t know who the " ++ role ++ " of " ++ person ++ " is."

/-- Translation of process siblings statement. -/
def processSiblingsStatement (kb : KB) (statement : String) : KB × String :=
  match pySplit " and " (pyReplace statement " are siblings" "") with
  | [a, b] =>
    let person1 := canonName a
    let person2 := canonName b
    if pyLower person1 = pyLower person2 then (kb, impossibleMsg)
    else if wouldCreateInvalidSiblingRelationship kb person1 person2 = true then (kb, impossibleMsg)
    else
      (assertSibling (assertSibling kb (pyLower person1) (pyLower person2))
        (pyLower person2) (pyLower person1), okMsg)
  | _ => (kb, invalidStmtMsg)

/-- Translation of process parents statement. -/
def processParentsStatement (kb : KB) (statement : String) : KB × String :=
  match pySplit " and " (pyReplace statement " are the parents of " " and ") with
  | [x, y, z] =>
    let parent1 := canonName x
    let parent2 := canonName y
    let child := canonName z
    if pyLower child = pyLower parent1 ∨ pyLower child = pyLower parent2 ∨
        wouldCreateCircularRelationship kb child parent1 = true ∨
        wouldCreateCircularRelationship kb child parent2 = true then
      (kb, impossibleMsg)
    else
      (assertParent (assertParent kb (pyLower parent1) (pyLower child))
        (pyLower parent2) (pyLower child), okMsg)
  | _ => (kb, invalidStmtMsg)

/-- Translation of process multiple children statement. -/
def processMultipleChildrenStatement (kb : KB) (statement : String) : KB × String :=
  let parts := pySplit " and "
    (pyReplace (pyReplace statement " are children of " " and ") ", " " and ")
  match parts with
  | _ :: _ :: _ =>
    let children := parts.dropLast.map canonName
    let parent := canonName (parts.getLastD "")
    if validateMultipleChildrenStatement kb children parent = true then
      (children.foldl (fun k child => assertParent k (pyLower parent) (pyLower child)) kb, okMsg)
    else (kb, impossibleMsg)
  | _ => (kb, invalidStmtMsg)

/-- Translation of process father statement. -/
def processFatherStatement (kb : KB) (statement : String) : KB × String :=
  let fc := extractNamesFromStatement statement " is the father of "
  if pyLower fc.1 = pyLower fc.2 ∨ hasGenderConflict kb fc.1 Gender.male = true ∨
      wouldCreateCircularRelationship kb fc.2 fc.1 = true then
    (kb, impossibleMsg)
  else
    (assertParent (assertMale kb (pyLower fc.1)) (pyLower fc.1) (pyLower fc.2), okMsg)

/-- Translation of process mother statement. -/
def processMotherStatement (kb : KB) (statement : String) : KB × String :=
  let mc := extractNamesFromStatement statement " is the mother of "
  if pyLower mc.1 = pyLower mc.2 ∨ hasGenderConflict kb mc.1 Gender.female = true ∨
      wouldCreateCircularRelationship kb mc.2 mc.1 = true then
    (kb, impossibleMsg)
  else
    (assertParent (assertFemale kb (pyLower mc.1)) (pyLower mc.1) (pyLower mc.2), okMsg)

/-- Translation of process brother statement. -/
def processBrotherStatement (kb : KB) (statement : String) : KB × String :=
  let bs := extractNamesFromStatement statement " is a brother of "
  if pyLower bs.1 = pyLower bs.2 ∨ hasGenderConflict kb bs.1 Gender.male = true ∨
      wouldCreateInvalidSiblingRelationship kb bs.1 bs.2 = true then
    (kb, impossibleMsg)
  else
    (assertSibling (assertSibling (assertMale kb (pyLower bs.1))
      (pyLower bs.1) (pyLower bs.2)) (pyLower bs.2) (pyLower bs.1), okMsg)

/-- Translation of process sister statement. -/
def processSisterStatement (kb : KB) (statement : String) : KB × String :=
  let ss := extractNamesFromStatement statement " is a sister of "
  if pyLower ss.1 = pyLower ss.2 ∨ hasGenderConflict kb ss.1 Gender.female = true ∨
      wouldCreateInvalidSiblingRelationship kb ss.1 ss.2 = true then
    (kb, impossibleMsg)
  else
    (assertSibling (assertSibling (assertFemale kb (pyLower ss.1))
      (pyLower ss.1) (pyLower ss.2)) (pyLower ss.2) (pyLower ss.1), okMsg)

/-- Translation of process grandmother statement. -/
def processGrandmotherStatement (kb : KB) (statement : String) : KB × String :=
  let gc := extractNamesFromStatement statement " is a grandmother of "
  if pyLower gc.1 = pyLower gc.2 ∨ hasGenderConflict kb gc.1 Gender.female = true ∨
      wouldCreateCircularRelationship kb gc.2 gc.1 = true then
    (kb, impossibleMsg)
  else
    (assertGrandparent (assertFemale kb (pyLower gc.1)) (pyLower gc.1) (pyLower gc.2), okMsg)

/-- Translation of process grandfather statement. -/
def processGrandfatherStatement (kb : KB) (statement : String) : KB × String :=
  let gc := extractNamesFromStatement statement " is a grandfather of "
  if pyLower gc.1 = pyLower gc.2 ∨ hasGenderConflict kb gc.1 Gender.male = true ∨
      wouldCreateCircularRelationship kb gc.2 gc.1 = true then
    (kb, impossibleMsg)
  else
    (assertGrandparent (assertMale kb (pyLower gc.1)) (pyLower gc.1) (pyLower gc.2), okMsg)

/-- Translation of process child statement. -/
def processChildStatement (kb : KB) (statement : String) : KB × String :=
  let cp := extractNamesFromStatement statement " is a child of "
  if pyLower cp.1 = pyLower cp.2 ∨
      wouldCreateInvalidParentChildRelationship kb cp.1 cp.2 = true then
    (kb, impossibleMsg)
  else
    (assertParent kb (pyLower cp.2) (pyLower cp.1), okMsg)

/-- Translation of process daughter statement. -/
def processDaughterStatement (kb : KB) (statement : String) : KB × String :=
  let dp := extractNamesFromStatement statement " is a daughter of "
  if pyLower dp.1 = pyLower dp.2 ∨ hasGenderConflict kb dp.1 Gender.female = true ∨
      wouldCreateInvalidParentChildRelationship kb dp.1 dp.2 = true then
    (kb, impossibleMsg)
  else
    (assertParent (assertFemale kb (pyLower dp.1)) (pyLower dp.2) (pyLower dp.1), okMsg)

/-- Translation of process son statement. -/
def processSonStatement (kb : KB) (statement : String) : KB × String :=
  let sp := extractNamesFromStatement statement " is a son of "
  if pyLower sp.1 = pyLower sp.2 ∨ hasGenderConflict kb sp.1 Gender.male = true ∨
      wouldCreateInvalidParentChildRelationship kb sp.1 sp.2 = true then
    (kb, impossibleMsg)
  else
    (assertParent (assertMale kb (pyLower sp.1)) (pyLower sp.2) (pyLower sp.1), okMsg)

/-- Translation of process aunt statement. -/
def processAuntStatement (kb : KB) (statement : String) : KB × String :=
  let an := extractNamesFromStatement statement " is an aunt of "
  if pyLower an.1 = pyLower an.2 ∨ hasGenderConflict kb an.1 Gender.female = true ∨
      wouldCreateCircularRelationship kb an.2 an.1 = true then
    (kb, impossibleMsg)
  else
    (assertPibling (assertFemale kb (pyLower an.1)) (pyLower an.1) (pyLower an.2), okMsg)

/-- Translation of process uncle statement. -/
def processUncleStatement (kb : KB) (statement : String) : KB × String :=
  let un := extractNamesFromStatement statement " is an uncle of "
  if pyLower un.1 = pyLower un.2 ∨ hasGenderConflict kb un.1 Gender.male = true ∨
      wouldCreateCircularRelationship kb un.2 un.1 = true then
    (kb, impossibleMsg)
  else
    (assertPibling (assertMale kb (pyLower un.1)) (pyLower un.1) (pyLower un.2), okMsg)

/-- Translation of process statement: the literal template dispatch of the
source, in the same order. -/
def processStatement (kb : KB) (userStatement : String) : KB × String :=
  let statement := pyStrip userStatement
  if strIn " and " statement && strIn " are siblings" statement then
    processSiblingsStatement kb statement
  else if strIn " and " statement && strIn " are the parents of " statement then
    processParentsStatement kb statement
  else if strIn " are children of " statement then
    processMultipleChildrenStatement kb statement
  else if strIn " is the father of " statement then
    processFatherStatement kb statement
  else if strIn " is the mother of " statement then
    processMotherStatement kb statement
  else if strIn " is a brother of " statement then
    processBrotherStatement kb statement
  else if strIn " is a sister of " statement then
    processSisterStatement kb statement
  else if strIn " is a grandmother of " statement then
    processGrandmotherStatement kb statement
  else if strIn " is a grandfather of " statement then
    processGrandfatherStatement kb statement
  else if strIn " is a child of " statement then
    processChildStatement kb statement
  else if strIn " is a daughter of " statement then
    processDaughterStatement kb statement
  else if strIn " is a son of " statement then
    processSonStatement kb statement
  else if strIn " is an aunt of " statement then
    processAuntStatement kb statement
  else if strIn " is an uncle of " statement then
    processUncleStatement kb statement
  else
    (kb, invalidStmtMsg)

/-- Translation of the siblings yes/no question handler. -/
def processSiblingsQuestion (kb : KB) (question : String) : String :=
  match pySplit " and " (pyReplace (pyReplace question "Are " "") " siblings?" "") with
  | [a, b] =>
    let person1 := canonNameQ a
    let person2 := canonNameQ b
    if provSibling kb (pyLower person1) (pyLower person2) = true then yesMsg else noMsg
  | _ => invalidQMsg

/-- Translation of the sister yes/no question handler. -/
def processSisterQuestion (kb : KB) (question : String) : String :=
  let p := extractNamesFromStatement (pyReplace (pyReplace question "Is " "") "?" "") " a sister of "
  if provSister kb (pyLower p.1) (pyLower p.2) = true then yesMsg else noMsg

/-- Translation of the brother yes/no question handler. -/
def processBrotherQuestion (kb : KB) (question : String) : String :=
  let p := extractNamesFromStatement (pyReplace (pyReplace question "Is " "") "?" "") " a brother of "
  if provBrother kb (pyLower p.1) (pyLower p.2) = true then yesMsg else noMsg

/-- Translation of the mother yes/no question handler. -/
def processMotherQuestion (kb : KB) (question : String) : String :=
  let p := extractNamesFromStatement (pyReplace (pyReplace question "Is " "") "?" "") " the mother of "
  if provMother kb (pyLower p.1) (pyLower p.2) = true then yesMsg else noMsg

/-- Translation of the father yes/no question handler. -/
def processFatherQuestion (kb : KB) (question : String) : String :=
  let p := extractNamesFromStatement (pyReplace (pyReplace question "Is " "") "?" "") " the father of "
  if provFather kb (pyLower p.1) (pyLower p.2) = true then yesMsg else noMsg

/-- Translation of the parents yes/no question handler. -/
def processParentsQuestion (kb : KB) (question : String) : String :=
  match pySplit " and "
      (pyReplace (pyReplace (pyReplace question "Are " "") " the parents of " " and ") "?" "") with
  | [x, y, z] =>
    let parent1 := lowTrim x
    let parent2 := lowTrim y
    let child := lowTrim z
    if provParent kb parent1 child = true && provParent kb parent2 child = true then yesMsg
    else noMsg
  | _ => invalidQMsg

/-- Translation of the grandmother yes/no question handler. -/
def processGrandmotherQuestion (kb : KB) (question : String) : String :=
  let p := extractNamesFromStatement (pyReplace (pyReplace question "Is " "") "?" "") " a grandmother of "
  if provGrandmother kb (pyLower p.1) (pyLower p.2) = true then yesMsg else noMsg

/-- Translation of the grandfather yes/no question handler. -/
def processGrandfatherQuestion (kb : KB) (question : String) : String :=
  let p := extractNamesFromStatement (pyReplace (pyReplace question "Is " "") "?" "") " a grandfather of "
  if provGrandfather kb (pyLower p.1) (pyLower p.2) = true then yesMsg else noMsg

/-- Translation of the daughter yes/no question handler. -/
def processDaughterQuestion (kb : KB) (question : String) : String :=
  let p := extractNamesFromStatement (pyReplace (pyReplace question "Is " "") "?" "") " a daughter of "
  if provDaughter kb (pyLower p.1) (pyLower p.2) = true then yesMsg else noMsg

/-- Translation of the son yes/no question handler. -/
def processSonQuestion (kb : KB) (question : String) : String :=
  let p := extractNamesFromStatement (pyReplace (pyReplace question "Is " "") "?" "") " a son of "
  if provSon kb (pyLower p.1) (pyLower p.2) = true then yesMsg else noMsg

/-- Translation of the child yes/no question handler. -/
def processChildQuestion (kb : KB) (question : String) : String :=
  let p := extractNamesFromStatement (pyReplace (pyReplace question "Is " "") "?" "") " a child of "
  if provParent kb (pyLower p.2) (pyLower p.1) = true then yesMsg else noMsg

/-- Translation of the multiple-children yes/no question handler. -/
def processMultipleChildrenQuestion (kb : KB) (question : String) : String :=
  let parts := pySplit " and "
    (pyReplace (pyReplace (pyReplace (pyReplace question "Are " "") " children of " " and ") "?" "") ", " " and ")
  match parts with
  | _ :: _ :: _ =>
    let children := parts.dropLast.map lowTrim
    let parent := lowTrim (parts.getLastD "")
    if children.all (fun child => provParent kb parent child) then yesMsg else noMsg
  | _ => invalidQMsg

/-- Translation of the aunt yes/no question handler. -/
def processAuntQuestion (kb : KB) (question : String) : String :=
  let p := extractNamesFromStatement (pyReplace (pyReplace question "Is " "") "?" "") " an aunt of "
  if provAunt kb (pyLower p.1) (pyLower p.2) = true then yesMsg else noMsg

/-- Translation of the uncle yes/no question handler. -/
def processUncleQuestion (kb : KB) (question : String) : String :=
  let p := extractNamesFromStatement (pyReplace (pyReplace question "Is " "") "?" "") " an uncle of "
  if provUncle kb (pyLower p.1) (pyLower p.2) = true then yesMsg else noMsg

/-- Translation of the relatives yes/no question handler. -/
def processRelativesQuestion (kb : KB) (question : String) : String :=
  match pySplit " and " (pyReplace (pyReplace question "Are " "") " relatives?" "") with
  | [a, b] =>
    if arePersonsRelated kb (lowTrim a) (lowTrim b) = true then yesMsg else noMsg
  | _ => invalidQMsg

/-- Person extraction of the who handlers: drop the leading phrase and the
question mark, strip and lower. -/
def whoExtract (question pre : String) : String :=
  pyLower (pyStrip (pyReplace (pyReplace question pre "") "?" ""))

/-- Solutions of the sibling query with the second argument fixed, in clause
assertion order (Prolog enumeration order). -/
def siblingMatches (kb : KB) (person : String) : List String :=
  (kb.siblings.filter (fun e => decide (e.2 = person))).map Prod.fst

/-- Solutions of the sister query with the second argument fixed. -/
def sisterMatches (kb : KB) (person : String) : List String :=
  (kb.siblings.filter (fun e => decide (e.2 = person) && provFemale kb e.1)).map Prod.fst

/-- Solutions of the brother query with the second argument fixed. -/
def brotherMatches (kb : KB) (person : String) : List String :=
  (kb.siblings.filter (fun e => decide (e.2 = person) && provMale kb e.1)).map Prod.fst

/-- Solutions of the mother query with the child fixed. -/
def motherMatches (kb : KB) (child : String) : List String :=
  (kb.parents.filter (fun e => decide (e.2 = child) && provFemale kb e.1)).map Prod.fst

/-- Solutions of the father query with the child fixed. -/
def fatherMatches (kb : KB) (child : String) : List String :=
  (kb.parents.filter (fun e => decide (e.2 = child) && provMale kb e.1)).map Prod.fst

/-- Solutions of the parent query with the child fixed. -/
def parentMatches (kb : KB) (child : String) : List String :=
  (kb.parents.filter (fun e => decide (e.2 = child))).map Prod.fst

/-- Solutions of the daughter query with the parent fixed. -/
def daughterMatches (kb : KB) (parent : String) : List String :=
  (kb.parents.filter (fun e => decide (e.1 = parent) && provFemale kb e.2)).map Prod.snd

/-- Solutions of the son query with the parent fixed. -/
def sonMatches (kb : KB) (parent : String) : List String :=
  (kb.parents.filter (fun e => decide (e.1 = parent) && provMale kb e.2)).map Prod.snd

/-- Solutions of the children query with the parent fixed. -/
def childMatches (kb : KB) (parent : String) : List String :=
  (kb.parents.filter (fun e => decide (e.1 = parent))).map Prod.snd

/-- Shared answer construction of the plural who handlers: capitalize the
solutions, deduplicate (Python set), sort, join; the unknown sentence when
there are no solutions.  This mirrors the block repeated in each handler. -/
def whoListAnswer (role person : String) (sols : List String) : String :=
  if sols.isEmpty then unknownMsg role (pyCapitalize person)
  else
    enumMsg role (pyCapitalize person)
      (joinComma (sortNames ((sols.map pyCapitalize).dedup)))

/-- Translation of the who-siblings handler. -/
def processWhoSiblingsQuestion (kb : KB) (question : String) : String :=
  whoListAnswer "siblings" (whoExtract question "Who are the siblings of ")
    (siblingMatches kb (whoExtract question "Who are the siblings of "))

/-- Translation of the who-sisters handler. -/
def processWhoSistersQuestion (kb : KB) (question : String) : String :=
  whoListAnswer "sisters" (whoExtract question "Who are the sisters of ")
    (sisterMatches kb (whoExtract question "Who are the sisters of "))

/-- Translation of the who-brothers handler. -/
def processWhoBrothersQuestion (kb : KB) (question : String) : String :=
  whoListAnswer "brothers" (whoExtract question "Who are the brothers of ")
    (brotherMatches kb (whoExtract question "Who are the brothers of "))

/-- Translation of the who-mother handler: only the first solution is
reported, and the unknown sentence has its own wording. -/
def processWhoMotherQuestion (kb : KB) (question : String) : String :=
  match motherMatches kb (whoExtract question "Who is the mother of ") with
  | [] => unknownWhoMsg "mother" (pyCapitalize (whoExtract question "Who is the mother of "))
  | m :: _ =>
    singularMsg "mother" (pyCapitalize (whoExtract question "Who is the mother of "))
      (pyCapitalize m)

/-- Translation of the who-father handler. -/
def processWhoFatherQuestion (kb : KB) (question : String) : String :=
  match fatherMatches kb (whoExtract question "Who is the father of ") with
  | [] => unknownWhoMsg "father" (pyCapitalize (whoExtract question "Who is the father of "))
  | f :: _ =>
    singularMsg "father" (pyCapitalize (whoExtract question "Who is the father of "))
      (pyCapitalize f)

/-- Translation of the who-parents handler. -/
def processWhoParentsQuestion (kb : KB) (question : String) : String :=
  whoListAnswer "parents" (whoExtract question "Who are the parents of ")
    (parentMatches kb (whoExtract question "Who are the parents of "))

/-- Translation of the who-daughters handler. -/
def processWhoDaughtersQuestion (kb : KB) (question : String) : String :=
  whoListAnswer "daughters" (whoExtract question "Who are the daughters of ")
    (daughterMatches kb (whoExtract question "Who are the daughters of "))

/-- Translation of the who-sons handler. -/
def processWhoSonsQuestion (kb : KB) (question : String) : String :=
  whoListAnswer "sons" (whoExtract question "Who are the sons of ")
    (sonMatches kb (whoExtract question "Who are the sons of "))

/-- Translation of the who-children handler. -/
def processWhoChildrenQuestion (kb : KB) (question : String) : String :=
  whoListAnswer "children" (whoExtract question "Who are the children of ")
    (childMatches kb (whoExtract question "Who are the children of "))

/-- Translation of process question: the literal template dispatch of the
source, in the same order. -/
def processQuestion (kb : KB) (userQuestion : String) : String :=
  let question := pyStrip userQuestion
  if startsB "Are " question && strIn " siblings?" question then
    processSiblingsQuestion kb question
  else if startsB "Is " question && strIn " a sister of " question && endsB "?" question then
    processSisterQuestion kb question
  else if startsB "Is " question && strIn " a brother of " question && endsB "?" question then
    processBrotherQuestion kb question
  else if startsB "Is " question && strIn " the mother of " question && endsB "?" question then
    processMotherQuestion kb question
  else if startsB "Is " question && strIn " the father of " question && endsB "?" question then
    processFatherQuestion kb question
  else if startsB "Are " question && strIn " the parents of " question && endsB "?" question then
    processParentsQuestion kb question
  else if startsB "Is " question && strIn " a grandmother of " question && endsB "?" question then
    processGrandmotherQuestion kb question
  else if startsB "Is " question && strIn " a grandfather of " question && endsB "?" question then
    processGrandfatherQuestion kb question
  else if startsB "Is " question && strIn " a daughter of " question && endsB "?" question then
    processDaughterQuestion kb question
  else if startsB "Is " question && strIn " a son of " question && endsB "?" question then
    processSonQuestion kb question
  else if startsB "Is " question && strIn " a child of " question && endsB "?" question then
    processChildQuestion kb question
  else if startsB "Are " question && strIn " children of " question && endsB "?" question then
    processMultipleChildrenQuestion kb question
  else if startsB "Is " question && strIn " an aunt of " question && endsB "?" question then
    processAuntQuestion kb question
  else if startsB "Is " question && strIn " an uncle of " question && endsB "?" question then
    processUncleQuestion kb question
  else if startsB "Are " question && strIn " relatives?" question then
    processRelativesQuestion kb question
  else if startsB "Who are the siblings of " question && endsB "?" question then
    processWhoSiblingsQuestion kb question
  else if startsB "Who are the sisters of " question && endsB "?" question then
    processWhoSistersQuestion kb question
  else if startsB "Who are the brothers of " question && endsB "?" question then
    processWhoBrothersQuestion kb question
  else if startsB "Who is the mother of " question && endsB "?" question then
    processWhoMotherQuestion kb question
  else if startsB "Who is the father of " question && endsB "?" question then
    processWhoFatherQuestion kb question
  else if startsB "Who are the parents of " question && endsB "?" question then
    processWhoParentsQuestion kb question
  else if startsB "Who are the daughters of " question && endsB "?" question then
    processWhoDaughtersQuestion kb question
  else if startsB "Who are the sons of " question && endsB "?" question then
    processWhoSonsQuestion kb question
  else if startsB "Who are the children of " question && endsB "?" question then
    processWhoChildrenQuestion kb question
  else
    invalidQMsg

/-- Translation of one iteration of the conversation loop: strip the input,
stop on the quit/exit sentinel, route inputs containing a question mark to the
question handler and the rest to the statement handler.  The Bool component is
false exactly when the session ends. -/
def handleInput (kb : KB) (raw : String) : KB × String × Bool :=
  let userInput := pyStrip raw
  if pyLower userInput = "quit" ∨ pyLower userInput = "exit" then (kb, byeMsg, false)
  else if strIn "?" userInput then (kb, processQuestion kb userInput, true)
  else
    let r := processStatement kb userInput
    (r.1, r.2, true)

/-- Fold of the statement handler over a list of inputs. -/
def runStatements (kb : KB) (inputs : List String) : KB :=
  inputs.foldl (fun k s => (processStatement k s).1) kb

/-- Edge membership relation of a directed edge list. -/
def edgeIn (ps : List (String × String)) (a b : String) : Prop := (a, b) ∈ ps

/-- Decidability of edge membership. -/
instance instDecEdgeIn (ps : List (String × String)) : DecidableRel (edgeIn ps) :=
  fun a b => inferInstanceAs (Decidable ((a, b) ∈ ps))

/-- Nonempty-or-empty walk along a relation: the list records the vertices
visited after the start vertex, and the walk ends at the last vertex. -/
def PathAlong (R : String → String → Prop) : String → List String → String → Prop
  | x, [], y => x = y
  | x, v :: t, y => R x v ∧ PathAlong R v t y

/-- Decidability of walks along a decidable relation. -/
instance instDecPathAlong (R : String → String → Prop) [DecidableRel R] :
    ∀ x (l : List String) y, Decidable (PathAlong R x l y)
  | x, [], y => inferInstanceAs (Decidable (x = y))
  | _, v :: t, y =>
    have := instDecPathAlong R v t y
    inferInstanceAs (Decidable (_ ∧ _))

/-- Existence of a directed cycle: a nonempty walk from some vertex to itself. -/
def HasCycle (ps : List (String × String)) : Prop :=
  ∃ x l, l ≠ [] ∧ PathAlong (edgeIn ps) x l x

/-- Absence of directed cycles. -/
def Acyclic (ps : List (String × String)) : Prop := ¬ HasCycle ps

/-- Gender exclusivity invariant: nobody is recorded both male and female. -/
def GenderOK (kb : KB) : Prop := ∀ x, x ∈ kb.males → x ∉ kb.females

/-- Equality of the stored fact sets of two knowledge bases (the clause lists
may differ as multisets, the sets of facts coincide). -/
def SameFacts (kb1 kb2 : KB) : Prop :=
  (∀ x, x ∈ kb1.males ↔ x ∈ kb2.males) ∧
  (∀ x, x ∈ kb1.females ↔ x ∈ kb2.females) ∧
  (∀ e, e ∈ kb1.parents ↔ e ∈ kb2.parents) ∧
  (∀ e, e ∈ kb1.siblings ↔ e ∈ kb2.siblings) ∧
  (∀ e, e ∈ kb1.grandparents ↔ e ∈ kb2.grandparents) ∧
  (∀ e, e ∈ kb1.piblings ↔ e ∈ kb2.piblings)

/-- A string is fully lower-cased. -/
def isLowerStr (s : String) : Prop := ∀ c ∈ s.data, lowerChar c = c

/-- Every atom stored in the knowledge base is fully lower-cased. -/
def LoweredKB (kb : KB) : Prop :=
  (∀ x ∈ kb.males, isLowerStr x) ∧
  (∀ x ∈ kb.females, isLowerStr x) ∧
  (∀ e ∈ kb.parents, isLowerStr e.1 ∧ isLowerStr e.2) ∧
  (∀ e ∈ kb.siblings, isLowerStr e.1 ∧ isLowerStr e.2) ∧
  (∀ e ∈ kb.grandparents, isLowerStr e.1 ∧ isLowerStr e.2) ∧
  (∀ e ∈ kb.piblings, isLowerStr e.1 ∧ isLowerStr e.2)

/-- Syntactic test for the three statement kinds whose ancestry check is the
shallow parent-or-grandparent test (child, daughter, son statements). -/
def mentionsChildPhrase (s : String) : Prop :=
  strIn " is a child of " (pyStrip s) = true ∨
    strIn " is a daughter of " (pyStrip s) = true ∨
    strIn " is a son of " (pyStrip s) = true

/-- Decidability of the child-phrase test. -/
instance instDecMentionsChildPhrase (s : String) : Decidable (mentionsChildPhrase s) :=
  inferInstanceAs (Decidable (_ ∨ _ ∨ _))

/-- Fixed outcome forms of a single processed input line. -/
def OutcomeOK (line : String) : Prop :=
  line = okMsg ∨ line = impossibleMsg ∨ line = invalidStmtMsg ∨ line = invalidQMsg ∨
    line = yesMsg ∨ line = noMsg ∨
    (∃ r n l, line = enumMsg r n l) ∨ (∃ r n v, line = singularMsg r n v) ∨
    (∃ r n, line = unknownMsg r n) ∨ (∃ r n, line = unknownWhoMsg r n)

lemma lowerChar_image (c : Char) :
    lowerChar c = c ∨ lowerChar c ∈
      ['a', 'b', 'c', 'd', 'e', 'f', 'g', 'h', 'i', 'j', 'k', 'l', 'm',
       'n', 'o', 'p', 'q', 'r', 's', 't', 'u', 'v', 'w', 'x', 'y', 'z'] := by
  unfold lowerChar
  split <;> simp

lemma lowerChar_of_low :
    ∀ c ∈ ['a', 'b', 'c', 'd', 'e', 'f', 'g', 'h', 'i', 'j', 'k', 'l', 'm',
       'n', 'o', 'p', 'q', 'r', 's', 't', 'u', 'v', 'w', 'x', 'y', 'z'],
      lowerChar c = c := by
  intro c hc
  fin_cases hc <;> rfl

lemma lowerChar_idem (c : Char) : lowerChar (lowerChar c) = lowerChar c := by
  rcases lowerChar_image c with h | h
  · rw [h]
    exact h
  · exact lowerChar_of_low _ h

lemma upperChar_image (c : Char) :
    upperChar c = c ∨ c ∈
      ['a', 'b', 'c', 'd', 'e', 'f', 'g', 'h', 'i', 'j', 'k', 'l', 'm',
       'n', 'o', 'p', 'q', 'r', 's', 't', 'u', 'v', 'w', 'x', 'y', 'z'] := by
  unfold upperChar
  split <;> simp

lemma lowerChar_upperChar (c : Char) : lowerChar (upperChar c) = lowerChar c := by
  rcases upperChar_image c with h | h
  · rw [h]
  · fin_cases h <;> rfl

lemma pyLower_idem (s : String) : pyLower (pyLower s) = pyLower s := by
  simp only [pyLower, List.map_map]
  congr 1
  exact List.map_congr_left (fun c _ => lowerChar_idem c)

lemma pyLower_pyCapitalize (s : String) : pyLower (pyCapitalize s) = pyLower s := by
  obtain ⟨l⟩ := s
  cases l with
  | nil => rfl
  | cons c t =>
    simp only [pyCapitalize, pyLower, List.map_cons, List.map_map]
    congr 2
    · exact lowerChar_upperChar c
    · exact List.map_congr_left (fun d _ => lowerChar_idem d)

lemma isLowerStr_pyLower (s : String) : isLowerStr (pyLower s) := by
  intro c hc
  simp only [pyLower] at hc
  rcases List.mem_map.mp hc with ⟨d, _, rfl⟩
  exact lowerChar_idem d

lemma mem_append_singleton_self {α : Type} (l : List α) (x : α) (hx : x ∈ l) :
    ∀ y, y ∈ l ++ [x] ↔ y ∈ l := by
  intro y
  constructor
  · intro h
    rcases List.mem_append.mp h with h | h
    · exact h
    · rcases List.mem_singleton.mp h with rfl
      exact hx
  · intro h
    exact List.mem_append.mpr (Or.inl h)

lemma insertSorted_perm (x : String) (l : List String) :
    (insertSorted x l).Perm (x :: l) := by
  induction l with
  | nil => exact List.Perm.refl _
  | cons y t ih =>
    simp only [insertSorted]
    split_ifs
    · exact List.Perm.refl _
    · exact (ih.cons y).trans (List.Perm.swap x y t)

lemma sortNames_perm (l : List String) : (sortNames l).Perm l := by
  induction l with
  | nil => exact List.Perm.refl _
  | cons x t ih =>
    exact (insertSorted_perm x (sortNames t)).trans (ih.cons x)

lemma insertSorted_sorted (x : String) (l : List String)
    (hl : List.Sorted (· ≤ ·) l) : List.Sorted (· ≤ ·) (insertSorted x l) := by
  induction l with
  | nil => simp [insertSorted]
  | cons y t ih =>
    rcases List.sorted_cons.mp hl with ⟨hy, ht⟩
    simp only [insertSorted]
    split_ifs with hxy
    · refine List.sorted_cons.mpr ⟨?_, hl⟩
      intro b hb
      rcases List.mem_cons.mp hb with rfl | hb
      · exact hxy
      · exact le_trans hxy (hy b hb)
    · refine List.sorted_cons.mpr ⟨?_, ih ht⟩
      intro b hb
      rcases List.mem_cons.mp ((insertSorted_perm x t).mem_iff.mp hb) with rfl | h
      · exact le_of_not_le hxy
      · exact hy b h

lemma sortNames_sorted (l : List String) : List.Sorted (· ≤ ·) (sortNames l) := by
  induction l with
  | nil => simp [sortNames]
  | cons x t ih => exact insertSorted_sorted x (sortNames t) ih

lemma mem_sortNames (a : String) (l : List String) : a ∈ sortNames l ↔ a ∈ l :=
  (sortNames_perm l).mem_iff

lemma nodup_sortNames (l : List String) (h : l.Nodup) : (sortNames l).Nodup :=
  ((sortNames_perm l).nodup_iff).mpr h

lemma sortNames_ne_nil (l : List String) (h : l ≠ []) : sortNames l ≠ [] := by
  intro he
  apply h
  have hlen := (sortNames_perm l).length_eq
  rw [he] at hlen
  exact List.length_eq_zero.mp hlen.symm

lemma pathAlong_append {R : String → String → Prop} :
    ∀ (l1 : List String) {x y : String} (l2 : List String) {z : String},
      PathAlong R x l1 y → PathAlong R y l2 z → PathAlong R x (l1 ++ l2) z := by
  intro l1
  induction l1 with
  | nil =>
    intro x y l2 z h1 h2
    simp only [PathAlong] at h1
    subst h1
    simpa using h2
  | cons v t ih =>
    intro x y l2 z h1 h2
    simp only [PathAlong] at h1 ⊢
    exact ⟨h1.1, ih l2 h1.2 h2⟩

lemma pathAlong_split {R : String → String → Prop} :
    ∀ (l1 : List String) {x v y : String} {l2 : List String},
      PathAlong R x (l1 ++ v :: l2) y →
        PathAlong R x (l1 ++ [v]) v ∧ PathAlong R v l2 y := by
  intro l1
  induction l1 with
  | nil =>
    intro x v y l2 h
    simp only [List.nil_append, PathAlong] at h ⊢
    exact ⟨⟨h.1, trivial⟩, h.2⟩
  | cons w t ih =>
    intro x v y l2 h
    simp only [List.cons_append, PathAlong] at h ⊢
    rcases ih h.2 with ⟨h1, h2⟩
    exact ⟨⟨h.1, h1⟩, h2⟩

lemma pathAlong_mem_snd {ps : List (String × String)} :
    ∀ (l : List String) {x y : String}, PathAlong (edgeIn ps) x l y →
      ∀ v ∈ l, v ∈ ps.map Prod.snd := by
  intro l
  induction l with
  | nil => intro x y _ v hv; cases hv
  | cons w t ih =>
    intro x y h v hv
    simp only [PathAlong] at h
    rcases List.mem_cons.mp hv with rfl | hv
    · exact List.mem_map.mpr ⟨(x, v), h.1, rfl⟩
    · exact ih h.2 v hv

lemma not_nodup_decomp {α : Type} (l : List α) (h : ¬l.Nodup) :
    ∃ l1 a l2 l3, l = l1 ++ a :: (l2 ++ a :: l3) := by
  induction l with
  | nil => exact absurd List.nodup_nil h
  | cons x t ih =>
    by_cases hx : x ∈ t
    · obtain ⟨l2, l3, rfl⟩ := List.append_of_mem hx
      exact ⟨[], x, l2, l3, rfl⟩
    · have ht : ¬t.Nodup := fun hn => h (List.nodup_cons.mpr ⟨hx, hn⟩)
      obtain ⟨l1, a, l2, l3, rfl⟩ := ih ht
      exact ⟨x :: l1, a, l2, l3, rfl⟩

lemma acyclic_nodup {ps : List (String × String)} {x y : String} {l : List String}
    (hac : Acyclic ps) (hp : PathAlong (edgeIn ps) x l y) : l.Nodup := by
  by_contra h
  obtain ⟨l1, a, l2, l3, rfl⟩ := not_nodup_decomp l h
  obtain ⟨_, hrest⟩ := pathAlong_split l1 hp
  obtain ⟨hcyc, _⟩ := pathAlong_split l2 hrest
  exact hac ⟨a, l2 ++ [a], by simp, hcyc⟩

lemma acyclic_chain_length {ps : List (String × String)} {x y : String}
    {l : List String} (hac : Acyclic ps) (hp : PathAlong (edgeIn ps) x l y) :
    l.length ≤ ps.length := by
  have hnd := acyclic_nodup hac hp
  have hsub : l ⊆ ps.map Prod.snd := fun v hv => pathAlong_mem_snd l hp v hv
  have := (hnd.subperm hsub).length_le
  simpa using this

lemma reach_refl (es : List (String × String)) (f : Nat) (x : String) :
    reachB es f x x = true := by
  cases f <;> simp [reachB]

lemma mem_neighborsOf {es : List (String × String)} {a b : String}
    (h : (a, b) ∈ es) : b ∈ neighborsOf es a ∧ a ∈ neighborsOf es b := by
  constructor
  · refine List.mem_filterMap.mpr ⟨(a, b), h, ?_⟩
    simp
  · refine List.mem_filterMap.mpr ⟨(a, b), h, ?_⟩
    by_cases hab : a = b
    · subst hab; simp
    · simp [hab]

lemma reach_succ_of {es : List (String × String)} {f : Nat} {x y : String}
    (z : String) (hz : z ∈ neighborsOf es x) (h : reachB es f z y = true) :
    reachB es (f + 1) x y = true := by
  have hany : (neighborsOf es x).any (fun w => reachB es f w y) = true :=
    List.any_eq_true.mpr ⟨z, hz, h⟩
  show (decide (x = y) || (neighborsOf es x).any (fun w => reachB es f w y)) = true
  simp [hany]

lemma reach_snoc {es : List (String × String)} (f : Nat) {a b c : String}
    (h : reachB es f a b = true) (hc : c ∈ neighborsOf es b) :
    reachB es (f + 1) a c = true := by
  induction f generalizing a with
  | zero =>
    simp only [reachB, decide_eq_true_eq] at h
    subst h
    exact reach_succ_of c hc (reach_refl es 0 c)
  | succ f ih =>
    simp only [reachB, Bool.or_eq_true, decide_eq_true_eq, List.any_eq_true] at h
    rcases h with h | ⟨z, hz, hrec⟩
    · subst h
      exact reach_succ_of c hc (reach_refl es (f + 1) c)
    · exact reach_succ_of z hz (ih hrec)

lemma reach_of_parentPath {ps es : List (String × String)}
    (hsub : ∀ e ∈ ps, e ∈ es) :
    ∀ (l : List String) {c p : String}, PathAlong (edgeIn ps) c l p →
      ∀ f, l.length ≤ f → reachB es f p c = true := by
  intro l
  induction l with
  | nil =>
    intro c p h f _
    simp only [PathAlong] at h
    subst h
    exact reach_refl es f c
  | cons v t ih =>
    intro c p h f hf
    simp only [PathAlong] at h
    obtain ⟨g, rfl⟩ : ∃ g, f = g + 1 := ⟨f - 1, by simp at hf; omega⟩
    have hg : t.length ≤ g := by simp at hf; omega
    have hreach := ih h.2 g hg
    exact reach_snoc g hreach (mem_neighborsOf (hsub _ h.1)).2

lemma provRelated_of_parentPath {kb : KB} {c p : String} {l : List String}
    (hac : Acyclic kb.parents) (hp : PathAlong (edgeIn kb.parents) c l p)
    (hne : p ≠ c) : provRelated kb p c = true := by
  have hlen : l.length ≤ kb.parents.length := acyclic_chain_length hac hp
  have hsub : ∀ e ∈ kb.parents, e ∈ edgesOf kb := by
    intro e he
    simp [edgesOf, List.mem_append, he]
  have hplen : kb.parents.length ≤ (edgesOf kb).length := by
    simp [edgesOf]
  have hr := reach_of_parentPath hsub l hp (2 * (edgesOf kb).length + 1) (by omega)
  simp [provRelated, hne, hr]

lemma noPath_of_notRelated {kb : KB} {p c : String} (hac : Acyclic kb.parents)
    (hne : p ≠ c) (hrel : provRelated kb p c = false) :
    ∀ l, l ≠ [] → ¬PathAlong (edgeIn kb.parents) c l p := by
  intro l _ hp
  have := provRelated_of_parentPath hac hp hne
  rw [hrel] at this
  exact Bool.false_ne_true this

lemma pathAlong_decomp {ps : List (String × String)} {e : String × String} :
    ∀ (l : List String) {x y : String},
      PathAlong (edgeIn (ps ++ [e])) x l y →
        PathAlong (edgeIn ps) x l y ∨
          ((∃ l1, PathAlong (edgeIn ps) x l1 e.1) ∧
            (∃ l2, PathAlong (edgeIn ps) e.2 l2 y)) := by
  intro l
  induction l with
  | nil =>
    intro x y h
    exact Or.inl h
  | cons v t ih =>
    intro x y h
    simp only [PathAlong] at h
    rcases List.mem_append.mp h.1 with hin | hnew
    · rcases ih h.2 with hl | ⟨⟨l1, h1⟩, h2⟩
      · exact Or.inl ⟨hin, hl⟩
      · exact Or.inr ⟨⟨v :: l1, hin, h1⟩, h2⟩
    · have hx : x = e.1 ∧ v = e.2 := by
        have := List.mem_singleton.mp hnew
        exact ⟨congrArg Prod.fst this, congrArg Prod.snd this⟩
      rcases ih h.2 with hl | ⟨⟨_, _⟩, h2⟩
      · exact Or.inr ⟨⟨[], hx.1⟩, ⟨t, hx.2 ▸ hl⟩⟩
      · exact Or.inr ⟨⟨[], hx.1⟩, h2⟩

lemma addEdge_acyclic {ps : List (String × String)} {p c : String}
    (hac : Acyclic ps) (hpc : p ≠ c)
    (hno : ∀ l, l ≠ [] → ¬PathAlong (edgeIn ps) c l p) :
    Acyclic (ps ++ [(p, c)]) := by
  rintro ⟨x, l, hl, hcyc⟩
  rcases pathAlong_decomp l hcyc with h | ⟨⟨l1, h1⟩, ⟨l2, h2⟩⟩
  · exact hac ⟨x, l, hl, h⟩
  · have hcp := pathAlong_append l2 l1 h2 h1
    by_cases hnil : l2 ++ l1 = []
    · rw [hnil] at hcp
      simp only [PathAlong] at hcp
      exact hpc hcp.symm
    · exact hno _ hnil hcp

lemma acyclic_append_children {p : String} :
    ∀ (cs : List String) (ps : List (String × String)), Acyclic ps →
      (∀ c ∈ cs, c ≠ p ∧ ∀ l, l ≠ [] → ¬PathAlong (edgeIn ps) c l p) →
      Acyclic (ps ++ cs.map (fun c => (p, c))) := by
  intro cs
  induction cs with
  | nil => intro ps hac _; simpa using hac
  | cons c cs ih =>
    intro ps hac hall
    have hc := hall c (List.mem_cons_self c cs)
    have hac' : Acyclic (ps ++ [(p, c)]) := addEdge_acyclic hac (Ne.symm hc.1) hc.2
    have hall' : ∀ c' ∈ cs, c' ≠ p ∧
        ∀ l, l ≠ [] → ¬PathAlong (edgeIn (ps ++ [(p, c)])) c' l p := by
      intro c' hc'
      obtain ⟨h1, h2⟩ := hall c' (List.mem_cons_of_mem c hc')
      refine ⟨h1, ?_⟩
      intro l hl hp
      rcases pathAlong_decomp l hp with h | ⟨⟨l1, hx1⟩, _⟩
      · exact h2 l hl h
      · by_cases hn : l1 = []
        · rw [hn] at hx1
          simp only [PathAlong] at hx1
          exact h1 hx1
        · exact h2 l1 hn hx1
    have hres := ih (ps ++ [(p, c)]) hac' hall'
    simpa [List.append_assoc] using hres

lemma acyclic_append_parents {c : String} :
    ∀ (qs : List String) (ps : List (String × String)), Acyclic ps →
      (∀ q ∈ qs, q ≠ c ∧ ∀ l, l ≠ [] → ¬PathAlong (edgeIn ps) c l q) →
      Acyclic (ps ++ qs.map (fun q => (q, c))) := by
  intro qs
  induction qs with
  | nil => intro ps hac _; simpa using hac
  | cons q qs ih =>
    intro ps hac hall
    have hq := hall q (List.mem_cons_self q qs)
    have hac' : Acyclic (ps ++ [(q, c)]) := addEdge_acyclic hac hq.1 hq.2
    have hall' : ∀ q' ∈ qs, q' ≠ c ∧
        ∀ l, l ≠ [] → ¬PathAlong (edgeIn (ps ++ [(q, c)])) c l q' := by
      intro q' hq'
      obtain ⟨h1, h2⟩ := hall q' (List.mem_cons_of_mem q hq')
      refine ⟨h1, ?_⟩
      intro l hl hp
      rcases pathAlong_decomp l hp with h | ⟨⟨l1, hx1⟩, _⟩
      · exact h2 l hl h
      · by_cases hn : l1 = []
        · rw [hn] at hx1
          simp only [PathAlong] at hx1
          exact hq.1 hx1.symm
        · exact hq.2 l1 hn hx1
    have hres := ih (ps ++ [(q, c)]) hac' hall'
    simpa [List.append_assoc] using hres

lemma processFatherStatement_cases (kb : KB) (s : String) :
    ((pyLower (extractNamesFromStatement s " is the father of ").1 =
        pyLower (extractNamesFromStatement s " is the father of ").2 ∨
        hasGenderConflict kb (extractNamesFromStatement s " is the father of ").1 Gender.male = true ∨
        wouldCreateCircularRelationship kb (extractNamesFromStatement s " is the father of ").2
        (extractNamesFromStatement s " is the father of ").1 = true) ∧
      processFatherStatement kb s = (kb, impossibleMsg)) ∨
    (¬(pyLower (extractNamesFromStatement s " is the father of ").1 =
        pyLower (extractNamesFromStatement s " is the father of ").2) ∧
      hasGenderConflict kb (extractNamesFromStatement s " is the father of ").1 Gender.male = false ∧
      wouldCreateCircularRelationship kb (extractNamesFromStatement s " is the father of ").2
        (extractNamesFromStatement s " is the father of ").1 = false ∧
      processFatherStatement kb s = (assertParent (assertMale kb (pyLower (extractNamesFromStatement s " is the father of ").1)) (pyLower (extractNamesFromStatement s " is the father of ").1) (pyLower (extractNamesFromStatement s " is the father of ").2), okMsg)) := by
  simp only [processFatherStatement]
  split_ifs with hg
  · exact Or.inl ⟨hg, rfl⟩
  · push_neg at hg
    exact Or.inr ⟨hg.1, by simpa using hg.2.1, by simpa using hg.2.2, rfl⟩

lemma processMotherStatement_cases (kb : KB) (s : String) :
    ((pyLower (extractNamesFromStatement s " is the mother of ").1 =
        pyLower (extractNamesFromStatement s " is the mother of ").2 ∨
        hasGenderConflict kb (extractNamesFromStatement s " is the mother of ").1 Gender.female = true ∨
        wouldCreateCircularRelationship kb (extractNamesFromStatement s " is the mother of ").2
        (extractNamesFromStatement s " is the mother of ").1 = true) ∧
      processMotherStatement kb s = (kb, impossibleMsg)) ∨
    (¬(pyLower (extractNamesFromStatement s " is the mother of ").1 =
        pyLower (extractNamesFromStatement s " is the mother of ").2) ∧
      hasGenderConflict kb (extractNamesFromStatement s " is the mother of ").1 Gender.female = false ∧
      wouldCreateCircularRelationship kb (extractNamesFromStatement s " is the mother of ").2
        (extractNamesFromStatement s " is the mother of ").1 = false ∧
      processMotherStatement kb s = (assertParent (assertFemale kb (pyLower (extractNamesFromStatement s " is the mother of ").1)) (pyLower (extractNamesFromStatement s " is the mother of ").1) (pyLower (extractNamesFromStatement s " is the mother of ").2), okMsg)) := by
  simp only [processMotherStatement]
  split_ifs with hg
  · exact Or.inl ⟨hg, rfl⟩
  · push_neg at hg
    exact Or.inr ⟨hg.1, by simpa using hg.2.1, by simpa using hg.2.2, rfl⟩

lemma processBrotherStatement_cases (kb : KB) (s : String) :
    ((pyLower (extractNamesFromStatement s " is a brother of ").1 =
        pyLower (extractNamesFromStatement s " is a brother of ").2 ∨
        hasGenderConflict kb (extractNamesFromStatement s " is a brother of ").1 Gender.male = true ∨
        wouldCreateInvalidSiblingRelationship kb (extractNamesFromStatement s " is a brother of ").1
        (extractNamesFromStatement s " is a brother of ").2 = true) ∧
      processBrotherStatement kb s = (kb, impossibleMsg)) ∨
    (¬(pyLower (extractNamesFromStatement s " is a brother of ").1 =
        pyLower (extractNamesFromStatement s " is a brother of ").2) ∧
      hasGenderConflict kb (extractNamesFromStatement s " is a brother of ").1 Gender.male = false ∧
      wouldCreateInvalidSiblingRelationship kb (extractNamesFromStatement s " is a brother of ").1
        (extractNamesFromStatement s " is a brother of ").2 = false ∧
      processBrotherStatement kb s = (assertSibling (assertSibling (assertMale kb (pyLower (extractNamesFromStatement s " is a brother of ").1)) (pyLower (extractNamesFromStatement s " is a brother of ").1) (pyLower (extractNamesFromStatement s " is a brother of ").2)) (pyLower (extractNamesFromStatement s " is a brother of ").2) (pyLower (extractNamesFromStatement s " is a brother of ").1), okMsg)) := by
  simp only [processBrotherStatement]
  split_ifs with hg
  · exact Or.inl ⟨hg, rfl⟩
  · push_neg at hg
    exact Or.inr ⟨hg.1, by simpa using hg.2.1, by simpa using hg.2.2, rfl⟩

lemma processSisterStatement_cases (kb : KB) (s : String) :
    ((pyLower (extractNamesFromStatement s " is a sister of ").1 =
        pyLower (extractNamesFromStatement s " is a sister of ").2 ∨
        hasGenderConflict kb (extractNamesFromStatement s " is a sister of ").1 Gender.female = true ∨
        wouldCreateInvalidSiblingRelationship kb (extractNamesFromStatement s " is a sister of ").1
        (extractNamesFromStatement s " is a sister of ").2 = true) ∧
      processSisterStatement kb s = (kb, impossibleMsg)) ∨
    (¬(pyLower (extractNamesFromStatement s " is a sister of ").1 =
        pyLower (extractNamesFromStatement s " is a sister of ").2) ∧
      hasGenderConflict kb (extractNamesFromStatement s " is a sister of ").1 Gender.female = false ∧
      wouldCreateInvalidSiblingRelationship kb (extractNamesFromStatement s " is a sister of ").1
        (extractNamesFromStatement s " is a sister of ").2 = false ∧
      processSisterStatement kb s = (assertSibling (assertSibling (assertFemale kb (pyLower (extractNamesFromStatement s " is a sister of ").1)) (pyLower (extractNamesFromStatement s " is a sister of ").1) (pyLower (extractNamesFromStatement s " is a sister of ").2)) (pyLower (extractNamesFromStatement s " is a sister of ").2) (pyLower (extractNamesFromStatement s " is a sister of ").1), okMsg)) := by
  simp only [processSisterStatement]
  split_ifs with hg
  · exact Or.inl ⟨hg, rfl⟩
  · push_neg at hg
    exact Or.inr ⟨hg.1, by simpa using hg.2.1, by simpa using hg.2.2, rfl⟩

lemma processGrandmotherStatement_cases (kb : KB) (s : String) :
    ((pyLower (extractNamesFromStatement s " is a grandmother of ").1 =
        pyLower (extractNamesFromStatement s " is a grandmother of ").2 ∨
        hasGenderConflict kb (extractNamesFromStatement s " is a grandmother of ").1 Gender.female = true ∨
        wouldCreateCircularRelationship kb (extractNamesFromStatement s " is a grandmother of ").2
        (extractNamesFromStatement s " is a grandmother of ").1 = true) ∧
      processGrandmotherStatement kb s = (kb, impossibleMsg)) ∨
    (¬(pyLower (extractNamesFromStatement s " is a grandmother of ").1 =
        pyLower (extractNamesFromStatement s " is a grandmother of ").2) ∧
      hasGenderConflict kb (extractNamesFromStatement s " is a grandmother of ").1 Gender.female = false ∧
      wouldCreateCircularRelationship kb (extractNamesFromStatement s " is a grandmother of ").2
        (extractNamesFromStatement s " is a grandmother of ").1 = false ∧
      processGrandmotherStatement kb s = (assertGrandparent (assertFemale kb (pyLower (extractNamesFromStatement s " is a grandmother of ").1)) (pyLower (extractNamesFromStatement s " is a grandmother of ").1) (pyLower (extractNamesFromStatement s " is a grandmother of ").2), okMsg)) := by
  simp only [processGrandmotherStatement]
  split_ifs with hg
  · exact Or.inl ⟨hg, rfl⟩
  · push_neg at hg
    exact Or.inr ⟨hg.1, by simpa using hg.2.1, by simpa using hg.2.2, rfl⟩

lemma processGrandfatherStatement_cases (kb : KB) (s : String) :
    ((pyLower (extractNamesFromStatement s " is a grandfather of ").1 =
        pyLower (extractNamesFromStatement s " is a grandfather of ").2 ∨
        hasGenderConflict kb (extractNamesFromStatement s " is a grandfather of ").1 Gender.male = true ∨
        wouldCreateCircularRelationship kb (extractNamesFromStatement s " is a grandfather of ").2
        (extractNamesFromStatement s " is a grandfather of ").1 = true) ∧
      processGrandfatherStatement kb s = (kb, impossibleMsg)) ∨
    (¬(pyLower (extractNamesFromStatement s " is a grandfather of ").1 =
        pyLower (extractNamesFromStatement s " is a grandfather of ").2) ∧
      hasGenderConflict kb (extractNamesFromStatement s " is a grandfather of ").1 Gender.male = false ∧
      wouldCreateCircularRelationship kb (extractNamesFromStatement s " is a grandfather of ").2
        (extractNamesFromStatement s " is a grandfather of ").1 = false ∧
      processGrandfatherStatement kb s = (assertGrandparent (assertMale kb (pyLower (extractNamesFromStatement s " is a grandfather of ").1)) (pyLower (extractNamesFromStatement s " is a grandfather of ").1) (pyLower (extractNamesFromStatement s " is a grandfather of ").2), okMsg)) := by
  simp only [processGrandfatherStatement]
  split_ifs with hg
  · exact Or.inl ⟨hg, rfl⟩
  · push_neg at hg
    exact Or.inr ⟨hg.1, by simpa using hg.2.1, by simpa using hg.2.2, rfl⟩

lemma processChildStatement_cases (kb : KB) (s : String) :
    ((pyLower (extractNamesFromStatement s " is a child of ").1 =
        pyLower (extractNamesFromStatement s " is a child of ").2 ∨
        wouldCreateInvalidParentChildRelationship kb (extractNamesFromStatement s " is a child of ").1
        (extractNamesFromStatement s " is a child of ").2 = true) ∧
      processChildStatement kb s = (kb, impossibleMsg)) ∨
    (¬(pyLower (extractNamesFromStatement s " is a child of ").1 =
        pyLower (extractNamesFromStatement s " is a child of ").2) ∧
      wouldCreateInvalidParentChildRelationship kb (extractNamesFromStatement s " is a child of ").1
        (extractNamesFromStatement s " is a child of ").2 = false ∧
      processChildStatement kb s = (assertParent kb (pyLower (extractNamesFromStatement s " is a child of ").2) (pyLower (extractNamesFromStatement s " is a child of ").1), okMsg)) := by
  simp only [processChildStatement]
  split_ifs with hg
  · exact Or.inl ⟨hg, rfl⟩
  · push_neg at hg
    exact Or.inr ⟨hg.1, by simpa using hg.2, rfl⟩

lemma processDaughterStatement_cases (kb : KB) (s : String) :
    ((pyLower (extractNamesFromStatement s " is a daughter of ").1 =
        pyLower (extractNamesFromStatement s " is a daughter of ").2 ∨
        hasGenderConflict kb (extractNamesFromStatement s " is a daughter of ").1 Gender.female = true ∨
        wouldCreateInvalidParentChildRelationship kb (extractNamesFromStatement s " is a daughter of ").1
        (extractNamesFromStatement s " is a daughter of ").2 = true) ∧
      processDaughterStatement kb s = (kb, impossibleMsg)) ∨
    (¬(pyLower (extractNamesFromStatement s " is a daughter of ").1 =
        pyLower (extractNamesFromStatement s " is a daughter of ").2) ∧
      hasGenderConflict kb (extractNamesFromStatement s " is a daughter of ").1 Gender.female = false ∧
      wouldCreateInvalidParentChildRelationship kb (extractNamesFromStatement s " is a daughter of ").1
        (extractNamesFromStatement s " is a daughter of ").2 = false ∧
      processDaughterStatement kb s = (assertParent (assertFemale kb (pyLower (extractNamesFromStatement s " is a daughter of ").1)) (pyLower (extractNamesFromStatement s " is a daughter of ").2) (pyLower (extractNamesFromStatement s " is a daughter of ").1), okMsg)) := by
  simp only [processDaughterStatement]
  split_ifs with hg
  · exact Or.inl ⟨hg, rfl⟩
  · push_neg at hg
    exact Or.inr ⟨hg.1, by simpa using hg.2.1, by simpa using hg.2.2, rfl⟩

lemma processSonStatement_cases (kb : KB) (s : String) :
    ((pyLower (extractNamesFromStatement s " is a son of ").1 =
        pyLower (extractNamesFromStatement s " is a son of ").2 ∨
        hasGenderConflict kb (extractNamesFromStatement s " is a son of ").1 Gender.male = true ∨
        wouldCreateInvalidParentChildRelationship kb (extractNamesFromStatement s " is a son of ").1
        (extractNamesFromStatement s " is a son of ").2 = true) ∧
      processSonStatement kb s = (kb, impossibleMsg)) ∨
    (¬(pyLower (extractNamesFromStatement s " is a son of ").1 =
        pyLower (extractNamesFromStatement s " is a son of ").2) ∧
      hasGenderConflict kb (extractNamesFromStatement s " is a son of ").1 Gender.male = false ∧
      wouldCreateInvalidParentChildRelationship kb (extractNamesFromStatement s " is a son of ").1
        (extractNamesFromStatement s " is a son of ").2 = false ∧
      processSonStatement kb s = (assertParent (assertMale kb (pyLower (extractNamesFromStatement s " is a son of ").1)) (pyLower (extractNamesFromStatement s " is a son of ").2) (pyLower (extractNamesFromStatement s " is a son of ").1), okMsg)) := by
  simp only [processSonStatement]
  split_ifs with hg
  · exact Or.inl ⟨hg, rfl⟩
  · push_neg at hg
    exact Or.inr ⟨hg.1, by simpa using hg.2.1, by simpa using hg.2.2, rfl⟩

lemma processAuntStatement_cases (kb : KB) (s : String) :
    ((pyLower (extractNamesFromStatement s " is an aunt of ").1 =
        pyLower (extractNamesFromStatement s " is an aunt of ").2 ∨
        hasGenderConflict kb (extractNamesFromStatement s " is an aunt of ").1 Gender.female = true ∨
        wouldCreateCircularRelationship kb (extractNamesFromStatement s " is an aunt of ").2
        (extractNamesFromStatement s " is an aunt of ").1 = true) ∧
      processAuntStatement kb s = (kb, impossibleMsg)) ∨
    (¬(pyLower (extractNamesFromStatement s " is an aunt of ").1 =
        pyLower (extractNamesFromStatement s " is an aunt of ").2) ∧
      hasGenderConflict kb (extractNamesFromStatement s " is an aunt of ").1 Gender.female = false ∧
      wouldCreateCircularRelationship kb (extractNamesFromStatement s " is an aunt of ").2
        (extractNamesFromStatement s " is an aunt of ").1 = false ∧
      processAuntStatement kb s = (assertPibling (assertFemale kb (pyLower (extractNamesFromStatement s " is an aunt of ").1)) (pyLower (extractNamesFromStatement s " is an aunt of ").1) (pyLower (extractNamesFromStatement s " is an aunt of ").2), okMsg)) := by
  simp only [processAuntStatement]
  split_ifs with hg
  · exact Or.inl ⟨hg, rfl⟩
  · push_neg at hg
    exact Or.inr ⟨hg.1, by simpa using hg.2.1, by simpa using hg.2.2, rfl⟩

lemma processUncleStatement_cases (kb : KB) (s : String) :
    ((pyLower (extractNamesFromStatement s " is an uncle of ").1 =
        pyLower (extractNamesFromStatement s " is an uncle of ").2 ∨
        hasGenderConflict kb (extractNamesFromStatement s " is an uncle of ").1 Gender.male = true ∨
        wouldCreateCircularRelationship kb (extractNamesFromStatement s " is an uncle of ").2
        (extractNamesFromStatement s " is an uncle of ").1 = true) ∧
      processUncleStatement kb s = (kb, impossibleMsg)) ∨
    (¬(pyLower (extractNamesFromStatement s " is an uncle of ").1 =
        pyLower (extractNamesFromStatement s " is an uncle of ").2) ∧
      hasGenderConflict kb (extractNamesFromStatement s " is an uncle of ").1 Gender.male = false ∧
      wouldCreateCircularRelationship kb (extractNamesFromStatement s " is an uncle of ").2
        (extractNamesFromStatement s " is an uncle of ").1 = false ∧
      processUncleStatement kb s = (assertPibling (assertMale kb (pyLower (extractNamesFromStatement s " is an uncle of ").1)) (pyLower (extractNamesFromStatement s " is an uncle of ").1) (pyLower (extractNamesFromStatement s " is an uncle of ").2), okMsg)) := by
  simp only [processUncleStatement]
  split_ifs with hg
  · exact Or.inl ⟨hg, rfl⟩
  · push_neg at hg
    exact Or.inr ⟨hg.1, by simpa using hg.2.1, by simpa using hg.2.2, rfl⟩

lemma processSiblingsStatement_cases (kb : KB) (s a b : String)
    (h : pySplit " and " (pyReplace s " are siblings" "") = [a, b]) :
    ((pyLower (canonName a) = pyLower (canonName b) ∨
        wouldCreateInvalidSiblingRelationship kb (canonName a) (canonName b) = true) ∧
      processSiblingsStatement kb s = (kb, impossibleMsg)) ∨
    (¬(pyLower (canonName a) = pyLower (canonName b)) ∧
      wouldCreateInvalidSiblingRelationship kb (canonName a) (canonName b) = false ∧
      processSiblingsStatement kb s =
        (assertSibling (assertSibling kb (pyLower (canonName a)) (pyLower (canonName b)))
          (pyLower (canonName b)) (pyLower (canonName a)), okMsg)) := by
  simp only [processSiblingsStatement, h]
  split_ifs with h1 h2
  · exact Or.inl ⟨Or.inl h1, rfl⟩
  · exact Or.inl ⟨Or.inr h2, rfl⟩
  · exact Or.inr ⟨h1, by simpa using h2, rfl⟩

lemma processParentsStatement_cases (kb : KB) (s x y z : String)
    (h : pySplit " and " (pyReplace s " are the parents of " " and ") = [x, y, z]) :
    ((pyLower (canonName z) = pyLower (canonName x) ∨
        pyLower (canonName z) = pyLower (canonName y) ∨
        wouldCreateCircularRelationship kb (canonName z) (canonName x) = true ∨
        wouldCreateCircularRelationship kb (canonName z) (canonName y) = true) ∧
      processParentsStatement kb s = (kb, impossibleMsg)) ∨
    (¬(pyLower (canonName z) = pyLower (canonName x)) ∧
      ¬(pyLower (canonName z) = pyLower (canonName y)) ∧
      wouldCreateCircularRelationship kb (canonName z) (canonName x) = false ∧
      wouldCreateCircularRelationship kb (canonName z) (canonName y) = false ∧
      processParentsStatement kb s =
        (assertParent (assertParent kb (pyLower (canonName x)) (pyLower (canonName z)))
          (pyLower (canonName y)) (pyLower (canonName z)), okMsg)) := by
  simp only [processParentsStatement, h]
  split_ifs with hg
  · exact Or.inl ⟨hg, rfl⟩
  · push_neg at hg
    exact Or.inr ⟨hg.1, hg.2.1, by simpa using hg.2.2.1, by simpa using hg.2.2.2, rfl⟩

lemma processMultipleChildrenStatement_cases (kb : KB) (s p1 p2 : String)
    (rest : List String)
    (h : pySplit " and "
        (pyReplace (pyReplace s " are children of " " and ") ", " " and ") =
      p1 :: p2 :: rest) :
    (validateMultipleChildrenStatement kb ((p1 :: p2 :: rest).dropLast.map canonName)
        (canonName ((p1 :: p2 :: rest).getLastD "")) = false ∧
      processMultipleChildrenStatement kb s = (kb, impossibleMsg)) ∨
    (validateMultipleChildrenStatement kb ((p1 :: p2 :: rest).dropLast.map canonName)
        (canonName ((p1 :: p2 :: rest).getLastD "")) = true ∧
      processMultipleChildrenStatement kb s =
        (((p1 :: p2 :: rest).dropLast.map canonName).foldl
          (fun k child =>
            assertParent k (pyLower (canonName ((p1 :: p2 :: rest).getLastD "")))
              (pyLower child)) kb, okMsg)) := by
  simp only [processMultipleChildrenStatement, h]
  split_ifs with hv
  · exact Or.inr ⟨hv, rfl⟩
  · exact Or.inl ⟨by simpa using hv, rfl⟩

lemma processSiblingsStatement_basic (kb : KB) (s : String) :
    ((processSiblingsStatement kb s).2 = okMsg ∨ (processSiblingsStatement kb s).2 = impossibleMsg ∨
      (processSiblingsStatement kb s).2 = invalidStmtMsg) ∧
    ((processSiblingsStatement kb s).2 ≠ okMsg → (processSiblingsStatement kb s).1 = kb) := by
  simp only [processSiblingsStatement]
  repeat' split
  all_goals first
    | exact ⟨Or.inl rfl, fun hn => absurd rfl hn⟩
    | exact ⟨Or.inr (Or.inl rfl), fun _ => rfl⟩
    | exact ⟨Or.inr (Or.inr rfl), fun _ => rfl⟩

lemma processParentsStatement_basic (kb : KB) (s : String) :
    ((processParentsStatement kb s).2 = okMsg ∨ (processParentsStatement kb s).2 = impossibleMsg ∨
      (processParentsStatement kb s).2 = invalidStmtMsg) ∧
    ((processParentsStatement kb s).2 ≠ okMsg → (processParentsStatement kb s).1 = kb) := by
  simp only [processParentsStatement]
  repeat' split
  all_goals first
    | exact ⟨Or.inl rfl, fun hn => absurd rfl hn⟩
    | exact ⟨Or.inr (Or.inl rfl), fun _ => rfl⟩
    | exact ⟨Or.inr (Or.inr rfl), fun _ => rfl⟩

lemma processMultipleChildrenStatement_basic (kb : KB) (s : String) :
    ((processMultipleChildrenStatement kb s).2 = okMsg ∨ (processMultipleChildrenStatement kb s).2 = impossibleMsg ∨
      (processMultipleChildrenStatement kb s).2 = invalidStmtMsg) ∧
    ((processMultipleChildrenStatement kb s).2 ≠ okMsg → (processMultipleChildrenStatement kb s).1 = kb) := by
  simp only [processMultipleChildrenStatement]
  repeat' split
  all_goals first
    | exact ⟨Or.inl rfl, fun hn => absurd rfl hn⟩
    | exact ⟨Or.inr (Or.inl rfl), fun _ => rfl⟩
    | exact ⟨Or.inr (Or.inr rfl), fun _ => rfl⟩

lemma processFatherStatement_basic (kb : KB) (s : String) :
    ((processFatherStatement kb s).2 = okMsg ∨ (processFatherStatement kb s).2 = impossibleMsg ∨
      (processFatherStatement kb s).2 = invalidStmtMsg) ∧
    ((processFatherStatement kb s).2 ≠ okMsg → (processFatherStatement kb s).1 = kb) := by
  simp only [processFatherStatement]
  repeat' split
  all_goals first
    | exact ⟨Or.inl rfl, fun hn => absurd rfl hn⟩
    | exact ⟨Or.inr (Or.inl rfl), fun _ => rfl⟩
    | exact ⟨Or.inr (Or.inr rfl), fun _ => rfl⟩

lemma processMotherStatement_basic (kb : KB) (s : String) :
    ((processMotherStatement kb s).2 = okMsg ∨ (processMotherStatement kb s).2 = impossibleMsg ∨
      (processMotherStatement kb s).2 = invalidStmtMsg) ∧
    ((processMotherStatement kb s).2 ≠ okMsg → (processMotherStatement kb s).1 = kb) := by
  simp only [processMotherStatement]
  repeat' split
  all_goals first
    | exact ⟨Or.inl rfl, fun hn => absurd rfl hn⟩
    | exact ⟨Or.inr (Or.inl rfl), fun _ => rfl⟩
    | exact ⟨Or.inr (Or.inr rfl), fun _ => rfl⟩

lemma processBrotherStatement_basic (kb : KB) (s : String) :
    ((processBrotherStatement kb s).2 = okMsg ∨ (processBrotherStatement kb s).2 = impossibleMsg ∨
      (processBrotherStatement kb s).2 = invalidStmtMsg) ∧
    ((processBrotherStatement kb s).2 ≠ okMsg → (processBrotherStatement kb s).1 = kb) := by
  simp only [processBrotherStatement]
  repeat' split
  all_goals first
    | exact ⟨Or.inl rfl, fun hn => absurd rfl hn⟩
    | exact ⟨Or.inr (Or.inl rfl), fun _ => rfl⟩
    | exact ⟨Or.inr (Or.inr rfl), fun _ => rfl⟩

lemma processSisterStatement_basic (kb : KB) (s : String) :
    ((processSisterStatement kb s).2 = okMsg ∨ (processSisterStatement kb s).2 = impossibleMsg ∨
      (processSisterStatement kb s).2 = invalidStmtMsg) ∧
    ((processSisterStatement kb s).2 ≠ okMsg → (processSisterStatement kb s).1 = kb) := by
  simp only [processSisterStatement]
  repeat' split
  all_goals first
    | exact ⟨Or.inl rfl, fun hn => absurd rfl hn⟩
    | exact ⟨Or.inr (Or.inl rfl), fun _ => rfl⟩
    | exact ⟨Or.inr (Or.inr rfl), fun _ => rfl⟩

lemma processGrandmotherStatement_basic (kb : KB) (s : String) :
    ((processGrandmotherStatement kb s).2 = okMsg ∨ (processGrandmotherStatement kb s).2 = impossibleMsg ∨
      (processGrandmotherStatement kb s).2 = invalidStmtMsg) ∧
    ((processGrandmotherStatement kb s).2 ≠ okMsg → (processGrandmotherStatement kb s).1 = kb) := by
  simp only [processGrandmotherStatement]
  repeat' split
  all_goals first
    | exact ⟨Or.inl rfl, fun hn => absurd rfl hn⟩
    | exact ⟨Or.inr (Or.inl rfl), fun _ => rfl⟩
    | exact ⟨Or.inr (Or.inr rfl), fun _ => rfl⟩

lemma processGrandfatherStatement_basic (kb : KB) (s : String) :
    ((processGrandfatherStatement kb s).2 = okMsg ∨ (processGrandfatherStatement kb s).2 = impossibleMsg ∨
      (processGrandfatherStatement kb s).2 = invalidStmtMsg) ∧
    ((processGrandfatherStatement kb s).2 ≠ okMsg → (processGrandfatherStatement kb s).1 = kb) := by
  simp only [processGrandfatherStatement]
  repeat' split
  all_goals first
    | exact ⟨Or.inl rfl, fun hn => absurd rfl hn⟩
    | exact ⟨Or.inr (Or.inl rfl), fun _ => rfl⟩
    | exact ⟨Or.inr (Or.inr rfl), fun _ => rfl⟩

lemma processChildStatement_basic (kb : KB) (s : String) :
    ((processChildStatement kb s).2 = okMsg ∨ (processChildStatement kb s).2 = impossibleMsg ∨
      (processChildStatement kb s).2 = invalidStmtMsg) ∧
    ((processChildStatement kb s).2 ≠ okMsg → (processChildStatement kb s).1 = kb) := by
  simp only [processChildStatement]
  repeat' split
  all_goals first
    | exact ⟨Or.inl rfl, fun hn => absurd rfl hn⟩
    | exact ⟨Or.inr (Or.inl rfl), fun _ => rfl⟩
    | exact ⟨Or.inr (Or.inr rfl), fun _ => rfl⟩

lemma processDaughterStatement_basic (kb : KB) (s : String) :
    ((processDaughterStatement kb s).2 = okMsg ∨ (processDaughterStatement kb s).2 = impossibleMsg ∨
      (processDaughterStatement kb s).2 = invalidStmtMsg) ∧
    ((processDaughterStatement kb s).2 ≠ okMsg → (processDaughterStatement kb s).1 = kb) := by
  simp only [processDaughterStatement]
  repeat' split
  all_goals first
    | exact ⟨Or.inl rfl, fun hn => absurd rfl hn⟩
    | exact ⟨Or.inr (Or.inl rfl), fun _ => rfl⟩
    | exact ⟨Or.inr (Or.inr rfl), fun _ => rfl⟩

lemma processSonStatement_basic (kb : KB) (s : String) :
    ((processSonStatement kb s).2 = okMsg ∨ (processSonStatement kb s).2 = impossibleMsg ∨
      (processSonStatement kb s).2 = invalidStmtMsg) ∧
    ((processSonStatement kb s).2 ≠ okMsg → (processSonStatement kb s).1 = kb) := by
  simp only [processSonStatement]
  repeat' split
  all_goals first
    | exact ⟨Or.inl rfl, fun hn => absurd rfl hn⟩
    | exact ⟨Or.inr (Or.inl rfl), fun _ => rfl⟩
    | exact ⟨Or.inr (Or.inr rfl), fun _ => rfl⟩

lemma processAuntStatement_basic (kb : KB) (s : String) :
    ((processAuntStatement kb s).2 = okMsg ∨ (processAuntStatement kb s).2 = impossibleMsg ∨
      (processAuntStatement kb s).2 = invalidStmtMsg) ∧
    ((processAuntStatement kb s).2 ≠ okMsg → (processAuntStatement kb s).1 = kb) := by
  simp only [processAuntStatement]
  repeat' split
  all_goals first
    | exact ⟨Or.inl rfl, fun hn => absurd rfl hn⟩
    | exact ⟨Or.inr (Or.inl rfl), fun _ => rfl⟩
    | exact ⟨Or.inr (Or.inr rfl), fun _ => rfl⟩

lemma processUncleStatement_basic (kb : KB) (s : String) :
    ((processUncleStatement kb s).2 = okMsg ∨ (processUncleStatement kb s).2 = impossibleMsg ∨
      (processUncleStatement kb s).2 = invalidStmtMsg) ∧
    ((processUncleStatement kb s).2 ≠ okMsg → (processUncleStatement kb s).1 = kb) := by
  simp only [processUncleStatement]
  repeat' split
  all_goals first
    | exact ⟨Or.inl rfl, fun hn => absurd rfl hn⟩
    | exact ⟨Or.inr (Or.inl rfl), fun _ => rfl⟩
    | exact ⟨Or.inr (Or.inr rfl), fun _ => rfl⟩


lemma processStatement_basic (kb : KB) (s : String) :
    ((processStatement kb s).2 = okMsg ∨ (processStatement kb s).2 = impossibleMsg ∨
      (processStatement kb s).2 = invalidStmtMsg) ∧
    ((processStatement kb s).2 ≠ okMsg → (processStatement kb s).1 = kb) := by
  simp only [processStatement]
  by_cases h0 : (strIn " and " (pyStrip s) && strIn " are siblings" (pyStrip s)) = true
  · rw [if_pos h0]
    exact processSiblingsStatement_basic kb _
  rw [if_neg h0]
  by_cases h1 : (strIn " and " (pyStrip s) && strIn " are the parents of " (pyStrip s)) = true
  · rw [if_pos h1]
    exact processParentsStatement_basic kb _
  rw [if_neg h1]
  by_cases h2 : strIn " are children of " (pyStrip s) = true
  · rw [if_pos h2]
    exact processMultipleChildrenStatement_basic kb _
  rw [if_neg h2]
  by_cases h3 : strIn " is the father of " (pyStrip s) = true
  · rw [if_pos h3]
    exact processFatherStatement_basic kb _
  rw [if_neg h3]
  by_cases h4 : strIn " is the mother of " (pyStrip s) = true
  · rw [if_pos h4]
    exact processMotherStatement_basic kb _
  rw [if_neg h4]
  by_cases h5 : strIn " is a brother of " (pyStrip s) = true
  · rw [if_pos h5]
    exact processBrotherStatement_basic kb _
  rw [if_neg h5]
  by_cases h6 : strIn " is a sister of " (pyStrip s) = true
  · rw [if_pos h6]
    exact processSisterStatement_basic kb _
  rw [if_neg h6]
  by_cases h7 : strIn " is a grandmother of " (pyStrip s) = true
  · rw [if_pos h7]
    exact processGrandmotherStatement_basic kb _
  rw [if_neg h7]
  by_cases h8 : strIn " is a grandfather of " (pyStrip s) = true
  · rw [if_pos h8]
    exact processGrandfatherStatement_basic kb _
  rw [if_neg h8]
  by_cases h9 : strIn " is a child of " (pyStrip s) = true
  · rw [if_pos h9]
    exact processChildStatement_basic kb _
  rw [if_neg h9]
  by_cases h10 : strIn " is a daughter of " (pyStrip s) = true
  · rw [if_pos h10]
    exact processDaughterStatement_basic kb _
  rw [if_neg h10]
  by_cases h11 : strIn " is a son of " (pyStrip s) = true
  · rw [if_pos h11]
    exact processSonStatement_basic kb _
  rw [if_neg h11]
  by_cases h12 : strIn " is an aunt of " (pyStrip s) = true
  · rw [if_pos h12]
    exact processAuntStatement_basic kb _
  rw [if_neg h12]
  by_cases h13 : strIn " is an uncle of " (pyStrip s) = true
  · rw [if_pos h13]
    exact processUncleStatement_basic kb _
  rw [if_neg h13]
  exact ⟨Or.inr (Or.inr rfl), fun _ => rfl⟩

@[simp] lemma assertMale_males (kb : KB) (x : String) : (assertMale kb x).males = kb.males ++ [x] := rfl
@[simp] lemma assertMale_females (kb : KB) (x : String) : (assertMale kb x).females = kb.females := rfl
@[simp] lemma assertMale_parents (kb : KB) (x : String) : (assertMale kb x).parents = kb.parents := rfl
@[simp] lemma assertMale_siblings (kb : KB) (x : String) : (assertMale kb x).siblings = kb.siblings := rfl
@[simp] lemma assertMale_grandparents (kb : KB) (x : String) : (assertMale kb x).grandparents = kb.grandparents := rfl
@[simp] lemma assertMale_piblings (kb : KB) (x : String) : (assertMale kb x).piblings = kb.piblings := rfl
@[simp] lemma assertFemale_males (kb : KB) (x : String) : (assertFemale kb x).males = kb.males := rfl
@[simp] lemma assertFemale_females (kb : KB) (x : String) : (assertFemale kb x).females = kb.females ++ [x] := rfl
@[simp] lemma assertFemale_parents (kb : KB) (x : String) : (assertFemale kb x).parents = kb.parents := rfl
@[simp] lemma assertFemale_siblings (kb : KB) (x : String) : (assertFemale kb x).siblings = kb.siblings := rfl
@[simp] lemma assertFemale_grandparents (kb : KB) (x : String) : (assertFemale kb x).grandparents = kb.grandparents := rfl
@[simp] lemma assertFemale_piblings (kb : KB) (x : String) : (assertFemale kb x).piblings = kb.piblings := rfl
@[simp] lemma assertParent_males (kb : KB) (p c : String) : (assertParent kb p c).males = kb.males := rfl
@[simp] lemma assertParent_females (kb : KB) (p c : String) : (assertParent kb p c).females = kb.females := rfl
@[simp] lemma assertParent_parents (kb : KB) (p c : String) : (assertParent kb p c).parents = kb.parents ++ [(p, c)] := rfl
@[simp] lemma assertParent_siblings (kb : KB) (p c : String) : (assertParent kb p c).siblings = kb.siblings := rfl
@[simp] lemma assertParent_grandparents (kb : KB) (p c : String) : (assertParent kb p c).grandparents = kb.grandparents := rfl
@[simp] lemma assertParent_piblings (kb : KB) (p c : String) : (assertParent kb p c).piblings = kb.piblings := rfl
@[simp] lemma assertSibling_males (kb : KB) (a b : String) : (assertSibling kb a b).males = kb.males := rfl
@[simp] lemma assertSibling_females (kb : KB) (a b : String) : (assertSibling kb a b).females = kb.females := rfl
@[simp] lemma assertSibling_parents (kb : KB) (a b : String) : (assertSibling kb a b).parents = kb.parents := rfl
@[simp] lemma assertSibling_siblings (kb : KB) (a b : String) : (assertSibling kb a b).siblings = kb.siblings ++ [(a, b)] := rfl
@[simp] lemma assertSibling_grandparents (kb : KB) (a b : String) : (assertSibling kb a b).grandparents = kb.grandparents := rfl
@[simp] lemma assertSibling_piblings (kb : KB) (a b : String) : (assertSibling kb a b).piblings = kb.piblings := rfl
@[simp] lemma assertGrandparent_males (kb : KB) (g c : String) : (assertGrandparent kb g c).males = kb.males := rfl
@[simp] lemma assertGrandparent_females (kb : KB) (g c : String) : (assertGrandparent kb g c).females = kb.females := rfl
@[simp] lemma assertGrandparent_parents (kb : KB) (g c : String) : (assertGrandparent kb g c).parents = kb.parents := rfl
@[simp] lemma assertGrandparent_siblings (kb : KB) (g c : String) : (assertGrandparent kb g c).siblings = kb.siblings := rfl
@[simp] lemma assertGrandparent_grandparents (kb : KB) (g c : String) : (assertGrandparent kb g c).grandparents = kb.grandparents ++ [(g, c)] := rfl
@[simp] lemma assertGrandparent_piblings (kb : KB) (g c : String) : (assertGrandparent kb g c).piblings = kb.piblings := rfl
@[simp] lemma assertPibling_males (kb : KB) (p n : String) : (assertPibling kb p n).males = kb.males := rfl
@[simp] lemma assertPibling_females (kb : KB) (p n : String) : (assertPibling kb p n).females = kb.females := rfl
@[simp] lemma assertPibling_parents (kb : KB) (p n : String) : (assertPibling kb p n).parents = kb.parents := rfl
@[simp] lemma assertPibling_siblings (kb : KB) (p n : String) : (assertPibling kb p n).siblings = kb.siblings := rfl
@[simp] lemma assertPibling_grandparents (kb : KB) (p n : String) : (assertPibling kb p n).grandparents = kb.grandparents := rfl
@[simp] lemma assertPibling_piblings (kb : KB) (p n : String) : (assertPibling kb p n).piblings = kb.piblings ++ [(p, n)] := rfl

lemma provFemale_false_notMem {kb : KB} {x : String} (h : provFemale kb x = false) :
    x ∉ kb.females := by
  simpa [provFemale] using h

lemma provMale_false_notMem {kb : KB} {x : String} (h : provMale kb x = false) :
    x ∉ kb.males := by
  simpa [provMale] using h

lemma genderOK_congr {kb kb' : KB} (hm : kb'.males = kb.males)
    (hf : kb'.females = kb.females) (h : GenderOK kb) : GenderOK kb' := by
  intro y hy hy2
  rw [hm] at hy
  rw [hf] at hy2
  exact h y hy hy2

lemma genderOK_assertMale {kb : KB} {x : String} (h : GenderOK kb)
    (hx : provFemale kb x = false) : GenderOK (assertMale kb x) := by
  intro y hy hy2
  simp only [assertMale_males, assertMale_females, List.mem_append,
    List.mem_singleton] at hy hy2
  rcases hy with hy | rfl
  · exact h y hy hy2
  · exact provFemale_false_notMem hx hy2

lemma genderOK_assertFemale {kb : KB} {x : String} (h : GenderOK kb)
    (hx : provMale kb x = false) : GenderOK (assertFemale kb x) := by
  intro y hy hy2
  simp only [assertFemale_males, assertFemale_females, List.mem_append,
    List.mem_singleton] at hy hy2
  rcases hy2 with hy2 | rfl
  · exact h y hy hy2
  · exact provMale_false_notMem hx hy

lemma foldl_assertParent_fields (lp : String) :
    ∀ (children : List String) (kb : KB),
      (children.foldl (fun k child => assertParent k lp (pyLower child)) kb).males = kb.males ∧
      (children.foldl (fun k child => assertParent k lp (pyLower child)) kb).females = kb.females ∧
      (children.foldl (fun k child => assertParent k lp (pyLower child)) kb).siblings = kb.siblings ∧
      (children.foldl (fun k child => assertParent k lp (pyLower child)) kb).grandparents = kb.grandparents ∧
      (children.foldl (fun k child => assertParent k lp (pyLower child)) kb).piblings = kb.piblings ∧
      (children.foldl (fun k child => assertParent k lp (pyLower child)) kb).parents =
        kb.parents ++ children.map (fun child => (lp, pyLower child)) := by
  intro children
  induction children with
  | nil => intro kb; simp
  | cons c t ih =>
    intro kb
    obtain ⟨h1, h2, h3, h4, h5, h6⟩ := ih (assertParent kb lp (pyLower c))
    simp only [List.foldl_cons, List.map_cons]
    refine ⟨?_, ?_, ?_, ?_, ?_, ?_⟩ <;>
      simp [h1, h2, h3, h4, h5, h6, List.append_assoc]

lemma loweredKB_assertMale {kb : KB} {x : String} (h : LoweredKB kb)
    (hx : isLowerStr x) : LoweredKB (assertMale kb x) := by
  obtain ⟨h1, h2, h3, h4, h5, h6⟩ := h
  refine ⟨?_, h2, h3, h4, h5, h6⟩
  intro y hy
  rcases List.mem_append.mp hy with hy | hy
  · exact h1 y hy
  · rw [List.mem_singleton.mp hy]
    exact hx

lemma loweredKB_assertFemale {kb : KB} {x : String} (h : LoweredKB kb)
    (hx : isLowerStr x) : LoweredKB (assertFemale kb x) := by
  obtain ⟨h1, h2, h3, h4, h5, h6⟩ := h
  refine ⟨h1, ?_, h3, h4, h5, h6⟩
  intro y hy
  rcases List.mem_append.mp hy with hy | hy
  · exact h2 y hy
  · rw [List.mem_singleton.mp hy]
    exact hx

lemma loweredKB_assertParent {kb : KB} {p c : String} (h : LoweredKB kb)
    (hp : isLowerStr p) (hc : isLowerStr c) : LoweredKB (assertParent kb p c) := by
  obtain ⟨h1, h2, h3, h4, h5, h6⟩ := h
  refine ⟨h1, h2, ?_, h4, h5, h6⟩
  intro e he
  rcases List.mem_append.mp he with he | he
  · exact h3 e he
  · rw [List.mem_singleton.mp he]
    exact ⟨hp, hc⟩

lemma loweredKB_assertSibling {kb : KB} {a b : String} (h : LoweredKB kb)
    (ha : isLowerStr a) (hb : isLowerStr b) : LoweredKB (assertSibling kb a b) := by
  obtain ⟨h1, h2, h3, h4, h5, h6⟩ := h
  refine ⟨h1, h2, h3, ?_, h5, h6⟩
  intro e he
  rcases List.mem_append.mp he with he | he
  · exact h4 e he
  · rw [List.mem_singleton.mp he]
    exact ⟨ha, hb⟩

lemma loweredKB_assertGrandparent {kb : KB} {g c : String} (h : LoweredKB kb)
    (hg : isLowerStr g) (hc : isLowerStr c) : LoweredKB (assertGrandparent kb g c) := by
  obtain ⟨h1, h2, h3, h4, h5, h6⟩ := h
  refine ⟨h1, h2, h3, h4, ?_, h6⟩
  intro e he
  rcases List.mem_append.mp he with he | he
  · exact h5 e he
  · rw [List.mem_singleton.mp he]
    exact ⟨hg, hc⟩

lemma loweredKB_assertPibling {kb : KB} {p n : String} (h : LoweredKB kb)
    (hp : isLowerStr p) (hn : isLowerStr n) : LoweredKB (assertPibling kb p n) := by
  obtain ⟨h1, h2, h3, h4, h5, h6⟩ := h
  refine ⟨h1, h2, h3, h4, h5, ?_⟩
  intro e he
  rcases List.mem_append.mp he with he | he
  · exact h6 e he
  · rw [List.mem_singleton.mp he]
    exact ⟨hp, hn⟩

lemma loweredKB_foldChildren (lp : String) (children : List String) (kb : KB)
    (h : LoweredKB kb) (hlp : isLowerStr lp) :
    LoweredKB (children.foldl (fun k child => assertParent k lp (pyLower child)) kb) := by
  obtain ⟨f1, f2, f4, f5, f6, f3⟩ := foldl_assertParent_fields lp children kb
  obtain ⟨h1, h2, h3, h4, h5, h6⟩ := h
  refine ⟨?_, ?_, ?_, ?_, ?_, ?_⟩
  · rw [f1]; exact h1
  · rw [f2]; exact h2
  · rw [f3]
    intro e he
    rcases List.mem_append.mp he with he | he
    · exact h3 e he
    · rcases List.mem_map.mp he with ⟨c, _, rfl⟩
      exact ⟨hlp, isLowerStr_pyLower c⟩
  · rw [f4]; exact h4
  · rw [f5]; exact h5
  · rw [f6]; exact h6

lemma processFatherStatement_gender (kb : KB) (s : String) (h : GenderOK kb) :
    GenderOK (processFatherStatement kb s).1 := by
  rcases processFatherStatement_cases kb s with
    ⟨_, heq⟩ | ⟨_, hgc, _, heq⟩
  · rw [heq]; exact h
  · rw [heq]
    refine genderOK_congr ?_ ?_
      (genderOK_assertMale h (by simpa [hasGenderConflict] using hgc)) <;> simp

lemma processFatherStatement_lowered (kb : KB) (s : String) (h : LoweredKB kb) :
    LoweredKB (processFatherStatement kb s).1 := by
  rcases processFatherStatement_cases kb s with
    ⟨_, heq⟩ | ⟨_, _, _, heq⟩
  · rw [heq]; exact h
  · rw [heq]
    exact loweredKB_assertParent (loweredKB_assertMale h (isLowerStr_pyLower _)) (isLowerStr_pyLower _) (isLowerStr_pyLower _)

lemma processMotherStatement_gender (kb : KB) (s : String) (h : GenderOK kb) :
    GenderOK (processMotherStatement kb s).1 := by
  rcases processMotherStatement_cases kb s with
    ⟨_, heq⟩ | ⟨_, hgc, _, heq⟩
  · rw [heq]; exact h
  · rw [heq]
    refine genderOK_congr ?_ ?_
      (genderOK_assertFemale h (by simpa [hasGenderConflict] using hgc)) <;> simp

lemma processMotherStatement_lowered (kb : KB) (s : String) (h : LoweredKB kb) :
    LoweredKB (processMotherStatement kb s).1 := by
  rcases processMotherStatement_cases kb s with
    ⟨_, heq⟩ | ⟨_, _, _, heq⟩
  · rw [heq]; exact h
  · rw [heq]
    exact loweredKB_assertParent (loweredKB_assertFemale h (isLowerStr_pyLower _)) (isLowerStr_pyLower _) (isLowerStr_pyLower _)

lemma processBrotherStatement_gender (kb : KB) (s : String) (h : GenderOK kb) :
    GenderOK (processBrotherStatement kb s).1 := by
  rcases processBrotherStatement_cases kb s with
    ⟨_, heq⟩ | ⟨_, hgc, _, heq⟩
  · rw [heq]; exact h
  · rw [heq]
    refine genderOK_congr ?_ ?_
      (genderOK_assertMale h (by simpa [hasGenderConflict] using hgc)) <;> simp

lemma processBrotherStatement_lowered (kb : KB) (s : String) (h : LoweredKB kb) :
    LoweredKB (processBrotherStatement kb s).1 := by
  rcases processBrotherStatement_cases kb s with
    ⟨_, heq⟩ | ⟨_, _, _, heq⟩
  · rw [heq]; exact h
  · rw [heq]
    exact loweredKB_assertSibling (loweredKB_assertSibling (loweredKB_assertMale h (isLowerStr_pyLower _)) (isLowerStr_pyLower _) (isLowerStr_pyLower _)) (isLowerStr_pyLower _) (isLowerStr_pyLower _)

lemma processSisterStatement_gender (kb : KB) (s : String) (h : GenderOK kb) :
    GenderOK (processSisterStatement kb s).1 := by
  rcases processSisterStatement_cases kb s with
    ⟨_, heq⟩ | ⟨_, hgc, _, heq⟩
  · rw [heq]; exact h
  · rw [heq]
    refine genderOK_congr ?_ ?_
      (genderOK_assertFemale h (by simpa [hasGenderConflict] using hgc)) <;> simp

lemma processSisterStatement_lowered (kb : KB) (s : String) (h : LoweredKB kb) :
    LoweredKB (processSisterStatement kb s).1 := by
  rcases processSisterStatement_cases kb s with
    ⟨_, heq⟩ | ⟨_, _, _, heq⟩
  · rw [heq]; exact h
  · rw [heq]
    exact loweredKB_assertSibling (loweredKB_assertSibling (loweredKB_assertFemale h (isLowerStr_pyLower _)) (isLowerStr_pyLower _) (isLowerStr_pyLower _)) (isLowerStr_pyLower _) (isLowerStr_pyLower _)

lemma processGrandmotherStatement_gender (kb : KB) (s : String) (h : GenderOK kb) :
    GenderOK (processGrandmotherStatement kb s).1 := by
  rcases processGrandmotherStatement_cases kb s with
    ⟨_, heq⟩ | ⟨_, hgc, _, heq⟩
  · rw [heq]; exact h
  · rw [heq]
    refine genderOK_congr ?_ ?_
      (genderOK_assertFemale h (by simpa [hasGenderConflict] using hgc)) <;> simp

lemma processGrandmotherStatement_lowered (kb : KB) (s : String) (h : LoweredKB kb) :
    LoweredKB (processGrandmotherStatement kb s).1 := by
  rcases processGrandmotherStatement_cases kb s with
    ⟨_, heq⟩ | ⟨_, _, _, heq⟩
  · rw [heq]; exact h
  · rw [heq]
    exact loweredKB_assertGrandparent (loweredKB_assertFemale h (isLowerStr_pyLower _)) (isLowerStr_pyLower _) (isLowerStr_pyLower _)

lemma processGrandfatherStatement_gender (kb : KB) (s : String) (h : GenderOK kb) :
    GenderOK (processGrandfatherStatement kb s).1 := by
  rcases processGrandfatherStatement_cases kb s with
    ⟨_, heq⟩ | ⟨_, hgc, _, heq⟩
  · rw [heq]; exact h
  · rw [heq]
    refine genderOK_congr ?_ ?_
      (genderOK_assertMale h (by simpa [hasGenderConflict] using hgc)) <;> simp

lemma processGrandfatherStatement_lowered (kb : KB) (s : String) (h : LoweredKB kb) :
    LoweredKB (processGrandfatherStatement kb s).1 := by
  rcases processGrandfatherStatement_cases kb s with
    ⟨_, heq⟩ | ⟨_, _, _, heq⟩
  · rw [heq]; exact h
  · rw [heq]
    exact loweredKB_assertGrandparent (loweredKB_assertMale h (isLowerStr_pyLower _)) (isLowerStr_pyLower _) (isLowerStr_pyLower _)

lemma processDaughterStatement_gender (kb : KB) (s : String) (h : GenderOK kb) :
    GenderOK (processDaughterStatement kb s).1 := by
  rcases processDaughterStatement_cases kb s with
    ⟨_, heq⟩ | ⟨_, hgc, _, heq⟩
  · rw [heq]; exact h
  · rw [heq]
    refine genderOK_congr ?_ ?_
      (genderOK_assertFemale h (by simpa [hasGenderConflict] using hgc)) <;> simp

lemma processDaughterStatement_lowered (kb : KB) (s : String) (h : LoweredKB kb) :
    LoweredKB (processDaughterStatement kb s).1 := by
  rcases processDaughterStatement_cases kb s with
    ⟨_, heq⟩ | ⟨_, _, _, heq⟩
  · rw [heq]; exact h
  · rw [heq]
    exact loweredKB_assertParent (loweredKB_assertFemale h (isLowerStr_pyLower _)) (isLowerStr_pyLower _) (isLowerStr_pyLower _)

lemma processSonStatement_gender (kb : KB) (s : String) (h : GenderOK kb) :
    GenderOK (processSonStatement kb s).1 := by
  rcases processSonStatement_cases kb s with
    ⟨_, heq⟩ | ⟨_, hgc, _, heq⟩
  · rw [heq]; exact h
  · rw [heq]
    refine genderOK_congr ?_ ?_
      (genderOK_assertMale h (by simpa [hasGenderConflict] using hgc)) <;> simp

lemma processSonStatement_lowered (kb : KB) (s : String) (h : LoweredKB kb) :
    LoweredKB (processSonStatement kb s).1 := by
  rcases processSonStatement_cases kb s with
    ⟨_, heq⟩ | ⟨_, _, _, heq⟩
  · rw [heq]; exact h
  · rw [heq]
    exact loweredKB_assertParent (loweredKB_assertMale h (isLowerStr_pyLower _)) (isLowerStr_pyLower _) (isLowerStr_pyLower _)

lemma processAuntStatement_gender (kb : KB) (s : String) (h : GenderOK kb) :
    GenderOK (processAuntStatement kb s).1 := by
  rcases processAuntStatement_cases kb s with
    ⟨_, heq⟩ | ⟨_, hgc, _, heq⟩
  · rw [heq]; exact h
  · rw [heq]
    refine genderOK_congr ?_ ?_
      (genderOK_assertFemale h (by simpa [hasGenderConflict] using hgc)) <;> simp

lemma processAuntStatement_lowered (kb : KB) (s : String) (h : LoweredKB kb) :
    LoweredKB (processAuntStatement kb s).1 := by
  rcases processAuntStatement_cases kb s with
    ⟨_, heq⟩ | ⟨_, _, _, heq⟩
  · rw [heq]; exact h
  · rw [heq]
    exact loweredKB_assertPibling (loweredKB_assertFemale h (isLowerStr_pyLower _)) (isLowerStr_pyLower _) (isLowerStr_pyLower _)

lemma processUncleStatement_gender (kb : KB) (s : String) (h : GenderOK kb) :
    GenderOK (processUncleStatement kb s).1 := by
  rcases processUncleStatement_cases kb s with
    ⟨_, heq⟩ | ⟨_, hgc, _, heq⟩
  · rw [heq]; exact h
  · rw [heq]
    refine genderOK_congr ?_ ?_
      (genderOK_assertMale h (by simpa [hasGenderConflict] using hgc)) <;> simp

lemma processUncleStatement_lowered (kb : KB) (s : String) (h : LoweredKB kb) :
    LoweredKB (processUncleStatement kb s).1 := by
  rcases processUncleStatement_cases kb s with
    ⟨_, heq⟩ | ⟨_, _, _, heq⟩
  · rw [heq]; exact h
  · rw [heq]
    exact loweredKB_assertPibling (loweredKB_assertMale h (isLowerStr_pyLower _)) (isLowerStr_pyLower _) (isLowerStr_pyLower _)

lemma processChildStatement_gender (kb : KB) (s : String) (h : GenderOK kb) :
    GenderOK (processChildStatement kb s).1 := by
  rcases processChildStatement_cases kb s with
    ⟨_, heq⟩ | ⟨_, _, heq⟩
  · rw [heq]; exact h
  · rw [heq]
    exact genderOK_congr (by simp) (by simp) h

lemma processChildStatement_lowered (kb : KB) (s : String) (h : LoweredKB kb) :
    LoweredKB (processChildStatement kb s).1 := by
  rcases processChildStatement_cases kb s with
    ⟨_, heq⟩ | ⟨_, _, heq⟩
  · rw [heq]; exact h
  · rw [heq]
    exact loweredKB_assertParent h (isLowerStr_pyLower _) (isLowerStr_pyLower _)

lemma processSiblingsStatement_gender (kb : KB) (s : String) (h : GenderOK kb) :
    GenderOK (processSiblingsStatement kb s).1 := by
  simp only [processSiblingsStatement]
  repeat' split
  all_goals first
    | exact h
    | exact genderOK_congr (by simp) (by simp) h

lemma processSiblingsStatement_lowered (kb : KB) (s : String) (h : LoweredKB kb) :
    LoweredKB (processSiblingsStatement kb s).1 := by
  simp only [processSiblingsStatement]
  repeat' split
  all_goals first
    | exact h
    | exact loweredKB_assertSibling
        (loweredKB_assertSibling h (isLowerStr_pyLower _) (isLowerStr_pyLower _))
        (isLowerStr_pyLower _) (isLowerStr_pyLower _)

lemma processParentsStatement_gender (kb : KB) (s : String) (h : GenderOK kb) :
    GenderOK (processParentsStatement kb s).1 := by
  simp only [processParentsStatement]
  repeat' split
  all_goals first
    | exact h
    | exact genderOK_congr (by simp) (by simp) h

lemma processParentsStatement_lowered (kb : KB) (s : String) (h : LoweredKB kb) :
    LoweredKB (processParentsStatement kb s).1 := by
  simp only [processParentsStatement]
  repeat' split
  all_goals first
    | exact h
    | exact loweredKB_assertParent
        (loweredKB_assertParent h (isLowerStr_pyLower _) (isLowerStr_pyLower _))
        (isLowerStr_pyLower _) (isLowerStr_pyLower _)

lemma processMultipleChildrenStatement_gender (kb : KB) (s : String) (h : GenderOK kb) :
    GenderOK (processMultipleChildrenStatement kb s).1 := by
  simp only [processMultipleChildrenStatement]
  repeat' split
  all_goals first
    | exact h
    | exact genderOK_congr ((foldl_assertParent_fields _ _ kb).1)
        ((foldl_assertParent_fields _ _ kb).2.1) h

lemma processMultipleChildrenStatement_lowered (kb : KB) (s : String) (h : LoweredKB kb) :
    LoweredKB (processMultipleChildrenStatement kb s).1 := by
  simp only [processMultipleChildrenStatement]
  repeat' split
  all_goals first
    | exact h
    | exact loweredKB_foldChildren _ _ kb h (isLowerStr_pyLower _)

lemma processStatement_gender (kb : KB) (s : String) (h : GenderOK kb) :
    GenderOK (processStatement kb s).1 := by
  simp only [processStatement]
  by_cases h0 : (strIn " and " (pyStrip s) && strIn " are siblings" (pyStrip s)) = true
  · rw [if_pos h0]
    exact processSiblingsStatement_gender kb _ h
  rw [if_neg h0]
  by_cases h1 : (strIn " and " (pyStrip s) && strIn " are the parents of " (pyStrip s)) = true
  · rw [if_pos h1]
    exact processParentsStatement_gender kb _ h
  rw [if_neg h1]
  by_cases h2 : strIn " are children of " (pyStrip s) = true
  · rw [if_pos h2]
    exact processMultipleChildrenStatement_gender kb _ h
  rw [if_neg h2]
  by_cases h3 : strIn " is the father of " (pyStrip s) = true
  · rw [if_pos h3]
    exact processFatherStatement_gender kb _ h
  rw [if_neg h3]
  by_cases h4 : strIn " is the mother of " (pyStrip s) = true
  · rw [if_pos h4]
    exact processMotherStatement_gender kb _ h
  rw [if_neg h4]
  by_cases h5 : strIn " is a brother of " (pyStrip s) = true
  · rw [if_pos h5]
    exact processBrotherStatement_gender kb _ h
  rw [if_neg h5]
  by_cases h6 : strIn " is a sister of " (pyStrip s) = true
  · rw [if_pos h6]
    exact processSisterStatement_gender kb _ h
  rw [if_neg h6]
  by_cases h7 : strIn " is a grandmother of " (pyStrip s) = true
  · rw [if_pos h7]
    exact processGrandmotherStatement_gender kb _ h
  rw [if_neg h7]
  by_cases h8 : strIn " is a grandfather of " (pyStrip s) = true
  · rw [if_pos h8]
    exact processGrandfatherStatement_gender kb _ h
  rw [if_neg h8]
  by_cases h9 : strIn " is a child of " (pyStrip s) = true
  · rw [if_pos h9]
    exact processChildStatement_gender kb _ h
  rw [if_neg h9]
  by_cases h10 : strIn " is a daughter of " (pyStrip s) = true
  · rw [if_pos h10]
    exact processDaughterStatement_gender kb _ h
  rw [if_neg h10]
  by_cases h11 : strIn " is a son of " (pyStrip s) = true
  · rw [if_pos h11]
    exact processSonStatement_gender kb _ h
  rw [if_neg h11]
  by_cases h12 : strIn " is an aunt of " (pyStrip s) = true
  · rw [if_pos h12]
    exact processAuntStatement_gender kb _ h
  rw [if_neg h12]
  by_cases h13 : strIn " is an uncle of " (pyStrip s) = true
  · rw [if_pos h13]
    exact processUncleStatement_gender kb _ h
  rw [if_neg h13]
  exact h

lemma processStatement_lowered (kb : KB) (s : String) (h : LoweredKB kb) :
    LoweredKB (processStatement kb s).1 := by
  simp only [processStatement]
  by_cases h0 : (strIn " and " (pyStrip s) && strIn " are siblings" (pyStrip s)) = true
  · rw [if_pos h0]
    exact processSiblingsStatement_lowered kb _ h
  rw [if_neg h0]
  by_cases h1 : (strIn " and " (pyStrip s) && strIn " are the parents of " (pyStrip s)) = true
  · rw [if_pos h1]
    exact processParentsStatement_lowered kb _ h
  rw [if_neg h1]
  by_cases h2 : strIn " are children of " (pyStrip s) = true
  · rw [if_pos h2]
    exact processMultipleChildrenStatement_lowered kb _ h
  rw [if_neg h2]
  by_cases h3 : strIn " is the father of " (pyStrip s) = true
  · rw [if_pos h3]
    exact processFatherStatement_lowered kb _ h
  rw [if_neg h3]
  by_cases h4 : strIn " is the mother of " (pyStrip s) = true
  · rw [if_pos h4]
    exact processMotherStatement_lowered kb _ h
  rw [if_neg h4]
  by_cases h5 : strIn " is a brother of " (pyStrip s) = true
  · rw [if_pos h5]
    exact processBrotherStatement_lowered kb _ h
  rw [if_neg h5]
  by_cases h6 : strIn " is a sister of " (pyStrip s) = true
  · rw [if_pos h6]
    exact processSisterStatement_lowered kb _ h
  rw [if_neg h6]
  by_cases h7 : strIn " is a grandmother of " (pyStrip s) = true
  · rw [if_pos h7]
    exact processGrandmotherStatement_lowered kb _ h
  rw [if_neg h7]
  by_cases h8 : strIn " is a grandfather of " (pyStrip s) = true
  · rw [if_pos h8]
    exact processGrandfatherStatement_lowered kb _ h
  rw [if_neg h8]
  by_cases h9 : strIn " is a child of " (pyStrip s) = true
  · rw [if_pos h9]
    exact processChildStatement_lowered kb _ h
  rw [if_neg h9]
  by_cases h10 : strIn " is a daughter of " (pyStrip s) = true
  · rw [if_pos h10]
    exact processDaughterStatement_lowered kb _ h
  rw [if_neg h10]
  by_cases h11 : strIn " is a son of " (pyStrip s) = true
  · rw [if_pos h11]
    exact processSonStatement_lowered kb _ h
  rw [if_neg h11]
  by_cases h12 : strIn " is an aunt of " (pyStrip s) = true
  · rw [if_pos h12]
    exact processAuntStatement_lowered kb _ h
  rw [if_neg h12]
  by_cases h13 : strIn " is an uncle of " (pyStrip s) = true
  · rw [if_pos h13]
    exact processUncleStatement_lowered kb _ h
  rw [if_neg h13]
  exact h

lemma runStatements_genderOK :
    ∀ (inputs : List String) (kb : KB), GenderOK kb → GenderOK (runStatements kb inputs) := by
  intro inputs
  induction inputs with
  | nil => intro kb h; exact h
  | cons s t ih =>
    intro kb h
    simp only [runStatements, List.foldl_cons]
    exact ih _ (processStatement_gender kb s h)

lemma runStatements_lowered :
    ∀ (inputs : List String) (kb : KB), LoweredKB kb → LoweredKB (runStatements kb inputs) := by
  intro inputs
  induction inputs with
  | nil => intro kb h; exact h
  | cons s t ih =>
    intro kb h
    simp only [runStatements, List.foldl_cons]
    exact ih _ (processStatement_lowered kb s h)

lemma acyclic_addParentEdge {kb : KB} {pn cn : String} (hac : Acyclic kb.parents)
    (hne : pn ≠ cn) (hrel : provRelated kb pn cn = false) :
    Acyclic (kb.parents ++ [(pn, cn)]) := by
  have h := @acyclic_append_children pn [cn] kb.parents hac ?_
  · simpa using h
  · intro c hc
    rw [List.mem_singleton] at hc
    subst hc
    exact ⟨Ne.symm hne, noPath_of_notRelated hac hne hrel⟩

lemma processFatherStatement_acyclic (kb : KB) (s : String)
    (hac : Acyclic kb.parents) : Acyclic (processFatherStatement kb s).1.parents := by
  rcases processFatherStatement_cases kb s with ⟨_, heq⟩ | ⟨hne, _, hcirc, heq⟩
  · rw [heq]; exact hac
  · rw [heq]
    simp only [assertParent_parents, assertMale_parents]
    exact acyclic_addParentEdge hac hne
      (by simpa [wouldCreateCircularRelationship, arePersonsRelated] using hcirc)

lemma processMotherStatement_acyclic (kb : KB) (s : String)
    (hac : Acyclic kb.parents) : Acyclic (processMotherStatement kb s).1.parents := by
  rcases processMotherStatement_cases kb s with ⟨_, heq⟩ | ⟨hne, _, hcirc, heq⟩
  · rw [heq]; exact hac
  · rw [heq]
    simp only [assertParent_parents, assertFemale_parents]
    exact acyclic_addParentEdge hac hne
      (by simpa [wouldCreateCircularRelationship, arePersonsRelated] using hcirc)

lemma processBrotherStatement_acyclic (kb : KB) (s : String)
    (hac : Acyclic kb.parents) : Acyclic (processBrotherStatement kb s).1.parents := by
  rcases processBrotherStatement_cases kb s with ⟨_, heq⟩ | ⟨_, _, _, heq⟩ <;> rw [heq]
  · exact hac
  · simpa using hac

lemma processSisterStatement_acyclic (kb : KB) (s : String)
    (hac : Acyclic kb.parents) : Acyclic (processSisterStatement kb s).1.parents := by
  rcases processSisterStatement_cases kb s with ⟨_, heq⟩ | ⟨_, _, _, heq⟩ <;> rw [heq]
  · exact hac
  · simpa using hac

lemma processGrandmotherStatement_acyclic (kb : KB) (s : String)
    (hac : Acyclic kb.parents) : Acyclic (processGrandmotherStatement kb s).1.parents := by
  rcases processGrandmotherStatement_cases kb s with ⟨_, heq⟩ | ⟨_, _, _, heq⟩ <;> rw [heq]
  · exact hac
  · simpa using hac

lemma processGrandfatherStatement_acyclic (kb : KB) (s : String)
    (hac : Acyclic kb.parents) : Acyclic (processGrandfatherStatement kb s).1.parents := by
  rcases processGrandfatherStatement_cases kb s with ⟨_, heq⟩ | ⟨_, _, _, heq⟩ <;> rw [heq]
  · exact hac
  · simpa using hac

lemma processAuntStatement_acyclic (kb : KB) (s : String)
    (hac : Acyclic kb.parents) : Acyclic (processAuntStatement kb s).1.parents := by
  rcases processAuntStatement_cases kb s with ⟨_, heq⟩ | ⟨_, _, _, heq⟩ <;> rw [heq]
  · exact hac
  · simpa using hac

lemma processUncleStatement_acyclic (kb : KB) (s : String)
    (hac : Acyclic kb.parents) : Acyclic (processUncleStatement kb s).1.parents := by
  rcases processUncleStatement_cases kb s with ⟨_, heq⟩ | ⟨_, _, _, heq⟩ <;> rw [heq]
  · exact hac
  · simpa using hac

lemma processSiblingsStatement_acyclic (kb : KB) (s : String)
    (hac : Acyclic kb.parents) : Acyclic (processSiblingsStatement kb s).1.parents := by
  simp only [processSiblingsStatement]
  repeat' split
  all_goals first
    | exact hac
    | simpa using hac

lemma processParentsStatement_acyclic (kb : KB) (s : String)
    (hac : Acyclic kb.parents) : Acyclic (processParentsStatement kb s).1.parents := by
  rcases hsp : pySplit " and " (pyReplace s " are the parents of " " and ") with
    _ | ⟨x, _ | ⟨y, _ | ⟨z, _ | ⟨w, r⟩⟩⟩⟩
  · simp only [processParentsStatement, hsp]; exact hac
  · simp only [processParentsStatement, hsp]; exact hac
  · simp only [processParentsStatement, hsp]; exact hac
  case cons.cons.cons.nil =>
    rcases processParentsStatement_cases kb s x y z hsp with
      ⟨_, heq⟩ | ⟨h1, h2, h3, h4, heq⟩
    · rw [heq]; exact hac
    · rw [heq]
      simp only [assertParent_parents, List.append_assoc]
      have hcond : ∀ q ∈ [pyLower (canonName x), pyLower (canonName y)],
          q ≠ pyLower (canonName z) ∧
          ∀ l, l ≠ [] → ¬PathAlong (edgeIn kb.parents) (pyLower (canonName z)) l q := by
        intro q hq
        rcases List.mem_cons.mp hq with rfl | hq
        · refine ⟨fun he => h1 he.symm, ?_⟩
          exact noPath_of_notRelated hac (fun he => h1 he.symm)
            (by simpa [wouldCreateCircularRelationship, arePersonsRelated] using h3)
        · rw [List.mem_singleton.mp hq]
          refine ⟨fun he => h2 he.symm, ?_⟩
          exact noPath_of_notRelated hac (fun he => h2 he.symm)
            (by simpa [wouldCreateCircularRelationship, arePersonsRelated] using h4)
      have h := @acyclic_append_parents (pyLower (canonName z))
        [pyLower (canonName x), pyLower (canonName y)] kb.parents hac hcond
      simpa using h
  · simp only [processParentsStatement, hsp]; exact hac

lemma processMultipleChildrenStatement_acyclic (kb : KB) (s : String)
    (hac : Acyclic kb.parents) :
    Acyclic (processMultipleChildrenStatement kb s).1.parents := by
  rcases hsp : pySplit " and "
      (pyReplace (pyReplace s " are children of " " and ") ", " " and ") with
    _ | ⟨p1, _ | ⟨p2, rest⟩⟩
  · simp only [processMultipleChildrenStatement, hsp]; exact hac
  · simp only [processMultipleChildrenStatement, hsp]; exact hac
  · rcases processMultipleChildrenStatement_cases kb s p1 p2 rest hsp with
      ⟨_, heq⟩ | ⟨hv, heq⟩
    · rw [heq]; exact hac
    · rw [heq]
      have hf := (foldl_assertParent_fields
        (pyLower (canonName ((p1 :: p2 :: rest).getLastD "")))
        ((p1 :: p2 :: rest).dropLast.map canonName) kb).2.2.2.2.2
      simp only [hf]
      simp only [validateMultipleChildrenStatement, List.all_eq_true, Bool.and_eq_true,
        Bool.not_eq_true', decide_eq_false_iff_not] at hv
      have hcond : ∀ q ∈ ((p1 :: p2 :: rest).dropLast.map canonName).map
          (fun ch => pyLower ch),
          q ≠ pyLower (canonName ((p1 :: p2 :: rest).getLastD "")) ∧
          ∀ l, l ≠ [] →
            ¬PathAlong (edgeIn kb.parents) q l
              (pyLower (canonName ((p1 :: p2 :: rest).getLastD ""))) := by
        intro q hq
        rcases List.mem_map.mp hq with ⟨ch, hch, rfl⟩
        obtain ⟨hne, hcirc⟩ := hv ch hch
        refine ⟨hne, ?_⟩
        exact noPath_of_notRelated hac (fun he => hne he.symm)
          (by simpa [wouldCreateCircularRelationship, arePersonsRelated] using hcirc)
      have h := @acyclic_append_children
        (pyLower (canonName ((p1 :: p2 :: rest).getLastD "")))
        (((p1 :: p2 :: rest).dropLast.map canonName).map (fun ch => pyLower ch))
        kb.parents hac hcond
      simpa [List.map_map, Function.comp] using h

lemma processStatement_acyclic (kb : KB) (s : String) (hac : Acyclic kb.parents)
    (hchild : ¬mentionsChildPhrase s) : Acyclic (processStatement kb s).1.parents := by
  simp only [processStatement]
  by_cases h0 : (strIn " and " (pyStrip s) && strIn " are siblings" (pyStrip s)) = true
  · rw [if_pos h0]
    exact processSiblingsStatement_acyclic kb _ hac
  rw [if_neg h0]
  by_cases h1 : (strIn " and " (pyStrip s) && strIn " are the parents of " (pyStrip s)) = true
  · rw [if_pos h1]
    exact processParentsStatement_acyclic kb _ hac
  rw [if_neg h1]
  by_cases h2 : strIn " are children of " (pyStrip s) = true
  · rw [if_pos h2]
    exact processMultipleChildrenStatement_acyclic kb _ hac
  rw [if_neg h2]
  by_cases h3 : strIn " is the father of " (pyStrip s) = true
  · rw [if_pos h3]
    exact processFatherStatement_acyclic kb _ hac
  rw [if_neg h3]
  by_cases h4 : strIn " is the mother of " (pyStrip s) = true
  · rw [if_pos h4]
    exact processMotherStatement_acyclic kb _ hac
  rw [if_neg h4]
  by_cases h5 : strIn " is a brother of " (pyStrip s) = true
  · rw [if_pos h5]
    exact processBrotherStatement_acyclic kb _ hac
  rw [if_neg h5]
  by_cases h6 : strIn " is a sister of " (pyStrip s) = true
  · rw [if_pos h6]
    exact processSisterStatement_acyclic kb _ hac
  rw [if_neg h6]
  by_cases h7 : strIn " is a grandmother of " (pyStrip s) = true
  · rw [if_pos h7]
    exact processGrandmotherStatement_acyclic kb _ hac
  rw [if_neg h7]
  by_cases h8 : strIn " is a grandfather of " (pyStrip s) = true
  · rw [if_pos h8]
    exact processGrandfatherStatement_acyclic kb _ hac
  rw [if_neg h8]
  by_cases h9 : strIn " is a child of " (pyStrip s) = true
  · exact absurd (Or.inl h9) hchild
  rw [if_neg h9]
  by_cases h10 : strIn " is a daughter of " (pyStrip s) = true
  · exact absurd (Or.inr (Or.inl h10)) hchild
  rw [if_neg h10]
  by_cases h11 : strIn " is a son of " (pyStrip s) = true
  · exact absurd (Or.inr (Or.inr h11)) hchild
  rw [if_neg h11]
  by_cases h12 : strIn " is an aunt of " (pyStrip s) = true
  · rw [if_pos h12]
    exact processAuntStatement_acyclic kb _ hac
  rw [if_neg h12]
  by_cases h13 : strIn " is an uncle of " (pyStrip s) = true
  · rw [if_pos h13]
    exact processUncleStatement_acyclic kb _ hac
  rw [if_neg h13]
  exact hac

lemma runStatements_acyclic :
    ∀ (inputs : List String) (kb : KB), Acyclic kb.parents →
      (∀ s ∈ inputs, ¬mentionsChildPhrase s) →
      Acyclic (runStatements kb inputs).parents := by
  intro inputs
  induction inputs with
  | nil => intro kb hac _; exact hac
  | cons s t ih =>
    intro kb hac hall
    simp only [runStatements, List.foldl_cons]
    exact ih _ (processStatement_acyclic kb s hac (hall s (List.mem_cons_self s t)))
      (fun q hq => hall q (List.mem_cons_of_mem s hq))


lemma acyclic_nil : Acyclic ([] : List (String × String)) := by
  rintro ⟨x, l, hl, hp⟩
  cases l with
  | nil => exact hl rfl
  | cons v t =>
    simp only [PathAlong] at hp
    exact absurd hp.1 (List.not_mem_nil _)

/-- Claim C1, counterexample: the exact father statement accepted once is
rejected on its second submission, because after the first commit the two
people are related, so it does not print the acceptance line again. -/
theorem C1_counterexample :
    (processStatement kbE "Tom is the father of Sue.").2 = okMsg ∧
    (processStatement (processStatement kbE "Tom is the father of Sue.").1
        "Tom is the father of Sue.").2 = impossibleMsg ∧
    (processStatement (processStatement kbE "Tom is the father of Sue.").1
        "Tom is the father of Sue.").2 ≠ okMsg := by
  decide

/-- Claim C2, counterexample: for the father statement the parent fact is
already recorded and the child is no recorded ancestor of the parent, yet
re-assertion is rejected: the father handler uses the relatedness check, not
the idempotence carve-out. -/
theorem C2_counterexample :
    (processStatement kbE "Rex is the father of Ana.").2 = okMsg ∧
    provParent (processStatement kbE "Rex is the father of Ana.").1 "rex" "ana" = true ∧
    (processStatement (processStatement kbE "Rex is the father of Ana.").1
        "Rex is the father of Ana.").2 = impossibleMsg := by
  decide

/-- Claim C3, counterexample: four statements, each accepted, leave a directed
cycle ann to bob to cay to dan to ann in the stored parent facts: the child
statement checks ancestry only to grandparent depth, so closing a cycle of
length four is accepted. -/
theorem C3_counterexample :
    (processStatement kbE "Ann is the father of Bob.").2 = okMsg ∧
    (processStatement (processStatement kbE "Ann is the father of Bob.").1
        "Bob is the father of Cay.").2 = okMsg ∧
    (processStatement (processStatement (processStatement kbE "Ann is the father of Bob.").1
        "Bob is the father of Cay.").1 "Cay is the father of Dan.").2 = okMsg ∧
    (processStatement (processStatement (processStatement
        (processStatement kbE "Ann is the father of Bob.").1
        "Bob is the father of Cay.").1 "Cay is the father of Dan.").1
        "Ann is a child of Dan.").2 = okMsg ∧
    HasCycle (runStatements kbE
      ["Ann is the father of Bob.", "Bob is the father of Cay.",
       "Cay is the father of Dan.", "Ann is a child of Dan."]).parents := by
  refine ⟨by decide, by decide, by decide, by decide, ?_⟩
  exact ⟨"ann", ["bob", "cay", "dan", "ann"], by decide, by decide⟩

/-- Claim C5, counterexample: the statement naming the same person in both
parent slots is accepted (the two parent slots are never compared), and the
identical parent fact is committed twice. -/
theorem C5_counterexample :
    processStatement kbE "Alice and Alice are the parents of Bob." =
      (⟨[], [], [("alice", "bob"), ("alice", "bob")], [], [], []⟩, okMsg) := by
  decide

/-- Claim C7, counterexample: the singular who-mother question with no match
prints its own wording, not the unknown sentence claimed. -/
theorem C7_counterexample :
    processQuestion kbE "Who is the mother of Ann?" = unknownWhoMsg "mother" "Ann" ∧
    unknownWhoMsg "mother" "Ann" ≠ unknownMsg "mother" "Ann" := by
  decide

/-- Claim C3 (amended): a direct reversal, father of a father, is rejected,
and after any sequence of statements in which no statement carries the child,
daughter or son phrase, the stored parent facts are acyclic.  The original
claim fails because child, daughter and son statements check ancestry only to
grandparent depth (see the counterexample). -/
theorem C3_acyclic_amended :
    ((processStatement kbE "Alice is the father of Bob.").2 = okMsg ∧
      (processStatement (processStatement kbE "Alice is the father of Bob.").1
        "Bob is the father of Alice.").2 = impossibleMsg) ∧
    (∀ (inputs : List String), (∀ s ∈ inputs, ¬mentionsChildPhrase s) →
      Acyclic (runStatements kbE inputs).parents) := by
  constructor
  · exact ⟨by decide, by decide⟩
  · intro inputs h
    exact runStatements_acyclic inputs kbE acyclic_nil h

/-- Witness for the amended claim C3 at a concrete input list. -/
theorem C3_acyclic_amended_witness :
    (∀ s ∈ ["Tina is the mother of Uma.", "Uma and Vic are siblings."],
      ¬mentionsChildPhrase s) ∧
    Acyclic (runStatements kbE
      ["Tina is the mother of Uma.", "Uma and Vic are siblings."]).parents :=
  ⟨by decide, C3_acyclic_amended.2 _ (by decide)⟩

lemma edge_provRelated {kb : KB} {p c : String} (h : (p, c) ∈ edgesOf kb)
    (hne : ¬(p = c)) : provRelated kb p c = true := by
  have h1 : reachB (edgesOf kb) (2 * (edgesOf kb).length + 1) p c = true :=
    reach_succ_of c (mem_neighborsOf h).1 (reach_refl _ _ _)
  simp [provRelated, hne, h1]

lemma provRelated_congr {kb kb' : KB} (he : edgesOf kb' = edgesOf kb) (x y : String) :
    provRelated kb' x y = provRelated kb x y := by
  simp [provRelated, he]

lemma wouldCircular_congr {kb kb' : KB} (he : edgesOf kb' = edgesOf kb)
    (c p : String) :
    wouldCreateCircularRelationship kb' c p = wouldCreateCircularRelationship kb c p := by
  simp only [wouldCreateCircularRelationship, arePersonsRelated]
  exact provRelated_congr he _ _

lemma wouldInvalidSibling_congr {kb kb' : KB} (hp : kb'.parents = kb.parents)
    (hg : kb'.grandparents = kb.grandparents) (p q : String) :
    wouldCreateInvalidSiblingRelationship kb' p q =
      wouldCreateInvalidSiblingRelationship kb p q := by
  simp [wouldCreateInvalidSiblingRelationship, provParent, provGrandparent, hp, hg]

lemma sameFacts_trans {kb1 kb2 kb3 : KB} (h1 : SameFacts kb1 kb2)
    (h2 : SameFacts kb2 kb3) : SameFacts kb1 kb3 := by
  obtain ⟨a1, b1, c1, d1, e1, f1⟩ := h1
  obtain ⟨a2, b2, c2, d2, e2, f2⟩ := h2
  exact ⟨fun x => (a1 x).trans (a2 x), fun x => (b1 x).trans (b2 x),
    fun e => (c1 e).trans (c2 e), fun e => (d1 e).trans (d2 e),
    fun e => (e1 e).trans (e2 e), fun e => (f1 e).trans (f2 e)⟩

lemma sameFacts_assertMale_mem {kb : KB} {x : String} (h : x ∈ kb.males) :
    SameFacts (assertMale kb x) kb :=
  ⟨mem_append_singleton_self kb.males x h, fun _ => Iff.rfl, fun _ => Iff.rfl,
    fun _ => Iff.rfl, fun _ => Iff.rfl, fun _ => Iff.rfl⟩

lemma sameFacts_assertFemale_mem {kb : KB} {x : String} (h : x ∈ kb.females) :
    SameFacts (assertFemale kb x) kb :=
  ⟨fun _ => Iff.rfl, mem_append_singleton_self kb.females x h, fun _ => Iff.rfl,
    fun _ => Iff.rfl, fun _ => Iff.rfl, fun _ => Iff.rfl⟩

lemma sameFacts_assertParent_mem {kb : KB} {p c : String} (h : (p, c) ∈ kb.parents) :
    SameFacts (assertParent kb p c) kb :=
  ⟨fun _ => Iff.rfl, fun _ => Iff.rfl, mem_append_singleton_self kb.parents (p, c) h,
    fun _ => Iff.rfl, fun _ => Iff.rfl, fun _ => Iff.rfl⟩

lemma sameFacts_assertSibling_mem {kb : KB} {a b : String} (h : (a, b) ∈ kb.siblings) :
    SameFacts (assertSibling kb a b) kb :=
  ⟨fun _ => Iff.rfl, fun _ => Iff.rfl, fun _ => Iff.rfl,
    mem_append_singleton_self kb.siblings (a, b) h, fun _ => Iff.rfl, fun _ => Iff.rfl⟩

lemma sameFacts_assertGrandparent_mem {kb : KB} {g c : String}
    (h : (g, c) ∈ kb.grandparents) : SameFacts (assertGrandparent kb g c) kb :=
  ⟨fun _ => Iff.rfl, fun _ => Iff.rfl, fun _ => Iff.rfl, fun _ => Iff.rfl,
    mem_append_singleton_self kb.grandparents (g, c) h, fun _ => Iff.rfl⟩

lemma sameFacts_assertPibling_mem {kb : KB} {p n : String} (h : (p, n) ∈ kb.piblings) :
    SameFacts (assertPibling kb p n) kb :=
  ⟨fun _ => Iff.rfl, fun _ => Iff.rfl, fun _ => Iff.rfl, fun _ => Iff.rfl,
    fun _ => Iff.rfl, mem_append_singleton_self kb.piblings (p, n) h⟩

lemma processFatherStatement_reassert (kb : KB) (s : String)
    (h : (processFatherStatement kb s).2 = okMsg) :
    processFatherStatement (processFatherStatement kb s).1 s =
      ((processFatherStatement kb s).1, impossibleMsg) := by
  rcases processFatherStatement_cases kb s with ⟨_, heq⟩ | ⟨hne, _, _, heq⟩
  · rw [heq] at h
    dsimp only at h
    exact absurd h (by decide)
  · rw [heq]
    dsimp only
    rcases processFatherStatement_cases
        (assertParent (assertMale kb (pyLower (extractNamesFromStatement s " is the father of ").1)) (pyLower (extractNamesFromStatement s " is the father of ").1) (pyLower (extractNamesFromStatement s " is the father of ").2)) s with
      ⟨_, heq2⟩ | ⟨_, _, hcirc2, heq2⟩
    · rw [heq2]
    · exfalso
      have hmem : ((pyLower (extractNamesFromStatement s " is the father of ").1), (pyLower (extractNamesFromStatement s " is the father of ").2)) ∈
          edgesOf (assertParent (assertMale kb (pyLower (extractNamesFromStatement s " is the father of ").1)) (pyLower (extractNamesFromStatement s " is the father of ").1) (pyLower (extractNamesFromStatement s " is the father of ").2)) := by
        simp [edgesOf]
      have hrel := edge_provRelated hmem hne
      simp only [wouldCreateCircularRelationship, arePersonsRelated] at hcirc2
      rw [hrel] at hcirc2
      exact Bool.false_ne_true hcirc2.symm

lemma processMotherStatement_reassert (kb : KB) (s : String)
    (h : (processMotherStatement kb s).2 = okMsg) :
    processMotherStatement (processMotherStatement kb s).1 s =
      ((processMotherStatement kb s).1, impossibleMsg) := by
  rcases processMotherStatement_cases kb s with ⟨_, heq⟩ | ⟨hne, _, _, heq⟩
  · rw [heq] at h
    dsimp only at h
    exact absurd h (by decide)
  · rw [heq]
    dsimp only
    rcases processMotherStatement_cases
        (assertParent (assertFemale kb (pyLower (extractNamesFromStatement s " is the mother of ").1)) (pyLower (extractNamesFromStatement s " is the mother of ").1) (pyLower (extractNamesFromStatement s " is the mother of ").2)) s with
      ⟨_, heq2⟩ | ⟨_, _, hcirc2, heq2⟩
    · rw [heq2]
    · exfalso
      have hmem : ((pyLower (extractNamesFromStatement s " is the mother of ").1), (pyLower (extractNamesFromStatement s " is the mother of ").2)) ∈
          edgesOf (assertParent (assertFemale kb (pyLower (extractNamesFromStatement s " is the mother of ").1)) (pyLower (extractNamesFromStatement s " is the mother of ").1) (pyLower (extractNamesFromStatement s " is the mother of ").2)) := by
        simp [edgesOf]
      have hrel := edge_provRelated hmem hne
      simp only [wouldCreateCircularRelationship, arePersonsRelated] at hcirc2
      rw [hrel] at hcirc2
      exact Bool.false_ne_true hcirc2.symm

lemma processAuntStatement_reassert (kb : KB) (s : String)
    (h : (processAuntStatement kb s).2 = okMsg) :
    processAuntStatement (processAuntStatement kb s).1 s =
      ((processAuntStatement kb s).1, impossibleMsg) := by
  rcases processAuntStatement_cases kb s with ⟨_, heq⟩ | ⟨hne, _, _, heq⟩
  · rw [heq] at h
    dsimp only at h
    exact absurd h (by decide)
  · rw [heq]
    dsimp only
    rcases processAuntStatement_cases
        (assertPibling (assertFemale kb (pyLower (extractNamesFromStatement s " is an aunt of ").1)) (pyLower (extractNamesFromStatement s " is an aunt of ").1) (pyLower (extractNamesFromStatement s " is an aunt of ").2)) s with
      ⟨_, heq2⟩ | ⟨_, _, hcirc2, heq2⟩
    · rw [heq2]
    · exfalso
      have hmem : ((pyLower (extractNamesFromStatement s " is an aunt of ").1), (pyLower (extractNamesFromStatement s " is an aunt of ").2)) ∈
          edgesOf (assertPibling (assertFemale kb (pyLower (extractNamesFromStatement s " is an aunt of ").1)) (pyLower (extractNamesFromStatement s " is an aunt of ").1) (pyLower (extractNamesFromStatement s " is an aunt of ").2)) := by
        simp [edgesOf]
      have hrel := edge_provRelated hmem hne
      simp only [wouldCreateCircularRelationship, arePersonsRelated] at hcirc2
      rw [hrel] at hcirc2
      exact Bool.false_ne_true hcirc2.symm

lemma processUncleStatement_reassert (kb : KB) (s : String)
    (h : (processUncleStatement kb s).2 = okMsg) :
    processUncleStatement (processUncleStatement kb s).1 s =
      ((processUncleStatement kb s).1, impossibleMsg) := by
  rcases processUncleStatement_cases kb s with ⟨_, heq⟩ | ⟨hne, _, _, heq⟩
  · rw [heq] at h
    dsimp only at h
    exact absurd h (by decide)
  · rw [heq]
    dsimp only
    rcases processUncleStatement_cases
        (assertPibling (assertMale kb (pyLower (extractNamesFromStatement s " is an uncle of ").1)) (pyLower (extractNamesFromStatement s " is an uncle of ").1) (pyLower (extractNamesFromStatement s " is an uncle of ").2)) s with
      ⟨_, heq2⟩ | ⟨_, _, hcirc2, heq2⟩
    · rw [heq2]
    · exfalso
      have hmem : ((pyLower (extractNamesFromStatement s " is an uncle of ").1), (pyLower (extractNamesFromStatement s " is an uncle of ").2)) ∈
          edgesOf (assertPibling (assertMale kb (pyLower (extractNamesFromStatement s " is an uncle of ").1)) (pyLower (extractNamesFromStatement s " is an uncle of ").1) (pyLower (extractNamesFromStatement s " is an uncle of ").2)) := by
        simp [edgesOf]
      have hrel := edge_provRelated hmem hne
      simp only [wouldCreateCircularRelationship, arePersonsRelated] at hcirc2
      rw [hrel] at hcirc2
      exact Bool.false_ne_true hcirc2.symm

lemma processParentsStatement_reassert (kb : KB) (s : String)
    (h : (processParentsStatement kb s).2 = okMsg) :
    processParentsStatement (processParentsStatement kb s).1 s =
      ((processParentsStatement kb s).1, impossibleMsg) := by
  rcases hsp : pySplit " and " (pyReplace s " are the parents of " " and ") with
    _ | ⟨x, _ | ⟨y, _ | ⟨z, _ | ⟨w, r⟩⟩⟩⟩
  · simp only [processParentsStatement, hsp] at h
    exact absurd h (by decide)
  · simp only [processParentsStatement, hsp] at h
    exact absurd h (by decide)
  · simp only [processParentsStatement, hsp] at h
    exact absurd h (by decide)
  · rcases processParentsStatement_cases kb s x y z hsp with
      ⟨_, heq⟩ | ⟨h1, h2, h3, h4, heq⟩
    · rw [heq] at h
      dsimp only at h
      exact absurd h (by decide)
    · rw [heq]
      dsimp only
      rcases processParentsStatement_cases
          (assertParent (assertParent kb (pyLower (canonName x)) (pyLower (canonName z)))
            (pyLower (canonName y)) (pyLower (canonName z))) s x y z hsp with
        ⟨_, heq2⟩ | ⟨_, _, hc3, _, heq2⟩
      · rw [heq2]
      · exfalso
        have hmem : (pyLower (canonName x), pyLower (canonName z)) ∈
            edgesOf (assertParent (assertParent kb (pyLower (canonName x))
              (pyLower (canonName z))) (pyLower (canonName y)) (pyLower (canonName z))) := by
          simp [edgesOf]
        have hrel := edge_provRelated hmem (fun he => h1 he.symm)
        simp only [wouldCreateCircularRelationship, arePersonsRelated] at hc3
        rw [hrel] at hc3
        exact Bool.false_ne_true hc3.symm
  · simp only [processParentsStatement, hsp] at h
    exact absurd h (by decide)

lemma processMultipleChildrenStatement_reassert (kb : KB) (s : String)
    (h : (processMultipleChildrenStatement kb s).2 = okMsg) :
    processMultipleChildrenStatement (processMultipleChildrenStatement kb s).1 s =
      ((processMultipleChildrenStatement kb s).1, impossibleMsg) := by
  rcases hsp : pySplit " and "
      (pyReplace (pyReplace s " are children of " " and ") ", " " and ") with
    _ | ⟨p1, _ | ⟨p2, rest⟩⟩
  · simp only [processMultipleChildrenStatement, hsp] at h
    exact absurd h (by decide)
  · simp only [processMultipleChildrenStatement, hsp] at h
    exact absurd h (by decide)
  · rcases processMultipleChildrenStatement_cases kb s p1 p2 rest hsp with
      ⟨_, heq⟩ | ⟨hv, heq⟩
    · rw [heq] at h
      dsimp only at h
      exact absurd h (by decide)
    · rw [heq]
      dsimp only
      rcases processMultipleChildrenStatement_cases
          (((p1 :: p2 :: rest).dropLast.map canonName).foldl
            (fun k child =>
              assertParent k (pyLower (canonName ((p1 :: p2 :: rest).getLastD "")))
                (pyLower child)) kb) s p1 p2 rest hsp with
        ⟨_, heq2⟩ | ⟨hv2, heq2⟩
      · rw [heq2]
      · exfalso
        simp only [validateMultipleChildrenStatement, List.all_eq_true, Bool.and_eq_true,
          Bool.not_eq_true', decide_eq_false_iff_not] at hv2
        obtain ⟨hne1, hcirc1⟩ := hv2 (canonName p1) (by simp)
        have hf := (foldl_assertParent_fields
          (pyLower (canonName ((p1 :: p2 :: rest).getLastD "")))
          ((p1 :: p2 :: rest).dropLast.map canonName) kb).2.2.2.2.2
        have hmem : (pyLower (canonName ((p1 :: p2 :: rest).getLastD "")),
            pyLower (canonName p1)) ∈
            edgesOf (((p1 :: p2 :: rest).dropLast.map canonName).foldl
              (fun k child =>
                assertParent k (pyLower (canonName ((p1 :: p2 :: rest).getLastD "")))
                  (pyLower child)) kb) := by
          have hmem2 : (pyLower (canonName ((p1 :: p2 :: rest).getLastD "")),
              pyLower (canonName p1)) ∈
              (((p1 :: p2 :: rest).dropLast.map canonName).foldl
                (fun k child =>
                  assertParent k (pyLower (canonName ((p1 :: p2 :: rest).getLastD "")))
                    (pyLower child)) kb).parents := by
            rw [hf]
            refine List.mem_append.mpr (Or.inr ?_)
            exact List.mem_map.mpr ⟨canonName p1, List.mem_map.mpr ⟨p1, by simp, rfl⟩, rfl⟩
          simp only [edgesOf]
          exact List.mem_append_left _ (List.mem_append_left _ hmem2)
        have hrel := edge_provRelated hmem (fun he => hne1 he.symm)
        simp only [wouldCreateCircularRelationship, arePersonsRelated] at hcirc1
        rw [hrel] at hcirc1
        exact Bool.false_ne_true hcirc1.symm

lemma processChildStatement_idem (kb : KB) (s : String)
    (h : (processChildStatement kb s).2 = okMsg) :
    (processChildStatement (processChildStatement kb s).1 s).2 = okMsg ∧
    SameFacts (processChildStatement (processChildStatement kb s).1 s).1
      (processChildStatement kb s).1 := by
  rcases processChildStatement_cases kb s with ⟨_, heq⟩ | ⟨hne, _, heq⟩
  · rw [heq] at h
    dsimp only at h
    exact absurd h (by decide)
  · rw [heq]
    dsimp only
    rcases processChildStatement_cases
        (assertParent kb (pyLower (extractNamesFromStatement s " is a child of ").2)
          (pyLower (extractNamesFromStatement s " is a child of ").1)) s with
      ⟨hg, heq2⟩ | ⟨_, _, heq2⟩
    · exfalso
      rcases hg with hg | hg
      · exact hne hg
      · have hmem : ((pyLower (extractNamesFromStatement s " is a child of ").2),
            (pyLower (extractNamesFromStatement s " is a child of ").1)) ∈
            (assertParent kb (pyLower (extractNamesFromStatement s " is a child of ").2)
              (pyLower (extractNamesFromStatement s " is a child of ").1)).parents := by
          simp
        simp only [wouldCreateInvalidParentChildRelationship, provParent] at hg
        simp [hmem] at hg
    · rw [heq2]
      dsimp only
      exact ⟨rfl, sameFacts_assertParent_mem (by simp)⟩

lemma processDaughterStatement_idem (kb : KB) (s : String)
    (h : (processDaughterStatement kb s).2 = okMsg) :
    (processDaughterStatement (processDaughterStatement kb s).1 s).2 = okMsg ∧
    SameFacts (processDaughterStatement (processDaughterStatement kb s).1 s).1
      (processDaughterStatement kb s).1 := by
  rcases processDaughterStatement_cases kb s with ⟨_, heq⟩ | ⟨hne, hgc, _, heq⟩
  · rw [heq] at h
    dsimp only at h
    exact absurd h (by decide)
  · rw [heq]
    dsimp only
    rcases processDaughterStatement_cases
        (assertParent (assertFemale kb (pyLower (extractNamesFromStatement s " is a daughter of ").1))
          (pyLower (extractNamesFromStatement s " is a daughter of ").2) (pyLower (extractNamesFromStatement s " is a daughter of ").1)) s with
      ⟨hg, heq2⟩ | ⟨_, _, _, heq2⟩
    · exfalso
      rcases hg with hg | hg | hg
      · exact hne hg
      · simp only [hasGenderConflict, provMale, assertParent_males,
          assertFemale_males] at hg
        simp only [hasGenderConflict, provMale] at hgc
        rw [hgc] at hg
        exact Bool.false_ne_true hg
      · have hmem : ((pyLower (extractNamesFromStatement s " is a daughter of ").2), (pyLower (extractNamesFromStatement s " is a daughter of ").1)) ∈
            (assertParent (assertFemale kb (pyLower (extractNamesFromStatement s " is a daughter of ").1))
              (pyLower (extractNamesFromStatement s " is a daughter of ").2) (pyLower (extractNamesFromStatement s " is a daughter of ").1)).parents := by
          simp
        simp only [wouldCreateInvalidParentChildRelationship, provParent] at hg
        simp [hmem] at hg
    · rw [heq2]
      dsimp only
      exact ⟨rfl, sameFacts_trans (sameFacts_assertParent_mem (by simp))
        (sameFacts_assertFemale_mem (by simp))⟩

lemma processSonStatement_idem (kb : KB) (s : String)
    (h : (processSonStatement kb s).2 = okMsg) :
    (processSonStatement (processSonStatement kb s).1 s).2 = okMsg ∧
    SameFacts (processSonStatement (processSonStatement kb s).1 s).1
      (processSonStatement kb s).1 := by
  rcases processSonStatement_cases kb s with ⟨_, heq⟩ | ⟨hne, hgc, _, heq⟩
  · rw [heq] at h
    dsimp only at h
    exact absurd h (by decide)
  · rw [heq]
    dsimp only
    rcases processSonStatement_cases
        (assertParent (assertMale kb (pyLower (extractNamesFromStatement s " is a son of ").1))
          (pyLower (extractNamesFromStatement s " is a son of ").2) (pyLower (extractNamesFromStatement s " is a son of ").1)) s with
      ⟨hg, heq2⟩ | ⟨_, _, _, heq2⟩
    · exfalso
      rcases hg with hg | hg | hg
      · exact hne hg
      · simp only [hasGenderConflict, provFemale, assertParent_females,
          assertMale_females] at hg
        simp only [hasGenderConflict, provFemale] at hgc
        rw [hgc] at hg
        exact Bool.false_ne_true hg
      · have hmem : ((pyLower (extractNamesFromStatement s " is a son of ").2), (pyLower (extractNamesFromStatement s " is a son of ").1)) ∈
            (assertParent (assertMale kb (pyLower (extractNamesFromStatement s " is a son of ").1))
              (pyLower (extractNamesFromStatement s " is a son of ").2) (pyLower (extractNamesFromStatement s " is a son of ").1)).parents := by
          simp
        simp only [wouldCreateInvalidParentChildRelationship, provParent] at hg
        simp [hmem] at hg
    · rw [heq2]
      dsimp only
      exact ⟨rfl, sameFacts_trans (sameFacts_assertParent_mem (by simp))
        (sameFacts_assertMale_mem (by simp))⟩

lemma processGrandmotherStatement_idem (kb : KB) (s : String)
    (h : (processGrandmotherStatement kb s).2 = okMsg) :
    (processGrandmotherStatement (processGrandmotherStatement kb s).1 s).2 = okMsg ∧
    SameFacts (processGrandmotherStatement (processGrandmotherStatement kb s).1 s).1
      (processGrandmotherStatement kb s).1 := by
  rcases processGrandmotherStatement_cases kb s with ⟨_, heq⟩ | ⟨hne, hgc, hcirc, heq⟩
  · rw [heq] at h
    dsimp only at h
    exact absurd h (by decide)
  · rw [heq]
    dsimp only
    rcases processGrandmotherStatement_cases
        (assertGrandparent (assertFemale kb (pyLower (extractNamesFromStatement s " is a grandmother of ").1))
          (pyLower (extractNamesFromStatement s " is a grandmother of ").1) (pyLower (extractNamesFromStatement s " is a grandmother of ").2)) s with
      ⟨hg, heq2⟩ | ⟨_, _, _, heq2⟩
    · exfalso
      rcases hg with hg | hg | hg
      · exact hne hg
      · simp only [hasGenderConflict, provMale, assertGrandparent_males,
          assertFemale_males] at hg
        simp only [hasGenderConflict, provMale] at hgc
        rw [hgc] at hg
        exact Bool.false_ne_true hg
      · have hcong : edgesOf (assertGrandparent (assertFemale kb (pyLower (extractNamesFromStatement s " is a grandmother of ").1))
            (pyLower (extractNamesFromStatement s " is a grandmother of ").1) (pyLower (extractNamesFromStatement s " is a grandmother of ").2)) = edgesOf kb := by
          simp [edgesOf]
        rw [wouldCircular_congr hcong _ _] at hg
        rw [hg] at hcirc
        exact Bool.false_ne_true hcirc.symm
    · rw [heq2]
      dsimp only
      exact ⟨rfl, sameFacts_trans (sameFacts_assertGrandparent_mem (by simp))
        (sameFacts_assertFemale_mem (by simp))⟩

lemma processGrandfatherStatement_idem (kb : KB) (s : String)
    (h : (processGrandfatherStatement kb s).2 = okMsg) :
    (processGrandfatherStatement (processGrandfatherStatement kb s).1 s).2 = okMsg ∧
    SameFacts (processGrandfatherStatement (processGrandfatherStatement kb s).1 s).1
      (processGrandfatherStatement kb s).1 := by
  rcases processGrandfatherStatement_cases kb s with ⟨_, heq⟩ | ⟨hne, hgc, hcirc, heq⟩
  · rw [heq] at h
    dsimp only at h
    exact absurd h (by decide)
  · rw [heq]
    dsimp only
    rcases processGrandfatherStatement_cases
        (assertGrandparent (assertMale kb (pyLower (extractNamesFromStatement s " is a grandfather of ").1))
          (pyLower (extractNamesFromStatement s " is a grandfather of ").1) (pyLower (extractNamesFromStatement s " is a grandfather of ").2)) s with
      ⟨hg, heq2⟩ | ⟨_, _, _, heq2⟩
    · exfalso
      rcases hg with hg | hg | hg
      · exact hne hg
      · simp only [hasGenderConflict, provFemale, assertGrandparent_females,
          assertMale_females] at hg
        simp only [hasGenderConflict, provFemale] at hgc
        rw [hgc] at hg
        exact Bool.false_ne_true hg
      · have hcong : edgesOf (assertGrandparent (assertMale kb (pyLower (extractNamesFromStatement s " is a grandfather of ").1))
            (pyLower (extractNamesFromStatement s " is a grandfather of ").1) (pyLower (extractNamesFromStatement s " is a grandfather of ").2)) = edgesOf kb := by
          simp [edgesOf]
        rw [wouldCircular_congr hcong _ _] at hg
        rw [hg] at hcirc
        exact Bool.false_ne_true hcirc.symm
    · rw [heq2]
      dsimp only
      exact ⟨rfl, sameFacts_trans (sameFacts_assertGrandparent_mem (by simp))
        (sameFacts_assertMale_mem (by simp))⟩

lemma processBrotherStatement_idem (kb : KB) (s : String)
    (h : (processBrotherStatement kb s).2 = okMsg) :
    (processBrotherStatement (processBrotherStatement kb s).1 s).2 = okMsg ∧
    SameFacts (processBrotherStatement (processBrotherStatement kb s).1 s).1
      (processBrotherStatement kb s).1 := by
  rcases processBrotherStatement_cases kb s with ⟨_, heq⟩ | ⟨hne, hgc, hsib, heq⟩
  · rw [heq] at h
    dsimp only at h
    exact absurd h (by decide)
  · rw [heq]
    dsimp only
    rcases processBrotherStatement_cases
        (assertSibling (assertSibling (assertMale kb (pyLower (extractNamesFromStatement s " is a brother of ").1))
          (pyLower (extractNamesFromStatement s " is a brother of ").1) (pyLower (extractNamesFromStatement s " is a brother of ").2)) (pyLower (extractNamesFromStatement s " is a brother of ").2) (pyLower (extractNamesFromStatement s " is a brother of ").1)) s with
      ⟨hg, heq2⟩ | ⟨_, _, _, heq2⟩
    · exfalso
      rcases hg with hg | hg | hg
      · exact hne hg
      · simp only [hasGenderConflict, provFemale, assertSibling_females,
          assertMale_females] at hg
        simp only [hasGenderConflict, provFemale] at hgc
        rw [hgc] at hg
        exact Bool.false_ne_true hg
      · have hcp : (KB.parents (assertSibling (assertSibling (assertMale kb (pyLower (extractNamesFromStatement s " is a brother of ").1))
            (pyLower (extractNamesFromStatement s " is a brother of ").1) (pyLower (extractNamesFromStatement s " is a brother of ").2)) (pyLower (extractNamesFromStatement s " is a brother of ").2) (pyLower (extractNamesFromStatement s " is a brother of ").1))) = kb.parents := by simp
        have hcg : (KB.grandparents (assertSibling (assertSibling (assertMale kb (pyLower (extractNamesFromStatement s " is a brother of ").1))
            (pyLower (extractNamesFromStatement s " is a brother of ").1) (pyLower (extractNamesFromStatement s " is a brother of ").2)) (pyLower (extractNamesFromStatement s " is a brother of ").2) (pyLower (extractNamesFromStatement s " is a brother of ").1))) = kb.grandparents := by simp
        rw [wouldInvalidSibling_congr hcp hcg _ _] at hg
        rw [hg] at hsib
        exact Bool.false_ne_true hsib.symm
    · rw [heq2]
      dsimp only
      exact ⟨rfl, sameFacts_trans (sameFacts_assertSibling_mem (by simp))
        (sameFacts_trans (sameFacts_assertSibling_mem (by simp))
          (sameFacts_assertMale_mem (by simp)))⟩

lemma processSisterStatement_idem (kb : KB) (s : String)
    (h : (processSisterStatement kb s).2 = okMsg) :
    (processSisterStatement (processSisterStatement kb s).1 s).2 = okMsg ∧
    SameFacts (processSisterStatement (processSisterStatement kb s).1 s).1
      (processSisterStatement kb s).1 := by
  rcases processSisterStatement_cases kb s with ⟨_, heq⟩ | ⟨hne, hgc, hsib, heq⟩
  · rw [heq] at h
    dsimp only at h
    exact absurd h (by decide)
  · rw [heq]
    dsimp only
    rcases processSisterStatement_cases
        (assertSibling (assertSibling (assertFemale kb (pyLower (extractNamesFromStatement s " is a sister of ").1))
          (pyLower (extractNamesFromStatement s " is a sister of ").1) (pyLower (extractNamesFromStatement s " is a sister of ").2)) (pyLower (extractNamesFromStatement s " is a sister of ").2) (pyLower (extractNamesFromStatement s " is a sister of ").1)) s with
      ⟨hg, heq2⟩ | ⟨_, _, _, heq2⟩
    · exfalso
      rcases hg with hg | hg | hg
      · exact hne hg
      · simp only [hasGenderConflict, provMale, assertSibling_males,
          assertFemale_males] at hg
        simp only [hasGenderConflict, provMale] at hgc
        rw [hgc] at hg
        exact Bool.false_ne_true hg
      · have hcp : (KB.parents (assertSibling (assertSibling (assertFemale kb (pyLower (extractNamesFromStatement s " is a sister of ").1))
            (pyLower (extractNamesFromStatement s " is a sister of ").1) (pyLower (extractNamesFromStatement s " is a sister of ").2)) (pyLower (extractNamesFromStatement s " is a sister of ").2) (pyLower (extractNamesFromStatement s " is a sister of ").1))) = kb.parents := by simp
        have hcg : (KB.grandparents (assertSibling (assertSibling (assertFemale kb (pyLower (extractNamesFromStatement s " is a sister of ").1))
            (pyLower (extractNamesFromStatement s " is a sister of ").1) (pyLower (extractNamesFromStatement s " is a sister of ").2)) (pyLower (extractNamesFromStatement s " is a sister of ").2) (pyLower (extractNamesFromStatement s " is a sister of ").1))) = kb.grandparents := by simp
        rw [wouldInvalidSibling_congr hcp hcg _ _] at hg
        rw [hg] at hsib
        exact Bool.false_ne_true hsib.symm
    · rw [heq2]
      dsimp only
      exact ⟨rfl, sameFacts_trans (sameFacts_assertSibling_mem (by simp))
        (sameFacts_trans (sameFacts_assertSibling_mem (by simp))
          (sameFacts_assertFemale_mem (by simp)))⟩

lemma processSiblingsStatement_idem (kb : KB) (s : String)
    (h : (processSiblingsStatement kb s).2 = okMsg) :
    (processSiblingsStatement (processSiblingsStatement kb s).1 s).2 = okMsg ∧
    SameFacts (processSiblingsStatement (processSiblingsStatement kb s).1 s).1
      (processSiblingsStatement kb s).1 := by
  rcases hsp : pySplit " and " (pyReplace s " are siblings" "") with
    _ | ⟨a, _ | ⟨b, t⟩⟩
  · simp only [processSiblingsStatement, hsp] at h
    exact absurd h (by decide)
  · simp only [processSiblingsStatement, hsp] at h
    exact absurd h (by decide)
  · cases t with
    | cons c r =>
      simp only [processSiblingsStatement, hsp] at h
      exact absurd h (by decide)
    | nil =>
      rcases processSiblingsStatement_cases kb s a b hsp with
        ⟨_, heq⟩ | ⟨hne, hsib, heq⟩
      · rw [heq] at h
        dsimp only at h
        exact absurd h (by decide)
      · rw [heq]
        dsimp only
        rcases processSiblingsStatement_cases
            (assertSibling (assertSibling kb (pyLower (canonName a)) (pyLower (canonName b)))
              (pyLower (canonName b)) (pyLower (canonName a))) s a b hsp with
          ⟨hg, heq2⟩ | ⟨_, _, heq2⟩
        · exfalso
          rcases hg with hg | hg
          · exact hne hg
          · have hcp : (KB.parents (assertSibling (assertSibling kb (pyLower (canonName a)) (pyLower (canonName b)))
              (pyLower (canonName b)) (pyLower (canonName a)))) = kb.parents := by simp
            have hcg : (KB.grandparents (assertSibling (assertSibling kb (pyLower (canonName a)) (pyLower (canonName b)))
              (pyLower (canonName b)) (pyLower (canonName a)))) = kb.grandparents := by simp
            rw [wouldInvalidSibling_congr hcp hcg _ _] at hg
            rw [hg] at hsib
            exact Bool.false_ne_true hsib.symm
        · rw [heq2]
          dsimp only
          exact ⟨rfl, sameFacts_trans (sameFacts_assertSibling_mem (by simp))
            (sameFacts_assertSibling_mem (by simp))⟩

/-- Claim C1 (amended): re-submitting a previously accepted statement is
accepted again with the stored fact set unchanged for the siblings, brother,
sister, grandmother, grandfather, child, daughter and son statement kinds; for
the father, mother, parents, children, aunt and uncle kinds the second
submission is rejected with the impossibility line and the store unchanged,
because the committed facts make the named people related and those handlers
use the relatedness check.  The original claim fails on the father kind (see
the counterexample). -/
theorem C1_idempotence_amended :
    (∀ kb s, (processSiblingsStatement kb s).2 = okMsg →
      (processSiblingsStatement (processSiblingsStatement kb s).1 s).2 = okMsg ∧
      SameFacts (processSiblingsStatement (processSiblingsStatement kb s).1 s).1
        (processSiblingsStatement kb s).1) ∧
    (∀ kb s, (processBrotherStatement kb s).2 = okMsg →
      (processBrotherStatement (processBrotherStatement kb s).1 s).2 = okMsg ∧
      SameFacts (processBrotherStatement (processBrotherStatement kb s).1 s).1
        (processBrotherStatement kb s).1) ∧
    (∀ kb s, (processSisterStatement kb s).2 = okMsg →
      (processSisterStatement (processSisterStatement kb s).1 s).2 = okMsg ∧
      SameFacts (processSisterStatement (processSisterStatement kb s).1 s).1
        (processSisterStatement kb s).1) ∧
    (∀ kb s, (processGrandmotherStatement kb s).2 = okMsg →
      (processGrandmotherStatement (processGrandmotherStatement kb s).1 s).2 = okMsg ∧
      SameFacts (processGrandmotherStatement (processGrandmotherStatement kb s).1 s).1
        (processGrandmotherStatement kb s).1) ∧
    (∀ kb s, (processGrandfatherStatement kb s).2 = okMsg →
      (processGrandfatherStatement (processGrandfatherStatement kb s).1 s).2 = okMsg ∧
      SameFacts (processGrandfatherStatement (processGrandfatherStatement kb s).1 s).1
        (processGrandfatherStatement kb s).1) ∧
    (∀ kb s, (processChildStatement kb s).2 = okMsg →
      (processChildStatement (processChildStatement kb s).1 s).2 = okMsg ∧
      SameFacts (processChildStatement (processChildStatement kb s).1 s).1
        (processChildStatement kb s).1) ∧
    (∀ kb s, (processDaughterStatement kb s).2 = okMsg →
      (processDaughterStatement (processDaughterStatement kb s).1 s).2 = okMsg ∧
      SameFacts (processDaughterStatement (processDaughterStatement kb s).1 s).1
        (processDaughterStatement kb s).1) ∧
    (∀ kb s, (processSonStatement kb s).2 = okMsg →
      (processSonStatement (processSonStatement kb s).1 s).2 = okMsg ∧
      SameFacts (processSonStatement (processSonStatement kb s).1 s).1
        (processSonStatement kb s).1) ∧
    (∀ kb s, (processFatherStatement kb s).2 = okMsg →
      processFatherStatement (processFatherStatement kb s).1 s =
        ((processFatherStatement kb s).1, impossibleMsg)) ∧
    (∀ kb s, (processMotherStatement kb s).2 = okMsg →
      processMotherStatement (processMotherStatement kb s).1 s =
        ((processMotherStatement kb s).1, impossibleMsg)) ∧
    (∀ kb s, (processParentsStatement kb s).2 = okMsg →
      processParentsStatement (processParentsStatement kb s).1 s =
        ((processParentsStatement kb s).1, impossibleMsg)) ∧
    (∀ kb s, (processMultipleChildrenStatement kb s).2 = okMsg →
      processMultipleChildrenStatement (processMultipleChildrenStatement kb s).1 s =
        ((processMultipleChildrenStatement kb s).1, impossibleMsg)) ∧
    (∀ kb s, (processAuntStatement kb s).2 = okMsg →
      processAuntStatement (processAuntStatement kb s).1 s =
        ((processAuntStatement kb s).1, impossibleMsg)) ∧
    (∀ kb s, (processUncleStatement kb s).2 = okMsg →
      processUncleStatement (processUncleStatement kb s).1 s =
        ((processUncleStatement kb s).1, impossibleMsg)) :=
  ⟨processSiblingsStatement_idem, processBrotherStatement_idem,
    processSisterStatement_idem, processGrandmotherStatement_idem,
    processGrandfatherStatement_idem, processChildStatement_idem,
    processDaughterStatement_idem, processSonStatement_idem,
    processFatherStatement_reassert, processMotherStatement_reassert,
    processParentsStatement_reassert, processMultipleChildrenStatement_reassert,
    processAuntStatement_reassert, processUncleStatement_reassert⟩

/-- Witness for the amended claim C1 at concrete inputs: the siblings
statement is idempotent, the father statement is rejected on re-submission. -/
theorem C1_idempotence_amended_witness :
    ((processSiblingsStatement kbE "Ann and Bea are siblings.").2 = okMsg ∧
      (processSiblingsStatement
        (processSiblingsStatement kbE "Ann and Bea are siblings.").1
        "Ann and Bea are siblings.").2 = okMsg) ∧
    ((processFatherStatement kbE "Tom is the father of Sue.").2 = okMsg ∧
      processFatherStatement (processFatherStatement kbE "Tom is the father of Sue.").1
        "Tom is the father of Sue." =
        ((processFatherStatement kbE "Tom is the father of Sue.").1, impossibleMsg)) := by
  refine ⟨⟨by decide, (C1_idempotence_amended.1 kbE _ (by decide)).1⟩, by decide, ?_⟩
  exact C1_idempotence_amended.2.2.2.2.2.2.2.2.1 kbE _ (by decide)
/-- Claim C2 (amended): for the child, daughter and son statements (the kinds
that use the invalid parent-child check), when the two names differ (and, for
daughter and son, no gender conflict exists) the statement is rejected if and
only if the named child is already a recorded parent or grandparent of the
named parent and the reverse parent fact is not already recorded; in
particular, when the parent fact already exists, re-assertion is accepted.
The original claim fails for the father and mother statements, which use the
relatedness check and reject re-assertion (see the counterexample), and the
recorded-ancestor test only reaches parent or grandparent depth. -/
theorem C2_ancestry_carveout_amended :
    (∀ kb s,
      pyLower (extractNamesFromStatement s " is a child of ").1 ≠
        pyLower (extractNamesFromStatement s " is a child of ").2 →
      (processChildStatement kb s = (kb, impossibleMsg) ↔
        ((provParent kb (pyLower (extractNamesFromStatement s " is a child of ").1)
            (pyLower (extractNamesFromStatement s " is a child of ").2) = true ∨
          provGrandparent kb (pyLower (extractNamesFromStatement s " is a child of ").1)
            (pyLower (extractNamesFromStatement s " is a child of ").2) = true) ∧
         provParent kb (pyLower (extractNamesFromStatement s " is a child of ").2)
            (pyLower (extractNamesFromStatement s " is a child of ").1) = false))) ∧
    (∀ kb s,
      pyLower (extractNamesFromStatement s " is a daughter of ").1 ≠
        pyLower (extractNamesFromStatement s " is a daughter of ").2 →
      hasGenderConflict kb (extractNamesFromStatement s " is a daughter of ").1 Gender.female = false →
      (processDaughterStatement kb s = (kb, impossibleMsg) ↔
        ((provParent kb (pyLower (extractNamesFromStatement s " is a daughter of ").1)
            (pyLower (extractNamesFromStatement s " is a daughter of ").2) = true ∨
          provGrandparent kb (pyLower (extractNamesFromStatement s " is a daughter of ").1)
            (pyLower (extractNamesFromStatement s " is a daughter of ").2) = true) ∧
         provParent kb (pyLower (extractNamesFromStatement s " is a daughter of ").2)
            (pyLower (extractNamesFromStatement s " is a daughter of ").1) = false))) ∧
    (∀ kb s,
      pyLower (extractNamesFromStatement s " is a son of ").1 ≠
        pyLower (extractNamesFromStatement s " is a son of ").2 →
      hasGenderConflict kb (extractNamesFromStatement s " is a son of ").1 Gender.male = false →
      (processSonStatement kb s = (kb, impossibleMsg) ↔
        ((provParent kb (pyLower (extractNamesFromStatement s " is a son of ").1)
            (pyLower (extractNamesFromStatement s " is a son of ").2) = true ∨
          provGrandparent kb (pyLower (extractNamesFromStatement s " is a son of ").1)
            (pyLower (extractNamesFromStatement s " is a son of ").2) = true) ∧
         provParent kb (pyLower (extractNamesFromStatement s " is a son of ").2)
            (pyLower (extractNamesFromStatement s " is a son of ").1) = false))) ∧
    (∀ kb s,
      pyLower (extractNamesFromStatement s " is a child of ").1 ≠
        pyLower (extractNamesFromStatement s " is a child of ").2 →
      provParent kb (pyLower (extractNamesFromStatement s " is a child of ").2)
        (pyLower (extractNamesFromStatement s " is a child of ").1) = true →
      (processChildStatement kb s).2 = okMsg) := by
  refine ⟨?_, ?_, ?_, ?_⟩
  · intro kb s hne
    rcases processChildStatement_cases kb s with ⟨hcond, heq⟩ | ⟨_, hw, heq⟩
    · rcases hcond with he | hw
      · exact absurd he hne
      · simp only [wouldCreateInvalidParentChildRelationship, Bool.and_eq_true,
          Bool.or_eq_true, Bool.not_eq_true'] at hw
        exact iff_of_true heq hw
    · refine iff_of_false ?_ ?_
      · intro h
        rw [heq] at h
        have h2 := congrArg Prod.snd h
        dsimp only at h2
        exact absurd h2 (by decide)
      · rintro ⟨hor, hrev⟩
        have ht : wouldCreateInvalidParentChildRelationship kb
            (extractNamesFromStatement s " is a child of ").1
            (extractNamesFromStatement s " is a child of ").2 = true := by
          simp only [wouldCreateInvalidParentChildRelationship]
          rw [hrev]
          rcases hor with h | h <;> simp [h]
        rw [hw] at ht
        exact Bool.false_ne_true ht
  · intro kb s hne hgen
    rcases processDaughterStatement_cases kb s with ⟨hcond, heq⟩ | ⟨_, _, hw, heq⟩
    · rcases hcond with he | hg | hw
      · exact absurd he hne
      · rw [hgen] at hg
        exact absurd hg Bool.false_ne_true
      · simp only [wouldCreateInvalidParentChildRelationship, Bool.and_eq_true,
          Bool.or_eq_true, Bool.not_eq_true'] at hw
        exact iff_of_true heq hw
    · refine iff_of_false ?_ ?_
      · intro h
        rw [heq] at h
        have h2 := congrArg Prod.snd h
        dsimp only at h2
        exact absurd h2 (by decide)
      · rintro ⟨hor, hrev⟩
        have ht : wouldCreateInvalidParentChildRelationship kb
            (extractNamesFromStatement s " is a daughter of ").1
            (extractNamesFromStatement s " is a daughter of ").2 = true := by
          simp only [wouldCreateInvalidParentChildRelationship]
          rw [hrev]
          rcases hor with h | h <;> simp [h]
        rw [hw] at ht
        exact Bool.false_ne_true ht
  · intro kb s hne hgen
    rcases processSonStatement_cases kb s with ⟨hcond, heq⟩ | ⟨_, _, hw, heq⟩
    · rcases hcond with he | hg | hw
      · exact absurd he hne
      · rw [hgen] at hg
        exact absurd hg Bool.false_ne_true
      · simp only [wouldCreateInvalidParentChildRelationship, Bool.and_eq_true,
          Bool.or_eq_true, Bool.not_eq_true'] at hw
        exact iff_of_true heq hw
    · refine iff_of_false ?_ ?_
      · intro h
        rw [heq] at h
        have h2 := congrArg Prod.snd h
        dsimp only at h2
        exact absurd h2 (by decide)
      · rintro ⟨hor, hrev⟩
        have ht : wouldCreateInvalidParentChildRelationship kb
            (extractNamesFromStatement s " is a son of ").1
            (extractNamesFromStatement s " is a son of ").2 = true := by
          simp only [wouldCreateInvalidParentChildRelationship]
          rw [hrev]
          rcases hor with h | h <;> simp [h]
        rw [hw] at ht
        exact Bool.false_ne_true ht
  · intro kb s hne hrev
    rcases processChildStatement_cases kb s with ⟨hcond, heq⟩ | ⟨_, _, heq⟩
    · rcases hcond with he | hw
      · exact absurd he hne
      · simp only [wouldCreateInvalidParentChildRelationship, hrev] at hw
        exact absurd hw (by simp)
    · rw [heq]

/-- Witness for the amended claim C2 at concrete inputs: with the parent fact
ann to dan recorded, asserting ann as a child of dan is rejected; with the
reverse parent fact dan to ann recorded, the same assertion is accepted. -/
theorem C2_ancestry_carveout_amended_witness :
    (pyLower (extractNamesFromStatement "Ann is a child of Dan." " is a child of ").1 ≠
      pyLower (extractNamesFromStatement "Ann is a child of Dan." " is a child of ").2) ∧
    processChildStatement (⟨[], [], [("ann", "dan")], [], [], []⟩ : KB)
      "Ann is a child of Dan." =
      ((⟨[], [], [("ann", "dan")], [], [], []⟩ : KB), impossibleMsg) ∧
    (processChildStatement (⟨[], [], [("dan", "ann")], [], [], []⟩ : KB)
      "Ann is a child of Dan.").2 = okMsg := by
  refine ⟨by decide, ?_, ?_⟩
  · exact (C2_ancestry_carveout_amended.1 _ _ (by decide)).mpr ⟨Or.inl (by decide), by decide⟩
  · exact C2_ancestry_carveout_amended.2.2.2 _ _ (by decide) (by decide)

/-- Claim C4: after any sequence of statements starting from the empty store,
no person is recorded as both male and female, and a statement assigning a
person the gender opposite to their recorded one is rejected with the store,
hence the original gender, unchanged, for each of the ten gendered statement
kinds. -/
theorem C4_gender_exclusivity :
    (∀ (inputs : List String), GenderOK (runStatements kbE inputs)) ∧
    (∀ kb s, hasGenderConflict kb (extractNamesFromStatement s " is the father of ").1 Gender.male = true →
      processFatherStatement kb s = (kb, impossibleMsg)) ∧
    (∀ kb s, hasGenderConflict kb (extractNamesFromStatement s " is the mother of ").1 Gender.female = true →
      processMotherStatement kb s = (kb, impossibleMsg)) ∧
    (∀ kb s, hasGenderConflict kb (extractNamesFromStatement s " is a brother of ").1 Gender.male = true →
      processBrotherStatement kb s = (kb, impossibleMsg)) ∧
    (∀ kb s, hasGenderConflict kb (extractNamesFromStatement s " is a sister of ").1 Gender.female = true →
      processSisterStatement kb s = (kb, impossibleMsg)) ∧
    (∀ kb s, hasGenderConflict kb (extractNamesFromStatement s " is a grandmother of ").1 Gender.female = true →
      processGrandmotherStatement kb s = (kb, impossibleMsg)) ∧
    (∀ kb s, hasGenderConflict kb (extractNamesFromStatement s " is a grandfather of ").1 Gender.male = true →
      processGrandfatherStatement kb s = (kb, impossibleMsg)) ∧
    (∀ kb s, hasGenderConflict kb (extractNamesFromStatement s " is a daughter of ").1 Gender.female = true →
      processDaughterStatement kb s = (kb, impossibleMsg)) ∧
    (∀ kb s, hasGenderConflict kb (extractNamesFromStatement s " is a son of ").1 Gender.male = true →
      processSonStatement kb s = (kb, impossibleMsg)) ∧
    (∀ kb s, hasGenderConflict kb (extractNamesFromStatement s " is an aunt of ").1 Gender.female = true →
      processAuntStatement kb s = (kb, impossibleMsg)) ∧
    (∀ kb s, hasGenderConflict kb (extractNamesFromStatement s " is an uncle of ").1 Gender.male = true →
      processUncleStatement kb s = (kb, impossibleMsg)) := by
  refine ⟨fun inputs => runStatements_genderOK inputs kbE ?_, ?_, ?_, ?_, ?_, ?_, ?_, ?_, ?_, ?_, ?_⟩
  · intro x hx
    simp [kbE] at hx
  · intro kb s hg
    rcases processFatherStatement_cases kb s with ⟨_, heq⟩ | ⟨_, hgc, _, heq⟩
    · exact heq
    · rw [hgc] at hg
      exact absurd hg Bool.false_ne_true
  · intro kb s hg
    rcases processMotherStatement_cases kb s with ⟨_, heq⟩ | ⟨_, hgc, _, heq⟩
    · exact heq
    · rw [hgc] at hg
      exact absurd hg Bool.false_ne_true
  · intro kb s hg
    rcases processBrotherStatement_cases kb s with ⟨_, heq⟩ | ⟨_, hgc, _, heq⟩
    · exact heq
    · rw [hgc] at hg
      exact absurd hg Bool.false_ne_true
  · intro kb s hg
    rcases processSisterStatement_cases kb s with ⟨_, heq⟩ | ⟨_, hgc, _, heq⟩
    · exact heq
    · rw [hgc] at hg
      exact absurd hg Bool.false_ne_true
  · intro kb s hg
    rcases processGrandmotherStatement_cases kb s with ⟨_, heq⟩ | ⟨_, hgc, _, heq⟩
    · exact heq
    · rw [hgc] at hg
      exact absurd hg Bool.false_ne_true
  · intro kb s hg
    rcases processGrandfatherStatement_cases kb s with ⟨_, heq⟩ | ⟨_, hgc, _, heq⟩
    · exact heq
    · rw [hgc] at hg
      exact absurd hg Bool.false_ne_true
  · intro kb s hg
    rcases processDaughterStatement_cases kb s with ⟨_, heq⟩ | ⟨_, hgc, _, heq⟩
    · exact heq
    · rw [hgc] at hg
      exact absurd hg Bool.false_ne_true
  · intro kb s hg
    rcases processSonStatement_cases kb s with ⟨_, heq⟩ | ⟨_, hgc, _, heq⟩
    · exact heq
    · rw [hgc] at hg
      exact absurd hg Bool.false_ne_true
  · intro kb s hg
    rcases processAuntStatement_cases kb s with ⟨_, heq⟩ | ⟨_, hgc, _, heq⟩
    · exact heq
    · rw [hgc] at hg
      exact absurd hg Bool.false_ne_true
  · intro kb s hg
    rcases processUncleStatement_cases kb s with ⟨_, heq⟩ | ⟨_, hgc, _, heq⟩
    · exact heq
    · rw [hgc] at hg
      exact absurd hg Bool.false_ne_true

/-- Witness for claim C4 at a concrete input: with tom recorded female, the
father statement naming tom is rejected and the store is unchanged. -/
theorem C4_gender_exclusivity_witness :
    hasGenderConflict (⟨[], ["tom"], [], [], [], []⟩ : KB)
      (extractNamesFromStatement "Tom is the father of Sue." " is the father of ").1
      Gender.male = true ∧
    processFatherStatement (⟨[], ["tom"], [], [], [], []⟩ : KB)
      "Tom is the father of Sue." =
      ((⟨[], ["tom"], [], [], [], []⟩ : KB), impossibleMsg) :=
  ⟨by decide, C4_gender_exclusivity.2.1 _ _ (by decide)⟩

/-- Claim C5 (amended): a statement is rejected when a subject slot and the
object slot name the same person after canonicalization: each of the eleven
two-name statement kinds rejects when its two names coincide, the siblings
statement rejects when its two names coincide, the parents statement rejects
when the child coincides with either parent, and the multi-children statement
rejects when any child coincides with the parent.  The two parent slots are
never compared with each other, so naming the same person as both parents is
accepted when the child-versus-parent checks pass (original claim fails, see
the counterexample); likewise two equal child slots are never compared. -/
theorem C5_self_reference_amended :
    (∀ kb s,
      pyLower (extractNamesFromStatement s " is the father of ").1 =
        pyLower (extractNamesFromStatement s " is the father of ").2 →
      processFatherStatement kb s = (kb, impossibleMsg)) ∧
    (∀ kb s,
      pyLower (extractNamesFromStatement s " is the mother of ").1 =
        pyLower (extractNamesFromStatement s " is the mother of ").2 →
      processMotherStatement kb s = (kb, impossibleMsg)) ∧
    (∀ kb s,
      pyLower (extractNamesFromStatement s " is a brother of ").1 =
        pyLower (extractNamesFromStatement s " is a brother of ").2 →
      processBrotherStatement kb s = (kb, impossibleMsg)) ∧
    (∀ kb s,
      pyLower (extractNamesFromStatement s " is a sister of ").1 =
        pyLower (extractNamesFromStatement s " is a sister of ").2 →
      processSisterStatement kb s = (kb, impossibleMsg)) ∧
    (∀ kb s,
      pyLower (extractNamesFromStatement s " is a grandmother of ").1 =
        pyLower (extractNamesFromStatement s " is a grandmother of ").2 →
      processGrandmotherStatement kb s = (kb, impossibleMsg)) ∧
    (∀ kb s,
      pyLower (extractNamesFromStatement s " is a grandfather of ").1 =
        pyLower (extractNamesFromStatement s " is a grandfather of ").2 →
      processGrandfatherStatement kb s = (kb, impossibleMsg)) ∧
    (∀ kb s,
      pyLower (extractNamesFromStatement s " is a child of ").1 =
        pyLower (extractNamesFromStatement s " is a child of ").2 →
      processChildStatement kb s = (kb, impossibleMsg)) ∧
    (∀ kb s,
      pyLower (extractNamesFromStatement s " is a daughter of ").1 =
        pyLower (extractNamesFromStatement s " is a daughter of ").2 →
      processDaughterStatement kb s = (kb, impossibleMsg)) ∧
    (∀ kb s,
      pyLower (extractNamesFromStatement s " is a son of ").1 =
        pyLower (extractNamesFromStatement s " is a son of ").2 →
      processSonStatement kb s = (kb, impossibleMsg)) ∧
    (∀ kb s,
      pyLower (extractNamesFromStatement s " is an aunt of ").1 =
        pyLower (extractNamesFromStatement s " is an aunt of ").2 →
      processAuntStatement kb s = (kb, impossibleMsg)) ∧
    (∀ kb s,
      pyLower (extractNamesFromStatement s " is an uncle of ").1 =
        pyLower (extractNamesFromStatement s " is an uncle of ").2 →
      processUncleStatement kb s = (kb, impossibleMsg)) ∧
    (∀ kb s a b, pySplit " and " (pyReplace s " are siblings" "") = [a, b] →
      pyLower (canonName a) = pyLower (canonName b) →
      processSiblingsStatement kb s = (kb, impossibleMsg)) ∧
    (∀ kb s x y z,
      pySplit " and " (pyReplace s " are the parents of " " and ") = [x, y, z] →
      (pyLower (canonName z) = pyLower (canonName x) ∨
        pyLower (canonName z) = pyLower (canonName y)) →
      processParentsStatement kb s = (kb, impossibleMsg)) ∧
    (∀ kb s x y z,
      pySplit " and " (pyReplace s " are the parents of " " and ") = [x, y, z] →
      pyLower (canonName z) ≠ pyLower (canonName x) →
      pyLower (canonName z) ≠ pyLower (canonName y) →
      wouldCreateCircularRelationship kb (canonName z) (canonName x) = false →
      wouldCreateCircularRelationship kb (canonName z) (canonName y) = false →
      (processParentsStatement kb s).2 = okMsg) ∧
    (∀ kb s p1 p2 (rest : List String) c,
      pySplit " and "
        (pyReplace (pyReplace s " are children of " " and ") ", " " and ") =
        p1 :: p2 :: rest →
      c ∈ (p1 :: p2 :: rest).dropLast.map canonName →
      pyLower c = pyLower (canonName ((p1 :: p2 :: rest).getLastD "")) →
      processMultipleChildrenStatement kb s = (kb, impossibleMsg)) := by
  refine ⟨?_, ?_, ?_, ?_, ?_, ?_, ?_, ?_, ?_, ?_, ?_, ?_, ?_, ?_, ?_⟩
  · intro kb s he
    rcases processFatherStatement_cases kb s with ⟨_, heq⟩ | hr
    · exact heq
    · exact absurd he hr.1
  · intro kb s he
    rcases processMotherStatement_cases kb s with ⟨_, heq⟩ | hr
    · exact heq
    · exact absurd he hr.1
  · intro kb s he
    rcases processBrotherStatement_cases kb s with ⟨_, heq⟩ | hr
    · exact heq
    · exact absurd he hr.1
  · intro kb s he
    rcases processSisterStatement_cases kb s with ⟨_, heq⟩ | hr
    · exact heq
    · exact absurd he hr.1
  · intro kb s he
    rcases processGrandmotherStatement_cases kb s with ⟨_, heq⟩ | hr
    · exact heq
    · exact absurd he hr.1
  · intro kb s he
    rcases processGrandfatherStatement_cases kb s with ⟨_, heq⟩ | hr
    · exact heq
    · exact absurd he hr.1
  · intro kb s he
    rcases processChildStatement_cases kb s with ⟨_, heq⟩ | hr
    · exact heq
    · exact absurd he hr.1
  · intro kb s he
    rcases processDaughterStatement_cases kb s with ⟨_, heq⟩ | hr
    · exact heq
    · exact absurd he hr.1
  · intro kb s he
    rcases processSonStatement_cases kb s with ⟨_, heq⟩ | hr
    · exact heq
    · exact absurd he hr.1
  · intro kb s he
    rcases processAuntStatement_cases kb s with ⟨_, heq⟩ | hr
    · exact heq
    · exact absurd he hr.1
  · intro kb s he
    rcases processUncleStatement_cases kb s with ⟨_, heq⟩ | hr
    · exact heq
    · exact absurd he hr.1
  · intro kb s a b hsp he
    rcases processSiblingsStatement_cases kb s a b hsp with ⟨_, heq⟩ | hr
    · exact heq
    · exact absurd he hr.1
  · intro kb s x y z hsp he
    rcases processParentsStatement_cases kb s x y z hsp with ⟨_, heq⟩ | hr
    · exact heq
    · rcases he with he | he
      · exact absurd he hr.1
      · exact absurd he hr.2.1
  · intro kb s x y z hsp h1 h2 h3 h4
    rcases processParentsStatement_cases kb s x y z hsp with ⟨hcond, heq⟩ | hr
    · rcases hcond with hc | hc | hc | hc
      · exact absurd hc h1
      · exact absurd hc h2
      · rw [h3] at hc
        exact absurd hc Bool.false_ne_true
      · rw [h4] at hc
        exact absurd hc Bool.false_ne_true
    · rw [hr.2.2.2.2]
  · intro kb s p1 p2 rest c hsp hc hceq
    rcases processMultipleChildrenStatement_cases kb s p1 p2 rest hsp with
      ⟨_, heq⟩ | ⟨hv, _⟩
    · exact heq
    · exfalso
      simp only [validateMultipleChildrenStatement, List.all_eq_true] at hv
      have h2 := hv c hc
      simp [hceq] at h2

/-- Witness for the amended claim C5 at concrete inputs: the father statement
with identical names is rejected, and the parents statement naming the same
person in both parent slots is accepted. -/
theorem C5_self_reference_amended_witness :
    (pyLower (extractNamesFromStatement "Tom is the father of Tom." " is the father of ").1 =
      pyLower (extractNamesFromStatement "Tom is the father of Tom." " is the father of ").2) ∧
    processFatherStatement kbE "Tom is the father of Tom." = (kbE, impossibleMsg) ∧
    (processParentsStatement kbE "Alice and Alice are the parents of Bob.").2 = okMsg := by
  refine ⟨by decide, C5_self_reference_amended.1 kbE _ (by decide), ?_⟩
  exact C5_self_reference_amended.2.2.2.2.2.2.2.2.2.2.2.2.2.1 kbE
    "Alice and Alice are the parents of Bob." "Alice" "Alice" "Bob."
    (by decide) (by decide) (by decide) (by decide) (by decide)

/-- Claim C6: a rejected or invalid statement leaves the store exactly as it
was (no partial commits), and the multi-children statement is atomic: it is
rejected as a whole, with the store unchanged, when validation fails for any
child, and on acceptance it appends exactly one parent fact per listed child
and changes nothing else. -/
theorem C6_atomic_commits :
    (∀ kb s, (processStatement kb s).2 ≠ okMsg → (processStatement kb s).1 = kb) ∧
    (∀ kb s p1 p2 (rest : List String),
      pySplit " and "
        (pyReplace (pyReplace s " are children of " " and ") ", " " and ") =
        p1 :: p2 :: rest →
      validateMultipleChildrenStatement kb ((p1 :: p2 :: rest).dropLast.map canonName)
        (canonName ((p1 :: p2 :: rest).getLastD "")) = false →
      processMultipleChildrenStatement kb s = (kb, impossibleMsg)) ∧
    (∀ kb s p1 p2 (rest : List String),
      pySplit " and "
        (pyReplace (pyReplace s " are children of " " and ") ", " " and ") =
        p1 :: p2 :: rest →
      validateMultipleChildrenStatement kb ((p1 :: p2 :: rest).dropLast.map canonName)
        (canonName ((p1 :: p2 :: rest).getLastD "")) = true →
      (processMultipleChildrenStatement kb s).2 = okMsg ∧
      (processMultipleChildrenStatement kb s).1.parents =
        kb.parents ++ ((p1 :: p2 :: rest).dropLast.map canonName).map
          (fun c => (pyLower (canonName ((p1 :: p2 :: rest).getLastD "")), pyLower c)) ∧
      (processMultipleChildrenStatement kb s).1.males = kb.males ∧
      (processMultipleChildrenStatement kb s).1.females = kb.females ∧
      (processMultipleChildrenStatement kb s).1.siblings = kb.siblings ∧
      (processMultipleChildrenStatement kb s).1.grandparents = kb.grandparents ∧
      (processMultipleChildrenStatement kb s).1.piblings = kb.piblings) := by
  refine ⟨fun kb s => (processStatement_basic kb s).2, ?_, ?_⟩
  · intro kb s p1 p2 rest hsp hv
    rcases processMultipleChildrenStatement_cases kb s p1 p2 rest hsp with
      ⟨_, heq⟩ | ⟨hv2, _⟩
    · exact heq
    · rw [hv] at hv2
      exact absurd hv2 Bool.false_ne_true
  · intro kb s p1 p2 rest hsp hv
    rcases processMultipleChildrenStatement_cases kb s p1 p2 rest hsp with
      ⟨hv2, _⟩ | ⟨_, heq⟩
    · rw [hv2] at hv
      exact absurd hv Bool.false_ne_true
    · rw [heq]
      obtain ⟨fm, ff, fs, fg, fp, fpar⟩ := foldl_assertParent_fields
        (pyLower (canonName ((p1 :: p2 :: rest).getLastD "")))
        ((p1 :: p2 :: rest).dropLast.map canonName) kb
      exact ⟨rfl, fpar, fm, ff, fs, fg, fp⟩

/-- Witness for claim C6 at a concrete input: a three-child statement is
accepted and appends exactly the three parent facts. -/
theorem C6_atomic_commits_witness :
    validateMultipleChildrenStatement kbE
      (["Ana", "Ben", "Cal", "Dee."].dropLast.map canonName)
      (canonName (["Ana", "Ben", "Cal", "Dee."].getLastD "")) = true ∧
    (processMultipleChildrenStatement kbE "Ana, Ben and Cal are children of Dee.").2 = okMsg ∧
    (processMultipleChildrenStatement kbE "Ana, Ben and Cal are children of Dee.").1.parents =
      kbE.parents ++ (["Ana", "Ben", "Cal", "Dee."].dropLast.map canonName).map
        (fun c => (pyLower (canonName (["Ana", "Ben", "Cal", "Dee."].getLastD "")), pyLower c)) := by
  have h := C6_atomic_commits.2.2 kbE "Ana, Ben and Cal are children of Dee."
    "Ana" "Ben" ["Cal", "Dee."] (by decide) (by decide)
  exact ⟨by decide, h.1, h.2.1⟩

/-- Claim C7 (amended): every plural who-question (siblings, sisters,
brothers, parents, daughters, sons, children) answers with the full,
deduplicated, alphabetically sorted list of matches, and with the
unknown sentence when there are no matches; the singular who-mother and
who-father questions instead report only the first matching binding and use
their own unknown wording, not the unknown sentence of
the plural forms (original claim fails there, see the counterexample). -/
theorem C7_enumeration_amended :
    (∀ role person (sols : List String),
      (sols = [] → whoListAnswer role person sols = unknownMsg role (pyCapitalize person)) ∧
      (sols ≠ [] →
        whoListAnswer role person sols =
          enumMsg role (pyCapitalize person)
            (joinComma (sortNames ((sols.map pyCapitalize).dedup))) ∧
        (sortNames ((sols.map pyCapitalize).dedup)).Nodup ∧
        List.Sorted (· ≤ ·) (sortNames ((sols.map pyCapitalize).dedup)) ∧
        (∀ x, x ∈ sortNames ((sols.map pyCapitalize).dedup) ↔ x ∈ sols.map pyCapitalize))) ∧
    (∀ kb q, processWhoSiblingsQuestion kb q =
      whoListAnswer "siblings" (whoExtract q "Who are the siblings of ")
        (siblingMatches kb (whoExtract q "Who are the siblings of "))) ∧
    (∀ kb q, processWhoSistersQuestion kb q =
      whoListAnswer "sisters" (whoExtract q "Who are the sisters of ")
        (sisterMatches kb (whoExtract q "Who are the sisters of "))) ∧
    (∀ kb q, processWhoBrothersQuestion kb q =
      whoListAnswer "brothers" (whoExtract q "Who are the brothers of ")
        (brotherMatches kb (whoExtract q "Who are the brothers of "))) ∧
    (∀ kb q, processWhoParentsQuestion kb q =
      whoListAnswer "parents" (whoExtract q "Who are the parents of ")
        (parentMatches kb (whoExtract q "Who are the parents of "))) ∧
    (∀ kb q, processWhoDaughtersQuestion kb q =
      whoListAnswer "daughters" (whoExtract q "Who are the daughters of ")
        (daughterMatches kb (whoExtract q "Who are the daughters of "))) ∧
    (∀ kb q, processWhoSonsQuestion kb q =
      whoListAnswer "sons" (whoExtract q "Who are the sons of ")
        (sonMatches kb (whoExtract q "Who are the sons of "))) ∧
    (∀ kb q, processWhoChildrenQuestion kb q =
      whoListAnswer "children" (whoExtract q "Who are the children of ")
        (childMatches kb (whoExtract q "Who are the children of "))) ∧
    (∀ kb q, motherMatches kb (whoExtract q "Who is the mother of ") = [] →
      processWhoMotherQuestion kb q =
        unknownWhoMsg "mother" (pyCapitalize (whoExtract q "Who is the mother of "))) ∧
    (∀ kb q m (rest : List String),
      motherMatches kb (whoExtract q "Who is the mother of ") = m :: rest →
      processWhoMotherQuestion kb q =
        singularMsg "mother" (pyCapitalize (whoExtract q "Who is the mother of "))
          (pyCapitalize m)) ∧
    (∀ kb q, fatherMatches kb (whoExtract q "Who is the father of ") = [] →
      processWhoFatherQuestion kb q =
        unknownWhoMsg "father" (pyCapitalize (whoExtract q "Who is the father of "))) ∧
    (∀ kb q f (rest : List String),
      fatherMatches kb (whoExtract q "Who is the father of ") = f :: rest →
      processWhoFatherQuestion kb q =
        singularMsg "father" (pyCapitalize (whoExtract q "Who is the father of "))
          (pyCapitalize f)) := by
  refine ⟨?_, fun kb q => rfl, fun kb q => rfl, fun kb q => rfl, fun kb q => rfl,
    fun kb q => rfl, fun kb q => rfl, fun kb q => rfl, ?_, ?_, ?_, ?_⟩
  · intro role person sols
    constructor
    · intro h
      simp [whoListAnswer, h]
    · intro h
      have h2 : ¬(sols.isEmpty = true) := by simpa using h
      refine ⟨?_, nodup_sortNames _ (List.nodup_dedup _), sortNames_sorted _, ?_⟩
      · rw [whoListAnswer, if_neg h2]
      · intro x
        rw [mem_sortNames, List.mem_dedup]
  · intro kb q h
    simp only [processWhoMotherQuestion]
    rw [h]
  · intro kb q m rest h
    simp only [processWhoMotherQuestion]
    rw [h]
  · intro kb q h
    simp only [processWhoFatherQuestion]
    rw [h]
  · intro kb q f rest h
    simp only [processWhoFatherQuestion]
    rw [h]

/-- Witness for the amended claim C7 at concrete inputs: a nonempty solution
list yields the sorted deduplicated enumeration, and the who-mother question
with no match yields its own unknown wording. -/
theorem C7_enumeration_amended_witness :
    (["bob", "amy", "bob"] : List String) ≠ [] ∧
    whoListAnswer "siblings" "ann" ["bob", "amy", "bob"] =
      enumMsg "siblings" (pyCapitalize "ann")
        (joinComma (sortNames (((["bob", "amy", "bob"] : List String).map pyCapitalize).dedup))) ∧
    motherMatches kbE (whoExtract "Who is the mother of Ann?" "Who is the mother of ") = [] ∧
    processWhoMotherQuestion kbE "Who is the mother of Ann?" =
      unknownWhoMsg "mother"
        (pyCapitalize (whoExtract "Who is the mother of Ann?" "Who is the mother of ")) := by
  refine ⟨by decide,
    ((C7_enumeration_amended.1 "siblings" "ann" ["bob", "amy", "bob"]).2 (by decide)).1,
    by decide, ?_⟩
  exact C7_enumeration_amended.2.2.2.2.2.2.2.2.1 kbE "Who is the mother of Ann?" (by decide)
lemma outcomeOK_ok : OutcomeOK okMsg := Or.inl rfl

lemma outcomeOK_impossible : OutcomeOK impossibleMsg := Or.inr (Or.inl rfl)

lemma outcomeOK_invalidStmt : OutcomeOK invalidStmtMsg := Or.inr (Or.inr (Or.inl rfl))

lemma outcomeOK_invalidQ : OutcomeOK invalidQMsg := Or.inr (Or.inr (Or.inr (Or.inl rfl)))

lemma outcomeOK_yes : OutcomeOK yesMsg := Or.inr (Or.inr (Or.inr (Or.inr (Or.inl rfl))))

lemma outcomeOK_no : OutcomeOK noMsg := Or.inr (Or.inr (Or.inr (Or.inr (Or.inr (Or.inl rfl)))))

lemma outcomeOK_enum (r n l : String) : OutcomeOK (enumMsg r n l) :=
  Or.inr (Or.inr (Or.inr (Or.inr (Or.inr (Or.inr (Or.inl ⟨r, n, l, rfl⟩))))))

lemma outcomeOK_singular (r n v : String) : OutcomeOK (singularMsg r n v) :=
  Or.inr (Or.inr (Or.inr (Or.inr (Or.inr (Or.inr (Or.inr (Or.inl ⟨r, n, v, rfl⟩)))))))

lemma outcomeOK_unknown (r n : String) : OutcomeOK (unknownMsg r n) :=
  Or.inr (Or.inr (Or.inr (Or.inr (Or.inr (Or.inr (Or.inr (Or.inr (Or.inl ⟨r, n, rfl⟩))))))))

lemma outcomeOK_unknownWho (r n : String) : OutcomeOK (unknownWhoMsg r n) :=
  Or.inr (Or.inr (Or.inr (Or.inr (Or.inr (Or.inr (Or.inr (Or.inr (Or.inr (⟨r, n, rfl⟩)))))))))

lemma outcomeOK_whoListAnswer (role person : String) (sols : List String) :
    OutcomeOK (whoListAnswer role person sols) := by
  simp only [whoListAnswer]
  split
  · exact outcomeOK_unknown _ _
  · exact outcomeOK_enum _ _ _

lemma processSiblingsQuestion_outcome (kb : KB) (q : String) :
    OutcomeOK (processSiblingsQuestion kb q) := by
  simp only [processSiblingsQuestion]
  repeat' split
  all_goals first
    | exact outcomeOK_yes
    | exact outcomeOK_no
    | exact outcomeOK_invalidQ

lemma processSisterQuestion_outcome (kb : KB) (q : String) :
    OutcomeOK (processSisterQuestion kb q) := by
  simp only [processSisterQuestion]
  repeat' split
  all_goals first
    | exact outcomeOK_yes
    | exact outcomeOK_no
    | exact outcomeOK_invalidQ

lemma processBrotherQuestion_outcome (kb : KB) (q : String) :
    OutcomeOK (processBrotherQuestion kb q) := by
  simp only [processBrotherQuestion]
  repeat' split
  all_goals first
    | exact outcomeOK_yes
    | exact outcomeOK_no
    | exact outcomeOK_invalidQ

lemma processMotherQuestion_outcome (kb : KB) (q : String) :
    OutcomeOK (processMotherQuestion kb q) := by
  simp only [processMotherQuestion]
  repeat' split
  all_goals first
    | exact outcomeOK_yes
    | exact outcomeOK_no
    | exact outcomeOK_invalidQ

lemma processFatherQuestion_outcome (kb : KB) (q : String) :
    OutcomeOK (processFatherQuestion kb q) := by
  simp only [processFatherQuestion]
  repeat' split
  all_goals first
    | exact outcomeOK_yes
    | exact outcomeOK_no
    | exact outcomeOK_invalidQ

lemma processParentsQuestion_outcome (kb : KB) (q : String) :
    OutcomeOK (processParentsQuestion kb q) := by
  simp only [processParentsQuestion]
  repeat' split
  all_goals first
    | exact outcomeOK_yes
    | exact outcomeOK_no
    | exact outcomeOK_invalidQ

lemma processGrandmotherQuestion_outcome (kb : KB) (q : String) :
    OutcomeOK (processGrandmotherQuestion kb q) := by
  simp only [processGrandmotherQuestion]
  repeat' split
  all_goals first
    | exact outcomeOK_yes
    | exact outcomeOK_no
    | exact outcomeOK_invalidQ

lemma processGrandfatherQuestion_outcome (kb : KB) (q : String) :
    OutcomeOK (processGrandfatherQuestion kb q) := by
  simp only [processGrandfatherQuestion]
  repeat' split
  all_goals first
    | exact outcomeOK_yes
    | exact outcomeOK_no
    | exact outcomeOK_invalidQ

lemma processDaughterQuestion_outcome (kb : KB) (q : String) :
    OutcomeOK (processDaughterQuestion kb q) := by
  simp only [processDaughterQuestion]
  repeat' split
  all_goals first
    | exact outcomeOK_yes
    | exact outcomeOK_no
    | exact outcomeOK_invalidQ

lemma processSonQuestion_outcome (kb : KB) (q : String) :
    OutcomeOK (processSonQuestion kb q) := by
  simp only [processSonQuestion]
  repeat' split
  all_goals first
    | exact outcomeOK_yes
    | exact outcomeOK_no
    | exact outcomeOK_invalidQ

lemma processChildQuestion_outcome (kb : KB) (q : String) :
    OutcomeOK (processChildQuestion kb q) := by
  simp only [processChildQuestion]
  repeat' split
  all_goals first
    | exact outcomeOK_yes
    | exact outcomeOK_no
    | exact outcomeOK_invalidQ

lemma processMultipleChildrenQuestion_outcome (kb : KB) (q : String) :
    OutcomeOK (processMultipleChildrenQuestion kb q) := by
  simp only [processMultipleChildrenQuestion]
  repeat' split
  all_goals first
    | exact outcomeOK_yes
    | exact outcomeOK_no
    | exact outcomeOK_invalidQ

lemma processAuntQuestion_outcome (kb : KB) (q : String) :
    OutcomeOK (processAuntQuestion kb q) := by
  simp only [processAuntQuestion]
  repeat' split
  all_goals first
    | exact outcomeOK_yes
    | exact outcomeOK_no
    | exact outcomeOK_invalidQ

lemma processUncleQuestion_outcome (kb : KB) (q : String) :
    OutcomeOK (processUncleQuestion kb q) := by
  simp only [processUncleQuestion]
  repeat' split
  all_goals first
    | exact outcomeOK_yes
    | exact outcomeOK_no
    | exact outcomeOK_invalidQ

lemma processRelativesQuestion_outcome (kb : KB) (q : String) :
    OutcomeOK (processRelativesQuestion kb q) := by
  simp only [processRelativesQuestion]
  repeat' split
  all_goals first
    | exact outcomeOK_yes
    | exact outcomeOK_no
    | exact outcomeOK_invalidQ

lemma processWhoSiblingsQuestion_outcome (kb : KB) (q : String) :
    OutcomeOK (processWhoSiblingsQuestion kb q) := by
  simp only [processWhoSiblingsQuestion]
  exact outcomeOK_whoListAnswer _ _ _

lemma processWhoSistersQuestion_outcome (kb : KB) (q : String) :
    OutcomeOK (processWhoSistersQuestion kb q) := by
  simp only [processWhoSistersQuestion]
  exact outcomeOK_whoListAnswer _ _ _

lemma processWhoBrothersQuestion_outcome (kb : KB) (q : String) :
    OutcomeOK (processWhoBrothersQuestion kb q) := by
  simp only [processWhoBrothersQuestion]
  exact outcomeOK_whoListAnswer _ _ _

lemma processWhoParentsQuestion_outcome (kb : KB) (q : String) :
    OutcomeOK (processWhoParentsQuestion kb q) := by
  simp only [processWhoParentsQuestion]
  exact outcomeOK_whoListAnswer _ _ _

lemma processWhoDaughtersQuestion_outcome (kb : KB) (q : String) :
    OutcomeOK (processWhoDaughtersQuestion kb q) := by
  simp only [processWhoDaughtersQuestion]
  exact outcomeOK_whoListAnswer _ _ _

lemma processWhoSonsQuestion_outcome (kb : KB) (q : String) :
    OutcomeOK (processWhoSonsQuestion kb q) := by
  simp only [processWhoSonsQuestion]
  exact outcomeOK_whoListAnswer _ _ _

lemma processWhoChildrenQuestion_outcome (kb : KB) (q : String) :
    OutcomeOK (processWhoChildrenQuestion kb q) := by
  simp only [processWhoChildrenQuestion]
  exact outcomeOK_whoListAnswer _ _ _

lemma processWhoMotherQuestion_outcome (kb : KB) (q : String) :
    OutcomeOK (processWhoMotherQuestion kb q) := by
  simp only [processWhoMotherQuestion]
  split
  · exact outcomeOK_unknownWho _ _
  · exact outcomeOK_singular _ _ _

lemma processWhoFatherQuestion_outcome (kb : KB) (q : String) :
    OutcomeOK (processWhoFatherQuestion kb q) := by
  simp only [processWhoFatherQuestion]
  split
  · exact outcomeOK_unknownWho _ _
  · exact outcomeOK_singular _ _ _

lemma processQuestion_outcome (kb : KB) (q : String) :
    OutcomeOK (processQuestion kb q) := by
  simp only [processQuestion]
  by_cases h0 : (startsB "Are " (pyStrip q) && strIn " siblings?" (pyStrip q)) = true
  · rw [if_pos h0]
    exact processSiblingsQuestion_outcome kb _
  rw [if_neg h0]
  by_cases h1 : (startsB "Is " (pyStrip q) && strIn " a sister of " (pyStrip q) && endsB "?" (pyStrip q)) = true
  · rw [if_pos h1]
    exact processSisterQuestion_outcome kb _
  rw [if_neg h1]
  by_cases h2 : (startsB "Is " (pyStrip q) && strIn " a brother of " (pyStrip q) && endsB "?" (pyStrip q)) = true
  · rw [if_pos h2]
    exact processBrotherQuestion_outcome kb _
  rw [if_neg h2]
  by_cases h3 : (startsB "Is " (pyStrip q) && strIn " the mother of " (pyStrip q) && endsB "?" (pyStrip q)) = true
  · rw [if_pos h3]
    exact processMotherQuestion_outcome kb _
  rw [if_neg h3]
  by_cases h4 : (startsB "Is " (pyStrip q) && strIn " the father of " (pyStrip q) && endsB "?" (pyStrip q)) = true
  · rw [if_pos h4]
    exact processFatherQuestion_outcome kb _
  rw [if_neg h4]
  by_cases h5 : (startsB "Are " (pyStrip q) && strIn " the parents of " (pyStrip q) && endsB "?" (pyStrip q)) = true
  · rw [if_pos h5]
    exact processParentsQuestion_outcome kb _
  rw [if_neg h5]
  by_cases h6 : (startsB "Is " (pyStrip q) && strIn " a grandmother of " (pyStrip q) && endsB "?" (pyStrip q)) = true
  · rw [if_pos h6]
    exact processGrandmotherQuestion_outcome kb _
  rw [if_neg h6]
  by_cases h7 : (startsB "Is " (pyStrip q) && strIn " a grandfather of " (pyStrip q) && endsB "?" (pyStrip q)) = true
  · rw [if_pos h7]
    exact processGrandfatherQuestion_outcome kb _
  rw [if_neg h7]
  by_cases h8 : (startsB "Is " (pyStrip q) && strIn " a daughter of " (pyStrip q) && endsB "?" (pyStrip q)) = true
  · rw [if_pos h8]
    exact processDaughterQuestion_outcome kb _
  rw [if_neg h8]
  by_cases h9 : (startsB "Is " (pyStrip q) && strIn " a son of " (pyStrip q) && endsB "?" (pyStrip q)) = true
  · rw [if_pos h9]
    exact processSonQuestion_outcome kb _
  rw [if_neg h9]
  by_cases h10 : (startsB "Is " (pyStrip q) && strIn " a child of " (pyStrip q) && endsB "?" (pyStrip q)) = true
  · rw [if_pos h10]
    exact processChildQuestion_outcome kb _
  rw [if_neg h10]
  by_cases h11 : (startsB "Are " (pyStrip q) && strIn " children of " (pyStrip q) && endsB "?" (pyStrip q)) = true
  · rw [if_pos h11]
    exact processMultipleChildrenQuestion_outcome kb _
  rw [if_neg h11]
  by_cases h12 : (startsB "Is " (pyStrip q) && strIn " an aunt of " (pyStrip q) && endsB "?" (pyStrip q)) = true
  · rw [if_pos h12]
    exact processAuntQuestion_outcome kb _
  rw [if_neg h12]
  by_cases h13 : (startsB "Is " (pyStrip q) && strIn " an uncle of " (pyStrip q) && endsB "?" (pyStrip q)) = true
  · rw [if_pos h13]
    exact processUncleQuestion_outcome kb _
  rw [if_neg h13]
  by_cases h14 : (startsB "Are " (pyStrip q) && strIn " relatives?" (pyStrip q)) = true
  · rw [if_pos h14]
    exact processRelativesQuestion_outcome kb _
  rw [if_neg h14]
  by_cases h15 : (startsB "Who are the siblings of " (pyStrip q) && endsB "?" (pyStrip q)) = true
  · rw [if_pos h15]
    exact processWhoSiblingsQuestion_outcome kb _
  rw [if_neg h15]
  by_cases h16 : (startsB "Who are the sisters of " (pyStrip q) && endsB "?" (pyStrip q)) = true
  · rw [if_pos h16]
    exact processWhoSistersQuestion_outcome kb _
  rw [if_neg h16]
  by_cases h17 : (startsB "Who are the brothers of " (pyStrip q) && endsB "?" (pyStrip q)) = true
  · rw [if_pos h17]
    exact processWhoBrothersQuestion_outcome kb _
  rw [if_neg h17]
  by_cases h18 : (startsB "Who is the mother of " (pyStrip q) && endsB "?" (pyStrip q)) = true
  · rw [if_pos h18]
    exact processWhoMotherQuestion_outcome kb _
  rw [if_neg h18]
  by_cases h19 : (startsB "Who is the father of " (pyStrip q) && endsB "?" (pyStrip q)) = true
  · rw [if_pos h19]
    exact processWhoFatherQuestion_outcome kb _
  rw [if_neg h19]
  by_cases h20 : (startsB "Who are the parents of " (pyStrip q) && endsB "?" (pyStrip q)) = true
  · rw [if_pos h20]
    exact processWhoParentsQuestion_outcome kb _
  rw [if_neg h20]
  by_cases h21 : (startsB "Who are the daughters of " (pyStrip q) && endsB "?" (pyStrip q)) = true
  · rw [if_pos h21]
    exact processWhoDaughtersQuestion_outcome kb _
  rw [if_neg h21]
  by_cases h22 : (startsB "Who are the sons of " (pyStrip q) && endsB "?" (pyStrip q)) = true
  · rw [if_pos h22]
    exact processWhoSonsQuestion_outcome kb _
  rw [if_neg h22]
  by_cases h23 : (startsB "Who are the children of " (pyStrip q) && endsB "?" (pyStrip q)) = true
  · rw [if_pos h23]
    exact processWhoChildrenQuestion_outcome kb _
  rw [if_neg h23]
  exact outcomeOK_invalidQ


/-- Claim C8: every single input line produces exactly one reply drawn from
the fixed outcome set (accepted, impossible, invalid statement, invalid
question, yes, no, enumeration, singular, unknown) or the farewell line, the
handlers are total functions so no input can fail, and the session continues
after every input except exactly the quit and exit sentinels. -/
theorem C8_total_outcomes :
    (∀ kb raw, OutcomeOK (handleInput kb raw).2.1 ∨ (handleInput kb raw).2.1 = byeMsg) ∧
    (∀ kb raw, ((handleInput kb raw).2.2 = false ↔
      (pyLower (pyStrip raw) = "quit" ∨ pyLower (pyStrip raw) = "exit"))) := by
  constructor
  · intro kb raw
    simp only [handleInput]
    split_ifs with h1 h2
    · exact Or.inr rfl
    · exact Or.inl (processQuestion_outcome kb _)
    · dsimp only
      rcases (processStatement_basic kb (pyStrip raw)).1 with h | h | h
      · rw [h]
        exact Or.inl outcomeOK_ok
      · rw [h]
        exact Or.inl outcomeOK_impossible
      · rw [h]
        exact Or.inl outcomeOK_invalidStmt
  · intro kb raw
    simp only [handleInput]
    split_ifs with h1 h2
    · exact iff_of_true rfl h1
    · exact iff_of_false (by simp) h1
    · exact iff_of_false (by simp) h1

/-- Claim C9: the store never enforces uniqueness of a child\x27s mother or
father: the mother and father statements are accepted whenever the two names
differ, no gender conflict exists and the two people are not already related —
no check against an existing different mother or father appears in the
condition — and the who-mother question reports only the first matching
binding.  Concretely, two distinct women are both accepted as the mother of
carl, both bindings are stored, and the question answers with the first one
only. -/
theorem C9_multiple_mothers :
    (∀ kb s,
      pyLower (extractNamesFromStatement s " is the mother of ").1 ≠
        pyLower (extractNamesFromStatement s " is the mother of ").2 →
      hasGenderConflict kb (extractNamesFromStatement s " is the mother of ").1
        Gender.female = false →
      wouldCreateCircularRelationship kb (extractNamesFromStatement s " is the mother of ").2
        (extractNamesFromStatement s " is the mother of ").1 = false →
      (processMotherStatement kb s).2 = okMsg) ∧
    (∀ kb s,
      pyLower (extractNamesFromStatement s " is the father of ").1 ≠
        pyLower (extractNamesFromStatement s " is the father of ").2 →
      hasGenderConflict kb (extractNamesFromStatement s " is the father of ").1
        Gender.male = false →
      wouldCreateCircularRelationship kb (extractNamesFromStatement s " is the father of ").2
        (extractNamesFromStatement s " is the father of ").1 = false →
      (processFatherStatement kb s).2 = okMsg) ∧
    (∀ kb q m (rest : List String),
      motherMatches kb (whoExtract q "Who is the mother of ") = m :: rest →
      processWhoMotherQuestion kb q =
        singularMsg "mother" (pyCapitalize (whoExtract q "Who is the mother of "))
          (pyCapitalize m)) ∧
    ((processStatement kbE "Mona is the mother of Carl.").2 = okMsg ∧
      (processStatement (processStatement kbE "Mona is the mother of Carl.").1
        "Nina is the mother of Carl.").2 = okMsg ∧
      motherMatches (runStatements kbE
        ["Mona is the mother of Carl.", "Nina is the mother of Carl."]) "carl" =
        ["mona", "nina"] ∧
      processQuestion (runStatements kbE
        ["Mona is the mother of Carl.", "Nina is the mother of Carl."])
        "Who is the mother of Carl?" = singularMsg "mother" "Carl" "Mona") := by
  refine ⟨?_, ?_, ?_, by decide, by decide, by decide, by decide⟩
  · intro kb s hne hgen hcirc
    rcases processMotherStatement_cases kb s with ⟨hcond, _⟩ | hr
    · rcases hcond with he | hg | hw
      · exact absurd he hne
      · rw [hgen] at hg
        exact absurd hg Bool.false_ne_true
      · rw [hcirc] at hw
        exact absurd hw Bool.false_ne_true
    · rw [hr.2.2.2]
  · intro kb s hne hgen hcirc
    rcases processFatherStatement_cases kb s with ⟨hcond, _⟩ | hr
    · rcases hcond with he | hg | hw
      · exact absurd he hne
      · rw [hgen] at hg
        exact absurd hg Bool.false_ne_true
      · rw [hcirc] at hw
        exact absurd hw Bool.false_ne_true
    · rw [hr.2.2.2]
  · intro kb q m rest h
    simp only [processWhoMotherQuestion]
    rw [h]

/-- Witness for claim C9 at a concrete input: with a different mother of carl
already recorded, a second mother statement for carl is accepted. -/
theorem C9_multiple_mothers_witness :
    motherMatches (⟨[], ["mona"], [("mona", "carl")], [], [], []⟩ : KB) "carl" = ["mona"] ∧
    (processMotherStatement (⟨[], ["mona"], [("mona", "carl")], [], [], []⟩ : KB)
      "Nina is the mother of Carl.").2 = okMsg := by
  refine ⟨by decide, ?_⟩
  exact C9_multiple_mothers.1 _ _ (by decide) (by decide) (by decide)

/-- Claim C10: every name extracted from a statement is canonicalized by
stripping, removing trailing periods, lowercasing the whole token and
capitalizing the first character; the lower-cased form under which facts are
stored and matched forgets the capitalization entirely, every atom ever
stored is fully lower-cased, the capitalize step keeps only the first letter
upper-cased and lower-cases the rest, and concretely an interior-capitalized
input is stored fully lower-cased and printed with only its first letter
upper-cased. -/
theorem C10_canonicalization :
    (∀ s ph, extractNamesFromStatement s ph =
      (pyCapitalize (pyLower (rstripDots (pyStrip ((pySplit ph s).getD 0 "")))),
       pyCapitalize (pyLower (rstripDots (pyStrip ((pySplit ph s).getD 1 "")))))) ∧
    (∀ s, pyLower (canonName s) = pyLower (rstripDots (pyStrip s))) ∧
    (∀ (inputs : List String), LoweredKB (runStatements kbE inputs)) ∧
    (∀ (c : Char) (t : List Char),
      pyCapitalize ⟨c :: t⟩ = ⟨upperChar c :: t.map lowerChar⟩) ∧
    ((runStatements kbE ["MacDonald and LiL John are siblings."]).siblings =
      [("macdonald", "lil john"), ("lil john", "macdonald")] ∧
      processQuestion (runStatements kbE ["MacDonald and LiL John are siblings."])
        "Who are the siblings of Lil John?" =
        enumMsg "siblings" "Lil john" "Macdonald") := by
  refine ⟨fun s ph => rfl, ?_, ?_, fun c t => rfl, by decide, by decide⟩
  · intro s
    rw [canonName, pyLower_pyCapitalize, pyLower_idem]
  · intro inputs
    refine runStatements_lowered inputs kbE ?_
    refine ⟨?_, ?_, ?_, ?_, ?_, ?_⟩ <;> intro x hx <;> simp [kbE] at hx
